import Mathlib

/-!
# gensio: TCP transport and the gtlssh client

A shallow embedding of `lib/gensio_tcp.c` and `tools/gtlssh.c`.  C functions
become Lean functions over an explicit world; calls into the operating system
and into other gensio layers are answered by scripts that are part of the
world, so that every definition can be evaluated on concrete inputs.
-/

namespace Gensio

/-- Bytes of a file, or of a C string without its terminating NUL. -/
abbrev Bytes := List UInt8

/-- Error numbers of `errno.h` that the sources name.  The header belongs to
the platform, so the values are parameters. -/
structure Errno where
  EEXIST : Int
  EINPROGRESS : Int
  EBUSY : Int
  EINTR : Int
  EAGAIN : Int
  EWOULDBLOCK : Int
  EPIPE : Int
  EINVAL : Int
  ENOTSUP : Int
  ENOMEM : Int
  E2BIG : Int
  deriving Repr

/-- What POSIX promises of the error numbers: they are positive, and pairwise
distinct except that `EAGAIN` and `EWOULDBLOCK` may coincide. -/
def Errno.WF (E : Errno) : Prop :=
  0 < E.EEXIST ∧ 0 < E.EINPROGRESS ∧ 0 < E.EBUSY ∧ 0 < E.EINTR ∧ 0 < E.EAGAIN ∧
  0 < E.EWOULDBLOCK ∧ 0 < E.EPIPE ∧ 0 < E.EINVAL ∧ 0 < E.ENOTSUP ∧
  0 < E.ENOMEM ∧ 0 < E.E2BIG ∧
  E.EINTR ≠ E.EAGAIN ∧ E.EINTR ≠ E.EWOULDBLOCK ∧ E.EINTR ≠ E.EPIPE ∧
  E.EPIPE ≠ E.EAGAIN ∧ E.EPIPE ≠ E.EWOULDBLOCK ∧ E.EINPROGRESS ≠ E.EBUSY

instance (E : Errno) : Decidable E.WF := by
  unfold Errno.WF; infer_instance

/-- The values of the error numbers on Linux. -/
def Errno.linux : Errno where
  EEXIST := 17
  EINPROGRESS := 115
  EBUSY := 16
  EINTR := 4
  EAGAIN := 11
  EWOULDBLOCK := 11
  EPIPE := 32
  EINVAL := 22
  ENOTSUP := 95
  ENOMEM := 12
  E2BIG := 7

/-- The gensio error codes that `gtlssh.c` names, and `gensio_os_err_to_err`.
`gensio_err.h` and the library function are not among the sources, so they
are parameters. -/
structure GE where
  NOMEM : Int
  NOTSUP : Int
  INVAL : Int
  KEYINVALID : Int
  CERTNOTFOUND : Int
  CERTINVALID : Int
  CERTREVOKED : Int
  CERTEXPIRED : Int
  AUTHREJECT : Int
  os_err_to_err : Int → Int

/-- The gensio error codes are nonzero (zero means success), the certificate
outcomes are told apart, and a system error is translated to an error. -/
def GE.WF (g : GE) : Prop :=
  g.NOMEM ≠ 0 ∧ g.NOTSUP ≠ 0 ∧ g.INVAL ≠ 0 ∧ g.KEYINVALID ≠ 0 ∧
  g.CERTNOTFOUND ≠ 0 ∧ g.CERTINVALID ≠ 0 ∧ g.CERTREVOKED ≠ 0 ∧
  g.CERTEXPIRED ≠ 0 ∧ g.AUTHREJECT ≠ 0 ∧
  g.CERTINVALID ≠ g.CERTNOTFOUND ∧ g.CERTREVOKED ≠ g.CERTNOTFOUND ∧
  g.CERTEXPIRED ≠ g.CERTNOTFOUND ∧ ∀ e : Int, 0 < e → g.os_err_to_err e ≠ 0

/-- An assignment of the codes for the examples, after the numbering of the
released `gensio_err.h`, with every system error mapped to `GE_OSERR` (9).
The theorems hold for every assignment that satisfies `WF`. -/
def GE.std : GE where
  NOMEM := 1
  NOTSUP := 2
  INVAL := 3
  KEYINVALID := 20
  CERTNOTFOUND := 30
  CERTINVALID := 22
  CERTREVOKED := 18
  CERTEXPIRED := 19
  AUTHREJECT := 31
  os_err_to_err := fun e => if e = 0 then 0 else 9

/-! ## The client's view of the outside world -/

/-- Scripted answer to one fallible call (allocation, open, read, write). -/
inductive SysRes where
  /-- The call succeeds as the file store says. -/
  | ok
  /-- The call fails and sets `errno`. -/
  | fail (errno : Int)
  /-- A read or write that transfers at most `n` bytes. -/
  | short (n : Nat)
  deriving DecidableEq, Repr

/-- The world of the certificate handler: the files under the CA directory,
the script answering the coming calls (an exhausted script answers `ok`), the
lines `fgets` will deliver from standard input (end of file after the last),
and the number of y/n prompts printed so far. -/
structure World where
  files : String → Option Bytes
  sys : List SysRes
  stdin : List Bytes
  prompts : Nat

/-- The script's answer to the next call, and the world after it. -/
def World.pop (w : World) : SysRes × World :=
  match w.sys with
  | [] => (SysRes.ok, w)
  | r :: rest => (r, { w with sys := rest })

/-- A call that fails sets `errno` to a positive value. -/
def World.sane (w : World) : Prop := ∀ e : Int, SysRes.fail e ∈ w.sys → 0 < e

/-- The result of a handler: it returns a value or the process exits. -/
inductive Outcome where
  | ret (rv : Int)
  | exit (status : Int)
  deriving DecidableEq, Repr

/-- `verify_certfile`: compare the certificate with the file `filename`.
`open` failing for any reason gives `GE_CERTNOTFOUND`; the single `read` into
the 16384-byte buffer must deliver exactly `strlen(cert)` bytes equal to the
certificate. -/
def verify_certfile (g : GE) (cert : Bytes) (filename : String) (w : World) :
    Int × World :=
  match w.pop with
  | (SysRes.fail _, w1) => (g.NOMEM, w1)          -- alloc_vsprintf
  | (_, w1) =>
    match w1.pop with                              -- open(filename, O_RDONLY)
    | (SysRes.fail _, w2) => (g.CERTNOTFOUND, w2)
    | (_, w2) =>
      match w2.files filename with
      | none => (g.CERTNOTFOUND, w2)
      | some content =>
        match w2.pop with                          -- read(fd, cmpcert, sizeof(cmpcert))
        | (SysRes.fail e, w3) => (g.os_err_to_err e, w3)
        | (r, w3) =>
          let avail := min content.length 16384
          let rv := match r with
            | SysRes.short n => min n avail
            | _ => avail
          if rv ≠ cert.length then (g.CERTINVALID, w3)
          else if cert ≠ content.take rv then (g.CERTINVALID, w3)
          else (0, w3)

/-- The `retry:` loop of `add_certfile`: write the rest of the certificate
until all of it is written or a `write` fails.  The result is the return
value, the script left, and the bytes that reached the file. -/
def add_certfile_write (g : GE) : List SysRes → Bytes → Bytes → Int × List SysRes × Bytes
  | [], cert, done => (0, [], done ++ cert)
  | SysRes.ok :: s, cert, done => (0, s, done ++ cert)
  | SysRes.fail e :: s, _, done => (g.os_err_to_err e, s, done)
  | SysRes.short n :: s, cert, done =>
    if cert.length ≤ n then (0, s, done ++ cert)
    else add_certfile_write g s (cert.drop n) (done ++ cert.take n)

/-- `add_certfile`: create `filename` exclusively and write the certificate
into it.  An existing file gives `GE_KEYINVALID` and is left alone. -/
def add_certfile (g : GE) (E : Errno) (cert : Bytes) (filename : String) (w : World) :
    Int × World :=
  match w.pop with
  | (SysRes.fail _, w1) => (g.NOMEM, w1)          -- alloc_vsprintf
  | (_, w1) =>
    match w1.pop with              -- open(filename, O_CREAT | O_EXCL | O_WRONLY, 0600)
    | (SysRes.fail e, w2) =>
      if e = E.EEXIST then (g.KEYINVALID, w2) else (g.os_err_to_err e, w2)
    | (_, w2) =>
      match w2.files filename with
      | some _ => (g.KEYINVALID, w2)
      | none =>
        match add_certfile_write g w2.sys cert [] with
        | (rv, s, written) =>
          (rv, { w2 with
                 sys := s
                 files := fun f => if f = filename then some written else w2.files f })

/-- The `do ... while (true)` loop asking "Add this certificate? (y/n): ".
The answer is `none` when `fgets` reports the end of the input, where the
program calls `exit(1)`. -/
def ask_add (g : GE) : List Bytes → Nat → Option Int × List Bytes × Nat
  | [], p => (none, [], p + 1)
  | line :: rest, p =>
    if line.head? = some 121 then (some 0, rest, p + 1)                -- 'y'
    else if line.head? = some 110 then (some g.AUTHREJECT, rest, p + 1) -- 'n'
    else ask_add g rest (p + 1)

/-- What `auth_event` learns from the SSL layer and the globals it reads.  The
layer does not change during the handler, so a control asked twice answers
the same. -/
structure Session where
  /-- The gensio types from `io` down through its children. -/
  stack : List String
  /-- Return value of `gensio_control(GENSIO_CONTROL_CERT)`. -/
  cert_err : Int
  /-- The certificate text it stores. -/
  cert : Bytes
  /-- The length it reports. -/
  certlen : Nat
  /-- The text `gensio_raddr_to_str` stores. -/
  raddr : String
  /-- Return value of `gensio_control(GENSIO_CONTROL_CERT_FINGERPRINT)`. -/
  fp_err : Int
  /-- The fingerprint length it reports. -/
  fplen : Nat
  CAdir : String
  hostname : String
  port : Int
  /-- The effect of `system("gtlssh-keygen rehash <CAdir>")` on the files. -/
  rehash : (String → Option Bytes) → (String → Option Bytes)
  /-- The certificate is a C string inside `char cert[16384]`. -/
  cert_fits : cert.length < 16384

/-- The name `"%s/%s,%d.crt"` of the pin by host and port. -/
def Session.hostPin (s : Session) : String :=
  s.CAdir ++ "/" ++ s.hostname ++ "," ++ toString s.port ++ ".crt"

/-- The name `"%s/%s.crt"` of the pin by remote address. -/
def Session.addrPin (s : Session) : String :=
  s.CAdir ++ "/" ++ s.raddr ++ ".crt"

/-- The block `if (!err)` after the question in the branch `if (!ierr)`: add
the pin by host and port if `err1` is set, then, if that went well, the pin by
address if `err2` is set. -/
def auth_event_add_missing (g : GE) (E : Errno) (s : Session) (err1 err2 : Int) (w : World) :
    Int × World :=
  let r1 := if err1 ≠ 0 then add_certfile g E s.cert s.hostPin w else (0, w)
  if r1.1 = 0 ∧ err2 ≠ 0 then add_certfile g E s.cert s.addrPin r1.2 else r1

/-- The branch `if (!ierr)` of `auth_event`: the library accepted the
certificate.  On entry `err` is 0, left by the successful certificate
control; the branch ends in `goto postcert_done`, which returns `err`. -/
def auth_event_accepted (g : GE) (E : Errno) (s : Session) (w : World) :
    Outcome × World :=
  match verify_certfile g s.cert s.hostPin w with
  | (err1, w1) =>
    match verify_certfile g s.cert s.addrPin w1 with
    | (err2, w2) =>
      if (err1 = g.CERTNOTFOUND ∧ err1 = err2) ∨
         (err1 = g.CERTNOTFOUND ∧ err2 = 0) ∨
         (err2 = g.CERTNOTFOUND ∧ err1 = 0) then
        match ask_add g w2.stdin w2.prompts with
        | (none, rest, p) => (Outcome.exit 1, { w2 with stdin := rest, prompts := p })
        | (some err, rest, p) =>
          if err ≠ 0 then (Outcome.ret err, { w2 with stdin := rest, prompts := p })
          else
            match auth_event_add_missing g E s err1 err2
                    { w2 with stdin := rest, prompts := p } with
            | (err, w3) => (Outcome.ret err, w3)
      else (Outcome.ret 0, w2)

/-- The rest of the handler, for `ierr == GE_CERTNOTFOUND`: show the
fingerprint, ask, and on yes fetch the certificate again, write both pins and
run the rehash. -/
def auth_event_notfound (g : GE) (E : Errno) (s : Session) (w : World) :
    Outcome × World :=
  if s.fp_err ≠ 0 then (Outcome.ret g.CERTINVALID, w)
  else if 256 ≤ s.fplen then (Outcome.ret g.CERTINVALID, w)
  else
    match ask_add g w.stdin w.prompts with
    | (none, rest, p) => (Outcome.exit 1, { w with stdin := rest, prompts := p })
    | (some err, rest, p) =>
      let w1 : World := { w with stdin := rest, prompts := p }
      if err ≠ 0 then (Outcome.ret err, w1)
      else if s.cert_err ≠ 0 then (Outcome.ret g.NOMEM, w1)
      else if 16384 ≤ s.certlen then (Outcome.ret g.NOMEM, w1)
      else
        let r1 := add_certfile g E s.cert s.hostPin w1
        let r2 := if r1.1 = 0 then add_certfile g E s.cert s.addrPin r1.2 else r1
        match r2.2.pop with                        -- alloc_sprintf of the command
        | (SysRes.fail _, w4) => (Outcome.ret r2.1, w4)
        | (_, w4) => (Outcome.ret r2.1, { w4 with files := s.rehash w4.files })

/-- The case `GENSIO_EVENT_POSTCERT_VERIFY` of `auth_event`: find the SSL
layer, fetch the certificate and the remote address, then act on `ierr`. -/
def auth_event_postcert (g : GE) (E : Errno) (s : Session) (ierr : Int) (w : World) :
    Outcome × World :=
  if ¬ s.stack.contains "ssl" then (Outcome.ret g.INVAL, w)
  else if s.cert_err ≠ 0 then (Outcome.ret g.NOMEM, w)
  else if 16384 ≤ s.certlen then (Outcome.ret g.NOMEM, w)
  else if ierr = 0 then auth_event_accepted g E s w
  else if ierr ≠ g.CERTNOTFOUND then (Outcome.ret ierr, w)
  else auth_event_notfound g E s w

/-! ## The TCP transport, connect side (`gensio_tcp.c`) -/

/-- One candidate of a `struct addrinfo` list: the family and the socket
address; `ai_addrlen` is the length of the address. -/
structure AddrInfo where
  ai_family : Int
  ai_addr : Bytes
  deriving DecidableEq, Repr

/-- The field `ai_addrlen`. -/
def AddrInfo.ai_addrlen (a : AddrInfo) : Nat := a.ai_addr.length

/-- Scripted answer to one socket call. -/
inductive NetRes where
  /-- The call succeeds; a `getsockopt` reports what the socket holds. -/
  | ok
  /-- The call returns -1 and sets `errno`. -/
  | fail (errno : Int)
  /-- A `getsockopt` that succeeds and reports `v`. -/
  | value (v : Int)
  deriving DecidableEq, Repr

/-- What the transport does to the network, in order. -/
inductive NetEv where
  | socket (fd : Int) (family : Int)
  | connect (fd : Int) (addr : Bytes)
  | close (fd : Int)
  deriving DecidableEq, Repr

/-- The sockets as the transport sees them: the script answering the coming
calls (an exhausted script answers `ok`), the descriptor the next `socket`
call returns, the `TCP_NODELAY` value each socket holds, and the calls made. -/
structure Net where
  script : List NetRes
  next_fd : Nat
  nodelay : Int → Int
  log : List NetEv

/-- The script's answer to the next call. -/
def Net.pop (n : Net) : NetRes × Net :=
  match n.script with
  | [] => (NetRes.ok, n)
  | r :: rest => (r, { n with script := rest })

/-- The call `close(fd)`. -/
def Net.close (n : Net) (fd : Int) : Net :=
  { n with log := n.log ++ [NetEv.close fd] }

/-- The state `struct tcp_data`.  `remote` is the `sockaddr_storage` that
`raddr` points to; `curr_ai` points into the list `ai` and is modelled by the
rest of the list from that candidate on, the empty list being NULL. -/
structure tcp_data where
  remote : Bytes
  raddrlen : Nat
  ai : List AddrInfo
  curr_ai : List AddrInfo
  last_err : Int

/-- The call `memcpy(dst, src, src.length)` into a buffer. -/
def memcpy (dst src : Bytes) : Bytes := src ++ dst.drop src.length

/-- `tcp_check_open`: read `SO_ERROR`, store it and return it. -/
def tcp_check_open (tdata : tcp_data) (n : Net) : Int × tcp_data × Net :=
  match n.pop with
  | (NetRes.fail e, n1) => (e, { tdata with last_err := e }, n1)
  | (NetRes.value v, n1) => (v, { tdata with last_err := v }, n1)
  | (NetRes.ok, n1) => (0, { tdata with last_err := 0 }, n1)

/-- `tcp_socket_setup`: `fcntl(O_NONBLOCK)` then `setsockopt(SO_KEEPALIVE)`. -/
def tcp_socket_setup (n : Net) : Int × Net :=
  match n.pop with
  | (NetRes.fail e, n1) => (e, n1)
  | (_, n1) =>
    match n1.pop with
    | (NetRes.fail e, n2) => (e, n2)
    | (_, n2) => (0, n2)

/-- The end of `tcp_try_open` from the label `out:`. -/
def tcp_try_open_out (err : Int) (new_fd : Int) (tdata : tcp_data) (fd : Int) (n : Net) :
    Int × tcp_data × Int × Net :=
  if err ≠ 0 then
    if new_fd ≠ -1 then (err, tdata, fd, n.close new_fd) else (err, tdata, fd, n)
  else (err, tdata, new_fd, n)

/-- The loop of `tcp_try_open` at the label `retry:`: connect the socket
`new_fd` to the candidate `ai`, and on failure to those after it. -/
def tcp_try_open_retry (E : Errno) (new_fd : Int) :
    AddrInfo → List AddrInfo → tcp_data → Int → Net → Int × tcp_data × Int × Net
  | ai, rest, tdata, fd, n =>
    match n.pop with
    | (r, n0) =>
      let n1 : Net := { n0 with log := n0.log ++ [NetEv.connect new_fd ai.ai_addr] }
      let err : Int := match r with
        | NetRes.fail e => e
        | _ => 0
      if r = NetRes.fail E.EINPROGRESS then
        (err, { tdata with curr_ai := ai :: rest }, new_fd, n1)
      else if err ≠ 0 then
        match rest with
        | [] => tcp_try_open_out err new_fd tdata fd n1
        | next :: rest1 => tcp_try_open_retry E new_fd next rest1 tdata fd n1
      else
        tcp_try_open_out err new_fd
          { tdata with remote := memcpy tdata.remote ai.ai_addr, raddrlen := ai.ai_addrlen }
          fd n1

/-- `tcp_try_open`: returns the error, the state, the caller's `*fd` and the
network.  There is no result when `curr_ai` is NULL, which the C code
dereferences. -/
def tcp_try_open (E : Errno) (tdata : tcp_data) (fd : Int) (n : Net) :
    Option (Int × tcp_data × Int × Net) :=
  match tdata.curr_ai with
  | [] => none
  | ai :: rest =>
    match n.pop with                                 -- socket(ai->ai_family, ...)
    | (NetRes.fail e, n1) => some (tcp_try_open_out e (-1) tdata fd n1)
    | (_, n1) =>
      let new_fd : Int := n1.next_fd
      let n2 : Net := { n1 with next_fd := n1.next_fd + 1,
                                log := n1.log ++ [NetEv.socket new_fd ai.ai_family] }
      match tcp_socket_setup n2 with
      | (err, n3) =>
        if err ≠ 0 then some (tcp_try_open_out err new_fd tdata fd n3)
        else some (tcp_try_open_retry E new_fd ai rest tdata fd n3)

/-- `tcp_retry_open`: move to the next candidate, or give up with the last
error. -/
def tcp_retry_open (E : Errno) (tdata : tcp_data) (fd : Int) (n : Net) :
    Option (Int × tcp_data × Int × Net) :=
  let tdata1 : tcp_data := match tdata.curr_ai with
    | [] => tdata
    | _ :: rest => { tdata with curr_ai := rest }
  match tdata1.curr_ai with
  | [] => some (tdata1.last_err, tdata1, fd, n)
  | _ :: _ => tcp_try_open E tdata1 fd n

/-- `tcp_sub_open`: start at the head of the list. -/
def tcp_sub_open (E : Errno) (tdata : tcp_data) (fd : Int) (n : Net) :
    Option (Int × tcp_data × Int × Net) :=
  tcp_try_open E { tdata with curr_ai := tdata.ai } fd n

/-- The state `tcp_gensio_alloc` builds (zeroed by `zalloc`, with a copy of
the address list), or the error it returns.  `args_ok` says that every
argument is a `readbuf` key, `alloc_ok` that the allocations succeed; the
copy of an empty list is the NULL pointer, which the function takes for a
failed allocation. -/
def tcp_gensio_alloc (E : Errno) (iai : List AddrInfo) (args_ok alloc_ok : Bool) :
    Except Int tcp_data :=
  if ¬ args_ok then Except.error E.EINVAL
  else if iai.any (fun a => decide (128 < a.ai_addrlen)) then Except.error E.E2BIG
  else if ¬ alloc_ok ∨ iai = [] then Except.error E.ENOMEM
  else Except.ok { remote := List.replicate 128 0, raddrlen := 0, ai := iai,
                   curr_ai := [], last_err := 0 }

/-! ## C strings and the C library -/

/-- A C string without its terminating NUL; a well-formed one holds no NUL
character. -/
abbrev CStr := List Char

/-- The constants of the socket and gensio headers that `gensio_tcp.c` names;
the headers are not among the sources, so the values are parameters. -/
structure Params where
  MSG_OOB : Nat
  GENSIO_CONTROL_NODELAY : Nat
  deriving Repr

/-- The values used in the examples: `MSG_OOB` of Linux and the first control
number. -/
def Params.linux : Params where
  MSG_OOB := 1
  GENSIO_CONTROL_NODELAY := 1

/-- Conversion of a value to `int`, two's complement on 32 bits. -/
def toInt32 (v : Int) : Int :=
  if v % 4294967296 < 2147483648 then v % 4294967296 else v % 4294967296 - 4294967296

/-- Conversion of a value to `unsigned int`. -/
def toU32 (v : Int) : Nat := (v % 4294967296).toNat

/-- The C library's `isspace` in the C locale. -/
def isspace (c : Char) : Bool :=
  c = ' ' || c = '\t' || c = '\n' || c = '\x0b' || c = '\x0c' || c = '\r'

/-- The C library's `tolower` in the C locale. -/
def tolower (c : Char) : Char :=
  if 65 ≤ c.toNat ∧ c.toNat ≤ 90 then Char.ofNat (c.toNat + 32) else c

/-- The value of a character as a digit of `strtoul`. -/
def digit_value (c : Char) : Option Nat :=
  if 48 ≤ c.toNat ∧ c.toNat ≤ 57 then some (c.toNat - 48)
  else if 97 ≤ c.toNat ∧ c.toNat ≤ 122 then some (c.toNat - 87)
  else if 65 ≤ c.toNat ∧ c.toNat ≤ 90 then some (c.toNat - 55)
  else none

/-- The digits `strtoul` consumes in base `base`: the value accumulated and
the number of characters consumed. -/
def strtoul_digits (base : Nat) : CStr → Nat → Nat → Nat × Nat
  | [], acc, k => (acc, k)
  | c :: cs, acc, k =>
    match digit_value c with
    | some d => if d < base then strtoul_digits base cs (acc * base + d) (k + 1) else (acc, k)
    | none => (acc, k)

/-- The largest `unsigned long` (LP64). -/
def ULONG_MAX : Nat := 18446744073709551615

/-- Whether the text starts with `0x` or `0X` followed by a hexadecimal digit. -/
def has_hex_lead (s : CStr) : Bool :=
  match s with
  | '0' :: x :: d :: _ =>
    (x = 'x' || x = 'X') && (match digit_value d with
                             | some v => decide (v < 16)
                             | none => false)
  | _ => false

/-- The C library's `strtoul(s, &end, base)` as ISO C describes it: white
space is skipped, a sign is accepted, base 0 chooses the base from the
lead, a value out of range gives `ULONG_MAX`, a negated value wraps.  The
result is the value and the index `end - s`; with no digits the value is 0
and `end` is `s`. -/
def strtoul (s : CStr) (base : Nat) : Nat × Nat :=
  let ws := (s.takeWhile isspace).length
  let s1 := s.drop ws
  let neg : Bool := s1.head? = some '-'
  let sl : Nat := if s1.head? = some '-' ∨ s1.head? = some '+' then 1 else 0
  let s2 := s1.drop sl
  let hex : Bool := (base = 0 ∨ base = 16) ∧ has_hex_lead s2
  let b : Nat := if hex then 16
                 else if base = 0 then (if s2.head? = some '0' then 8 else 10)
                 else base
  let pl : Nat := if hex then 2 else 0
  match strtoul_digits b (s2.drop pl) 0 0 with
  | (acc, k) =>
    if k = 0 then (0, 0)
    else if ULONG_MAX < acc then (ULONG_MAX, ws + sl + pl + k)
    else if neg then ((ULONG_MAX + 1 - acc) % (ULONG_MAX + 1), ws + sl + pl + k)
    else (acc, ws + sl + pl + k)

/-- The text `snprintf(buf, size, "%d", val)` leaves in `buf`. -/
def snprintf_d (size : Nat) (val : Int) : CStr :=
  (toString val).toList.take (size - 1)

/-- The C library's `strcasecmp`. -/
def strcasecmp : CStr → CStr → Int
  | [], [] => 0
  | [], b :: _ => 0 - ((tolower b).toNat : Int)
  | a :: _, [] => ((tolower a).toNat : Int)
  | a :: as, b :: bs =>
    if tolower a = tolower b then strcasecmp as bs
    else ((tolower a).toNat : Int) - ((tolower b).toNat : Int)

/-! ## The TCP transport: control and write -/

/-- `tcp_control` on the socket `fd`: the return value, the caller's buffer
afterwards and the network. -/
def tcp_control (E : Errno) (P : Params) (fd : Int) (get : Bool) (option : Nat)
    (data : CStr) (n : Net) : Int × CStr × Net :=
  if option = P.GENSIO_CONTROL_NODELAY then
    if get then
      let len := data.length + 1
      match n.pop with                               -- getsockopt(TCP_NODELAY)
      | (NetRes.fail e, n1) => (e, data, n1)
      | (NetRes.value v, n1) => (0, snprintf_d len v, n1)
      | (NetRes.ok, n1) => (0, snprintf_d len (n1.nodelay fd), n1)
    else
      let val := toInt32 (strtoul data 0).1
      match n.pop with                               -- setsockopt(TCP_NODELAY)
      | (NetRes.fail e, n1) => (e, data, n1)
      | (_, n1) =>
        (0, data, { n1 with nodelay := fun f => if f = fd then val else n1.nodelay f })
  else (E.ENOTSUP, data, n)

/-- What one `send` call gives: the value assigned to `int rv`, and `errno`. -/
structure SendRes where
  rv : Int
  errno : Int
  deriving DecidableEq, Repr

/-- One `send` call as the kernel sees it. -/
structure SendCall where
  fd : Int
  buflen : Nat
  flags : Nat
  deriving DecidableEq, Repr

/-- The connection under `tcp_write`: the results of the coming `send` calls
and the calls made so far. -/
structure Wire where
  script : List SendRes
  sent : List SendCall
  deriving DecidableEq, Repr

/-- The loop of `tcp_write` over `auxdata`, which stops at the first error. -/
def tcp_write_aux (E : Errno) (P : Params) : List CStr → Nat → Int → Nat × Int
  | [], flags, err => (flags, err)
  | tag :: tags, flags, err =>
    if err ≠ 0 then (flags, err)
    else if strcasecmp tag "oob".toList = 0 then tcp_write_aux E P tags (flags ||| P.MSG_OOB) err
    else tcp_write_aux E P tags flags E.EINVAL

/-- The `retry:` loop of `tcp_write`: `rv`, `err`, and the connection after
the call that was not interrupted.  There is no result when every scripted
call is interrupted. -/
def tcp_write_retry (E : Errno) (fd : Int) (buflen flags : Nat) :
    List SendRes → List SendCall → Option (Int × Int × Wire)
  | [], _ => none
  | r :: rest, sent =>
    if r.rv < 0 then
      if r.errno = E.EINTR then
        tcp_write_retry E fd buflen flags rest (sent ++ [SendCall.mk fd buflen flags])
      else if r.errno = E.EWOULDBLOCK ∨ r.errno = E.EAGAIN then
        some (0, 0, Wire.mk rest (sent ++ [SendCall.mk fd buflen flags]))
      else some (r.rv, r.errno, Wire.mk rest (sent ++ [SendCall.mk fd buflen flags]))
    else if r.rv = 0 then
      some (r.rv, E.EPIPE, Wire.mk rest (sent ++ [SendCall.mk fd buflen flags]))
    else some (r.rv, 0, Wire.mk rest (sent ++ [SendCall.mk fd buflen flags]))

/-- `tcp_write`: the return value, `*rcount` afterwards (`rcount` is none for
a NULL pointer) and the connection.  `auxdata` is none for a NULL pointer. -/
def tcp_write (E : Errno) (P : Params) (fd : Int) (rcount : Option Nat) (buflen : Nat)
    (auxdata : Option (List CStr)) (w : Wire) : Option (Int × Option Nat × Wire) :=
  let fe : Nat × Int := match auxdata with
    | none => (0, 0)
    | some tags => tcp_write_aux E P tags 0 0
  if auxdata.isSome ∧ fe.2 ≠ 0 then some (fe.2, rcount, w)
  else
    match tcp_write_retry E fd buflen fe.1 w.script w.sent with
    | none => none
    | some (rv, err, w1) =>
      if err = 0 then some (err, rcount.map (fun _ => toU32 rv), w1)
      else some (err, rcount, w1)

/-! ## The TCP accepter (`gensio_tcp.c`) -/

/-- What the accepter does to the reactor, the sockets and its user, in
order. -/
inductive AccEv where
  | set_read_handler (fd : Int) (enable : Bool)
  | clear_fd_handlers (fd : Int)
  | close (fd : Int)
  | shutdown_done (cb : Nat) (data : Nat)
  | finish_free
  deriving DecidableEq, Repr

/-- The state `struct tcpna_data`, with the events so far.  `shutdown_done`
and `acceptfds` are none when the pointer is NULL; `freed` is set once
`tcpna_finish_free` has released the structure.  The lock is not modelled:
the operations run one after the other. -/
structure tcpna_data where
  setup : Bool
  enabled : Bool
  in_shutdown : Bool
  refcount : Nat
  shutdown_done : Option Nat
  shutdown_data : Nat
  acceptfds : Option (List Int)
  nr_acceptfds : Nat
  nr_accept_close_waiting : Nat
  freed : Bool
  log : List AccEv
  deriving DecidableEq, Repr

/-- The descriptors `acceptfds[0 .. nr_acceptfds-1]`; none when the loop
over them would read outside the array. -/
def tcpna_data.fds (s : tcpna_data) : Option (List Int) :=
  match s.acceptfds with
  | none => if s.nr_acceptfds = 0 then some [] else none
  | some l => if s.nr_acceptfds ≤ l.length then some (l.take s.nr_acceptfds) else none

/-- `tcpna_finish_free`. -/
def tcpna_finish_free (s : tcpna_data) : tcpna_data :=
  { s with freed := true, log := s.log ++ [AccEv.finish_free] }

/-- `tcpna_ref`. -/
def tcpna_ref (s : tcpna_data) : tcpna_data :=
  { s with refcount := (s.refcount + 1) % 4294967296 }

/-- `tcpna_deref_and_unlock`; none when the assertion `refcount > 0` fails. -/
def tcpna_deref_and_unlock (s : tcpna_data) : Option tcpna_data :=
  if s.refcount = 0 then none
  else
    let s1 : tcpna_data := { s with refcount := s.refcount - 1 }
    if s1.refcount = 0 then some (tcpna_finish_free s1) else some s1

/-- `tcpna_fd_cleared`; none when it runs on a freed structure. -/
def tcpna_fd_cleared (fd : Int) (s : tcpna_data) : Option tcpna_data :=
  if s.freed then none
  else
    let s1 : tcpna_data :=
      { s with log := s.log ++ [AccEv.close fd],
               nr_accept_close_waiting := (s.nr_accept_close_waiting + 4294967295) % 4294967296 }
    if s1.nr_accept_close_waiting = 0 then
      let s2 : tcpna_data := match s1.shutdown_done with
        | some cb => { s1 with log := s1.log ++ [AccEv.shutdown_done cb s1.shutdown_data] }
        | none => s1
      tcpna_deref_and_unlock { s2 with in_shutdown := false }
    else some s1

/-- `tcpna_set_fd_enables`. -/
def tcpna_set_fd_enables (s : tcpna_data) (enable : Bool) : Option tcpna_data :=
  match s.fds with
  | none => none
  | some l => some { s with log := s.log ++ l.map (fun fd => AccEv.set_read_handler fd enable) }

/-- `tcpna_startup`.  `opened` is what `gensio_open_socket` gives: the
listening descriptors, or `errno` with a NULL result. -/
def tcpna_startup (E : Errno) (opened : Except Int (List Int)) (s : tcpna_data) :
    Option (Int × tcpna_data) :=
  if s.freed then none
  else if s.in_shutdown ∨ s.setup then some (E.EBUSY, s)
  else
    match opened with
    | Except.error e => some (e, { s with acceptfds := none })
    | Except.ok l =>
      let s1 : tcpna_data := { s with acceptfds := some l, nr_acceptfds := l.length, setup := true }
      match tcpna_set_fd_enables s1 true with
      | none => none
      | some s2 => some (0, tcpna_ref { s2 with enabled := true, shutdown_done := none })

/-- The helper `_tcpna_shutdown`. -/
def tcpna_shutdown_locked (s : tcpna_data) (shutdown_done : Option Nat) (shutdown_data : Nat) :
    Option tcpna_data :=
  match s.fds with
  | none => none
  | some l =>
    some { s with in_shutdown := true, shutdown_done := shutdown_done,
                  shutdown_data := shutdown_data,
                  nr_accept_close_waiting := s.nr_acceptfds,
                  log := s.log ++ l.map AccEv.clear_fd_handlers,
                  setup := false, enabled := false }

/-- `tcpna_shutdown`. -/
def tcpna_shutdown (E : Errno) (shutdown_done : Option Nat) (shutdown_data : Nat)
    (s : tcpna_data) : Option (Int × tcpna_data) :=
  if s.freed then none
  else if s.setup then (tcpna_shutdown_locked s shutdown_done shutdown_data).map (fun s1 => (0, s1))
  else some (E.EBUSY, s)

/-- `tcpna_set_accept_callback_enable`. -/
def tcpna_set_accept_callback_enable (enabled : Bool) (s : tcpna_data) : Option tcpna_data :=
  if s.freed then none
  else if s.enabled ≠ enabled then
    (tcpna_set_fd_enables s enabled).map (fun s1 => { s1 with enabled := enabled })
  else some s

/-- `tcpna_free`. -/
def tcpna_free (s : tcpna_data) : Option tcpna_data :=
  if s.freed then none
  else if s.setup then (tcpna_shutdown_locked s none 0).bind tcpna_deref_and_unlock
  else tcpna_deref_and_unlock s

/-- The structure `tcp_gensio_accepter_alloc` returns when nothing fails:
zeroed by `zalloc`, with one reference. -/
def tcp_gensio_accepter_alloc : tcpna_data where
  setup := false
  enabled := false
  in_shutdown := false
  refcount := 1
  shutdown_done := none
  shutdown_data := 0
  acceptfds := none
  nr_acceptfds := 0
  nr_accept_close_waiting := 0
  freed := false
  log := []

/-- The `tcpna_fd_cleared` callbacks for the descriptors `fds`, in order. -/
def tcpna_fd_cleared_all : List Int → tcpna_data → Option tcpna_data
  | [], s => some s
  | fd :: rest, s => (tcpna_fd_cleared fd s).bind (tcpna_fd_cleared_all rest)

/-- The number of times the shutdown callback `cb` has been invoked. -/
def tcpna_data.done_calls (s : tcpna_data) (cb : Nat) : Nat :=
  (s.log.filter (fun e => match e with
    | AccEv.shutdown_done c _ => decide (c = cb)
    | _ => false)).length

/-! ## The client's `main`, from the label `retry:` on -/

/-- The switches of the command line that the end of `main` reads. -/
structure MainCfg where
  notcp : Bool
  use_mux : Bool
  interactive : Bool
  deriving DecidableEq, Repr

/-- The answers of the calls `main` makes from `retry:` on; those that build
or open the remote endpoint depend on the transport in the endpoint string. -/
structure MainEnv where
  /-- `alloc_sprintf` of the endpoint string succeeds. -/
  alloc_ok : String → Bool
  /-- Return value of `str_to_gensio(userdata2.ios)`. -/
  remote_alloc : String → Int
  /-- Return value of the control setting the mux service. -/
  mux_service : String → Int
  /-- Return value of the control setting the session service. -/
  service : String → Int
  /-- Return value of the control setting nodelay. -/
  nodelay : String → Int
  /-- Return value of `gensio_open_s(userdata2.io)`. -/
  open_remote : String → Int
  /-- Return value of `gensio_open_s(userdata1.io)`. -/
  open_user : Int
  /-- Return value of `set_fd_handlers` for the SIGWINCH pipe. -/
  winch_handlers : Int
  /-- Return value of `gensio_close(userdata2.io)`. -/
  close_remote : Int
  /-- Return value of `gensio_close(userdata1.io)`. -/
  close_user : Int

/-- What `main` does from `retry:` on, in order. -/
inductive MainEv where
  | open_remote (transport : String) (rv : Int)
  | open_user (rv : Int)
  /-- Both endpoints are open and `main` waits for the session to end. -/
  | session
  | close_remote
  | close_user
  /-- The wait for `closecount` close callbacks. -/
  | wait_close (closecount : Nat)
  deriving DecidableEq, Repr

/-- The end of `main` from the label `closeit:`: close what can be closed,
wait for the closes, release everything and `return 0`. -/
def main_closeit (env : MainEnv) (can_close2 can_close1 : Bool) (log : List MainEv) :
    Int × List MainEv :=
  let c2 : Nat := if can_close2 ∧ env.close_remote = 0 then 1 else 0
  let log1 := if can_close2 then log ++ [MainEv.close_remote] else log
  let c1 : Nat := if can_close1 ∧ env.close_user = 0 then 1 else 0
  let log2 := if can_close1 then log1 ++ [MainEv.close_user] else log1
  let log3 := if 0 < c2 + c1 then log2 ++ [MainEv.wait_close (c2 + c1)] else log2
  (0, log3)

/-- The client's `main` from the label `retry:` on: the exit status and what
was done.  `goto retry` is the recursive call. -/
def main_retry (env : MainEnv) (cfg : MainCfg) (transport : String) (log : List MainEv) :
    Int × List MainEv :=
  if ¬ env.alloc_ok transport then (1, log)
  else if env.remote_alloc transport ≠ 0 then (1, log)
  else if cfg.use_mux ∧ env.mux_service transport ≠ 0 then (1, log)
  else if env.service transport ≠ 0 then (1, log)
  else if cfg.interactive ∧ env.nodelay transport ≠ 0 then (1, log)
  else if env.open_remote transport ≠ 0 then
    if transport = "sctp" ∧ ¬ cfg.notcp then
      main_retry env cfg "tcp" (log ++ [MainEv.open_remote transport (env.open_remote transport)])
    else
      main_closeit env false false
        (log ++ [MainEv.open_remote transport (env.open_remote transport)])
  else if env.open_user ≠ 0 then
    main_closeit env true false
      (log ++ [MainEv.open_remote transport 0, MainEv.open_user env.open_user])
  else if env.winch_handlers ≠ 0 then
    (1, log ++ [MainEv.open_remote transport 0, MainEv.open_user 0])
  else
    main_closeit env true true
      (log ++ [MainEv.open_remote transport 0, MainEv.open_user 0, MainEv.session])
termination_by (if transport = "sctp" then 1 else 0 : Nat)
decreasing_by simp_all

/-- An environment in which the remote endpoint cannot be opened. -/
def unreachableEnv : MainEnv where
  alloc_ok := fun _ => true
  remote_alloc := fun _ => 0
  mux_service := fun _ => 0
  service := fun _ => 0
  nodelay := fun _ => 0
  open_remote := fun _ => 111
  open_user := 0
  winch_handlers := 0
  close_remote := 0
  close_user := 0

/-- A tag that equals `oob` when case is ignored. -/
def is_oob (t : CStr) : Prop := t.map tolower = "oob".toList

instance (t : CStr) : Decidable (is_oob t) := by
  unfold is_oob; infer_instance

/-- The aux list is absent, or each of its tags is a C string that equals
`oob` when case is ignored. -/
def valid_aux (auxdata : Option (List CStr)) : Prop :=
  ∀ tags, auxdata = some tags → ∀ t ∈ tags, '\x00' ∉ t ∧ is_oob t

/-- The flags a valid aux list asks for: `MSG_OOB` when it holds a tag, none
when it is absent or empty. -/
def aux_flags (P : Params) (auxdata : Option (List CStr)) : Nat :=
  match auxdata with
  | none => 0
  | some [] => 0
  | some (_ :: _) => P.MSG_OOB

/-- A `send` that is interrupted by a signal. -/
def SendRes.eintr (E : Errno) : SendRes := SendRes.mk (-1) E.EINTR

/-- The address 127.0.0.1:22000 as a `sockaddr_in`. -/
def loopbackAddr : AddrInfo where
  ai_family := 2
  ai_addr := [2, 0, 85, 240, 127, 0, 0, 1, 0, 0, 0, 0, 0, 0, 0, 0]

/-- A network in which the calls succeed, except that the first `connect`
is still in progress when it returns; the later `SO_ERROR` is 0. -/
def pendingNet : Net where
  script := [NetRes.ok, NetRes.ok, NetRes.ok, NetRes.fail 115, NetRes.value 0]
  next_fd := 3
  nodelay := fun _ => 0
  log := []

/-- A network in which every call succeeds. -/
def quietNet : Net where
  script := []
  next_fd := 3
  nodelay := fun _ => 0
  log := []

/-- An environment in which the remote endpoint opens and the user's endpoint
does not. -/
def noUserEnv : MainEnv where
  alloc_ok := fun _ => true
  remote_alloc := fun _ => 0
  mux_service := fun _ => 0
  service := fun _ => 0
  nodelay := fun _ => 0
  open_remote := fun _ => 0
  open_user := 5
  winch_handlers := 0
  close_remote := 0
  close_user := 0

/-- The user's answer to the y/n question: the first line that starts with
`y` (true) or `n` (false); none when the input ends before such a line. -/
def answer : List Bytes → Option Bool
  | [] => none
  | line :: rest =>
    if line.head? = some 121 then some true
    else if line.head? = some 110 then some false
    else answer rest

/-- The handler gets as far as the dispatch on `ierr`: SSL is in the stack and
the certificate was fetched into the buffer. -/
def Session.ready (s : Session) : Prop :=
  "ssl" ∈ s.stack ∧ s.cert_err = 0 ∧ s.certlen < 16384

instance (s : Session) : Decidable s.ready := by
  unfold Session.ready; infer_instance

/-- The fingerprint was fetched into its 256-byte buffer. -/
def Session.fingerprinted (s : Session) : Prop :=
  s.fp_err = 0 ∧ s.fplen < 256

instance (s : Session) : Decidable s.fingerprinted := by
  unfold Session.fingerprinted; infer_instance

/-- A session towards `example.test:852` whose server presents the three-byte
certificate 1 2 3. -/
def exampleSession : Session where
  stack := ["mux", "certauth", "ssl", "tcp"]
  cert_err := 0
  cert := [1, 2, 3]
  certlen := 3
  raddr := "ipv4,192.0.2.7,852"
  fp_err := 0
  fplen := 59
  CAdir := "/ca"
  hostname := "example.test"
  port := 852
  rehash := fun fs => fs
  cert_fits := by decide

/-- A CA directory in which the pin by host and port holds another
certificate than the one presented, and the pin by address holds the
presented one. -/
def mismatchWorld : World where
  files := fun f =>
    if f = "/ca/example.test,852.crt" then some [9, 9, 9]
    else if f = "/ca/ipv4,192.0.2.7,852.crt" then some [1, 2, 3]
    else none
  sys := []
  stdin := []
  prompts := 0

/-- A CA directory in which only the pin by address exists, holding the
presented certificate, with the user typing the line given. -/
def addrOnlyWorld (line : Bytes) : World where
  files := fun f => if f = "/ca/ipv4,192.0.2.7,852.crt" then some [1, 2, 3] else none
  sys := []
  stdin := [line]
  prompts := 0

/-- An empty CA directory, with the user typing the line given. -/
def emptyWorld (line : Bytes) : World where
  files := fun _ => none
  sys := []
  stdin := [line]
  prompts := 0


/-! ## The accepter: allocation with its failures, and runs of operations -/

/-- `tcp_gensio_accepter_alloc` with its failures: the return value and the
structure as the function leaves it (none when it was never allocated).
`args_ok` says that every argument is a `readbuf` key; the other switches
say whether `zalloc`, `gensio_dup_addrinfo`, `alloc_lock` and
`gensio_acc_data_alloc` succeed.  Each failure after `zalloc` goes to
`out_nomem`, which calls `tcpna_finish_free`. -/
def tcp_gensio_accepter_alloc_run (E : Errno)
    (args_ok zalloc_ok dup_ok lock_ok acc_ok : Bool) : Int × Option tcpna_data :=
  if ¬ args_ok then (E.EINVAL, none)
  else if ¬ zalloc_ok then (E.ENOMEM, none)
  else if ¬ dup_ok then
    (E.ENOMEM, some (tcpna_finish_free { tcp_gensio_accepter_alloc with refcount := 0 }))
  else if ¬ lock_ok then
    (E.ENOMEM, some (tcpna_finish_free (tcpna_ref { tcp_gensio_accepter_alloc with refcount := 0 })))
  else if ¬ acc_ok then
    (E.ENOMEM, some (tcpna_finish_free (tcpna_ref { tcp_gensio_accepter_alloc with refcount := 0 })))
  else (0, some (tcpna_ref { tcp_gensio_accepter_alloc with refcount := 0 }))

/-- The operations on an accepter: the four entries of `gensio_acc_tcp_func`
that act on the structure, and the reactor's `tcpna_fd_cleared` callback. -/
inductive AccOp where
  | startup (opened : Except Int (List Int))
  | shutdown (shutdown_done : Option Nat) (shutdown_data : Nat)
  | set_accept_callback_enable (enabled : Bool)
  | fd_cleared (fd : Int)
  | free

/-- One operation on the accepter; none where the C code has no defined
behaviour (a freed structure, a failed assertion). -/
def AccOp.apply (E : Errno) (op : AccOp) (s : tcpna_data) : Option tcpna_data :=
  match op with
  | AccOp.startup opened => (tcpna_startup E opened s).map Prod.snd
  | AccOp.shutdown cb data => (tcpna_shutdown E cb data s).map Prod.snd
  | AccOp.set_accept_callback_enable enabled => tcpna_set_accept_callback_enable enabled s
  | AccOp.fd_cleared fd => tcpna_fd_cleared fd s
  | AccOp.free => tcpna_free s

/-- A sequence of operations on the accepter, in order. -/
def tcpna_run (E : Errno) : List AccOp → tcpna_data → Option tcpna_data
  | [], s => some s
  | op :: rest, s => (op.apply E s).bind (tcpna_run E rest)

/-- The number of times `tcpna_finish_free` has been invoked. -/
def tcpna_data.free_calls (s : tcpna_data) : Nat := s.log.count AccEv.finish_free

/-- The address `[::1]:22000` as a `sockaddr_in6`. -/
def loopback6Addr : AddrInfo where
  ai_family := 10
  ai_addr := [10, 0, 85, 240, 0, 0, 0, 0, 0, 0, 0, 0, 0, 0, 0, 0, 0, 0, 0, 0, 0, 0, 0, 1,
              0, 0, 0, 0]

/-- A network in which the calls succeed, except that the first `connect`
is refused. -/
def refusedNet : Net where
  script := [NetRes.ok, NetRes.ok, NetRes.ok, NetRes.fail 111]
  next_fd := 3
  nodelay := fun _ => 0
  log := []

/-! ## Window size changes (`gtlssh.c`) -/

/-- The fields of `struct winsize` that `TIOCGWINSZ` reports. -/
structure winsize where
  ws_row : Nat
  ws_col : Nat
  ws_xpixel : Nat
  ws_ypixel : Nat
  deriving DecidableEq, Repr

/-- The globals of the SIGWINCH handling: the 11-byte `winch_buf` that
`winch_oob.buf` points to, `winch_oob.len`, the two flags, and the frames
handed to `ioinfo_sendoob` so far (the first `len` bytes of the buffer at the
time of the call). -/
structure Winch where
  winch_buf : Bytes
  len : Nat
  winch_oob_sending : Bool
  winch_oob_pending : Bool
  sent : List Bytes
  deriving DecidableEq, Repr

/-- The globals when the program starts. -/
def Winch.init : Winch where
  winch_buf := List.replicate 11 0
  len := 0
  winch_oob_sending := false
  winch_oob_pending := false
  sent := []

/-- The two bytes `gensio_u16_to_buf(buf + pos, v)` stores at `pos` and
`pos + 1`.  The function is declared in a gensio header that is not among the
sources, so the encoding `enc` is a parameter. -/
def u16_to_buf (enc : Nat → UInt8 × UInt8) (buf : Bytes) (pos : Nat) (v : Nat) : Bytes :=
  (buf.set pos (enc v).1).set (pos + 1) (enc v).2

/-- The big-endian encoding of a 16-bit value, used in the examples. -/
def u16_be (v : Nat) : UInt8 × UInt8 :=
  (UInt8.ofNat (v / 256 % 256), UInt8.ofNat (v % 256))

/-- `send_winch`.  `win` is what `ioctl(0, TIOCGWINSZ)` reports, none when
the call fails. -/
def send_winch (enc : Nat → UInt8 × UInt8) (win : Option winsize) (w : Winch) : Winch :=
  match win with
  | none => w
  | some win =>
    let b0 := w.winch_buf.set 0 119                       -- 'w'
    let b1 := u16_to_buf enc b0 1 8
    let b2 := u16_to_buf enc b1 3 win.ws_row
    let b3 := u16_to_buf enc b2 5 win.ws_col
    let b4 := u16_to_buf enc b3 7 win.ws_xpixel
    let b5 := u16_to_buf enc b4 9 win.ws_ypixel
    { w with winch_buf := b5, len := 11, sent := w.sent ++ [b5.take 11],
             winch_oob_sending := true }

/-- `winch_sent`, the completion callback of a frame. -/
def winch_sent (enc : Nat → UInt8 × UInt8) (win : Option winsize) (w : Winch) : Winch :=
  let w1 : Winch := { w with winch_oob_sending := false }
  if w1.winch_oob_pending then send_winch enc win { w1 with winch_oob_pending := false }
  else w1

/-- `winch_ready`, after the pipe is drained.  `isatty` is the answer of
`isatty(0)`. -/
def winch_ready (enc : Nat → UInt8 × UInt8) (isatty : Bool) (win : Option winsize)
    (w : Winch) : Winch :=
  if ¬ isatty then w
  else if w.winch_oob_sending then { w with winch_oob_pending := true }
  else send_winch enc win w

/-! ## The session service of `main` (`gtlssh.c`) -/

/-- A block returned by `malloc`: its bytes, and whether a store went past
its end. -/
structure Block where
  bytes : List Char
  overrun : Bool
  deriving DecidableEq, Repr

/-- A fresh block of `size` bytes; `junk` stands for its indeterminate
content. -/
def malloc (junk : Char) (size : Nat) : Block where
  bytes := List.replicate size junk
  overrun := false

/-- Store `data` at offset `pos` of the block. -/
def Block.store (b : Block) (pos : Nat) (data : List Char) : Block :=
  if pos + data.length ≤ b.bytes.length then
    { b with bytes := b.bytes.take pos ++ data ++ b.bytes.drop (pos + data.length) }
  else { b with overrun := true }

/-- The loop of `main` that copies the program arguments: `sprintf` stores
the argument and its terminator at `len`, then `service[len++] = 0`. -/
def main_service_args : List CStr → Block × Nat → Block × Nat
  | [], st => st
  | a :: rest, (service, len) =>
    let service1 := service.store len (a ++ ['\x00'])
    let len1 := (len + a.length) % 4294967296
    let service2 := service1.store len1 ['\x00']
    main_service_args rest (service2, (len1 + 1) % 4294967296)

/-- The part of `main` that builds the service request: `args` are the
program arguments `argv[arg..]`, `termvar` is `getenv("TERM")`.  The result
is the block `service` and `service_len`; none when `malloc` fails and
`main` returns 1.  `len` is an `unsigned int`. -/
def main_service (junk : Char) (malloc_ok : Bool) (args : List CStr)
    (termvar : Option CStr) : Option (Block × Nat) :=
  if args ≠ [] then
    let len0 := args.foldl (fun l a => (l + (a.length + 1)) % 4294967296) 0
    let len := (len0 + 9) % 4294967296
    if ¬ malloc_ok then none
    else
      let service := (malloc junk len).store 0 ("program:".toList ++ ['\x00'])
      match main_service_args args (service, 8) with
      | (service1, len1) =>
        some (service1.store len1 ['\x00'], (len1 + 1) % 4294967296)
  else
    match termvar with
    | some t =>
      let len := (6 + 5 + t.length + 2) % 4294967296
      if ¬ malloc_ok then none
      else
        let service := (malloc junk len).store 0 ("login:TERM=".toList ++ t ++ ['\x00'])
        let len1 := 11 + t.length
        let service1 := service.store len1 ['\x00']
        let len2 := (len1 + 1) % 4294967296
        let service2 := service1.store len2 ['\x00']
        some (service2, (len2 + 1) % 4294967296)
    | none =>
      if ¬ malloc_ok then none
      else
        let service := (malloc junk 7).store 0 ("login:".toList ++ ['\x00'])
        some (service.store 6 ['\x00'], 7)

/-- The bytes `a1 NUL a2 NUL ... an NUL`. -/
def nul_joined (args : List CStr) : List Char :=
  args.flatMap (fun a => a ++ ['\x00'])

/-- The number of bytes of `a1 NUL a2 NUL ... an NUL`. -/
def nul_joined_len (args : List CStr) : Nat :=
  (args.map (fun a => a.length + 1)).sum

/-! ## The client's own credentials (`gtlssh.c`) -/

/-- The globals `CAdir`, `certfile` and `keyfile`; none is `NULL`. -/
structure CertFiles where
  CAdir : Option String
  certfile : Option String
  keyfile : Option String
  deriving DecidableEq, Repr

/-- The three strings `lookup_certfiles` hands back through its pointer
arguments; none is a pointer it did not set or set to `NULL`. -/
structure CertArgs where
  rCAdir : Option String
  rcertfile : Option String
  rkeyfile : Option String
  deriving DecidableEq, Repr

/-- The answer of the script to one `alloc_sprintf`: whether it returns a
string, and the script left. -/
def alloc_sprintf (allocs : List SysRes) : Bool × List SysRes :=
  match allocs with
  | [] => (true, [])
  | SysRes.fail _ :: rest => (false, rest)
  | _ :: rest => (true, rest)

/-- The label `found_cert` of `lookup_certfiles`: `keyfile` was just
allocated as `key`; when that failed the certificate name is dropped. -/
def lookup_certfiles_found (g : CertFiles) (key : String) (allocs : List SysRes) :
    Bool × CertFiles × List SysRes :=
  match alloc_sprintf allocs with
  | (true, a) => (true, { g with keyfile := some key }, a)
  | (false, a) => (false, { g with certfile := none, keyfile := none }, a)

/-- The block `if (!certfile)` of `lookup_certfiles`: whether it got through
without an allocation failure, the globals and the script left.  `readable`
is `file_is_readable`, which is not among the sources. -/
def lookup_certfiles_default (readable : String → Bool) (tlssh_dir hostname : String)
    (port : Int) (g : CertFiles) (allocs : List SysRes) : Bool × CertFiles × List SysRes :=
  match alloc_sprintf allocs with
  | (false, a1) => (false, { g with certfile := none }, a1)
  | (true, a1) =>
    let c1 := tlssh_dir ++ "/keycerts/" ++ hostname ++ "," ++ toString port ++ ".crt"
    if readable c1 then
      lookup_certfiles_found { g with certfile := some c1 }
        (tlssh_dir ++ "/keycerts/" ++ hostname ++ "," ++ toString port ++ ".key") a1
    else
      match alloc_sprintf a1 with
      | (false, a2) => (false, { g with certfile := none }, a2)
      | (true, a2) =>
        let c2 := tlssh_dir ++ "/keycerts/" ++ hostname ++ ".crt"
        if readable c2 then
          lookup_certfiles_found { g with certfile := some c2 }
            (tlssh_dir ++ "/keycerts/" ++ hostname ++ ".key") a2
        else
          match alloc_sprintf a2 with
          | (false, a3) => (false, { g with certfile := none }, a3)
          | (true, a3) =>
            lookup_certfiles_found { g with certfile := some (tlssh_dir ++ "/default.crt") }
              (tlssh_dir ++ "/default.key") a3

/-- The end of `lookup_certfiles`: the three strings for the caller. -/
def lookup_certfiles_args (E : GE) (g : CertFiles) (allocs : List SysRes) :
    Int × CertArgs :=
  match alloc_sprintf allocs with
  | (false, _) => (E.NOMEM, ⟨none, none, none⟩)
  | (true, a1) =>
    match alloc_sprintf a1 with
    | (false, _) => (E.NOMEM, ⟨none, none, none⟩)
    | (true, a2) =>
      match alloc_sprintf a2 with
      | (false, _) => (E.NOMEM, ⟨none, none, none⟩)
      | (true, _) =>
        (0, ⟨some ("CA=" ++ g.CAdir.getD "" ++ "/"),
             some (",cert=" ++ g.certfile.getD ""),
             some (",key=" ++ g.keyfile.getD "")⟩)

/-- The start of `lookup_certfiles`: `CAdir` gets its default when it is not
set; none when that allocation fails. -/
def lookup_certfiles_CAdir (tlssh_dir : String) (g : CertFiles) (allocs : List SysRes) :
    Option (CertFiles × List SysRes) :=
  match g.CAdir with
  | some _ => some (g, allocs)
  | none =>
    match alloc_sprintf allocs with
    | (true, a) => some ({ g with CAdir := some (tlssh_dir ++ "/server_certs") }, a)
    | (false, _) => none

/-- The part of `lookup_certfiles` after the names are known: the three
calls of `checkout_file`, then the strings for the caller.
`checkout_file name isdir isprivate` is not among the sources and is a
parameter; `check_cert_expiry` only prints. -/
def lookup_certfiles_checks (E : GE) (checkout_file : Option String → Bool → Bool → Int)
    (g : CertFiles) (allocs : List SysRes) : Int × CertFiles × CertArgs :=
  if checkout_file g.CAdir true false ≠ 0 then
    (checkout_file g.CAdir true false, g, ⟨none, none, none⟩)
  else if checkout_file g.certfile false false ≠ 0 then
    (checkout_file g.certfile false false, g, ⟨none, none, none⟩)
  else if checkout_file g.keyfile false true ≠ 0 then
    (checkout_file g.keyfile false true, g, ⟨none, none, none⟩)
  else
    ((lookup_certfiles_args E g allocs).1, g, (lookup_certfiles_args E g allocs).2)

/-- `lookup_certfiles`: the return value, the globals afterwards and the
strings handed back (the caller's pointers start as `NULL`). -/
def lookup_certfiles (E : GE) (readable : String → Bool)
    (checkout_file : Option String → Bool → Bool → Int)
    (tlssh_dir hostname : String) (port : Int) (g : CertFiles) (allocs : List SysRes) :
    Int × CertFiles × CertArgs :=
  match lookup_certfiles_CAdir tlssh_dir g allocs with
  | none => (E.NOMEM, g, ⟨none, none, none⟩)
  | some (g1, a1) =>
    match g1.certfile with
    | some _ => lookup_certfiles_checks E checkout_file g1 a1
    | none =>
      match lookup_certfiles_default readable tlssh_dir hostname port g1 a1 with
      | (false, g2, _) => (E.NOMEM, g2, ⟨none, none, none⟩)
      | (true, g2, a2) => lookup_certfiles_checks E checkout_file g2 a2

/-- The stem of the credential pair the search order selects: the first of
`keycerts/<host>,<port>` and `keycerts/<host>` whose `.crt` is readable, else
`default`. -/
def credential_stem (readable : String → Bool) (tlssh_dir hostname : String) (port : Int) :
    String :=
  if readable (tlssh_dir ++ "/keycerts/" ++ hostname ++ "," ++ toString port ++ ".crt") then
    tlssh_dir ++ "/keycerts/" ++ hostname ++ "," ++ toString port
  else if readable (tlssh_dir ++ "/keycerts/" ++ hostname ++ ".crt") then
    tlssh_dir ++ "/keycerts/" ++ hostname
  else tlssh_dir ++ "/default"

/-- A file system in which only the per-host certificate is readable. -/
def hostCertOnly (name : String) : Bool := name == "/h/keycerts/example.crt"

/-- A `checkout_file` that accepts every file. -/
def checkoutAccepts : Option String → Bool → Bool → Int := fun _ _ _ => 0

/-! ## Port forwarding requests (`gtlssh.c`) -/

/-- The character `s[i]` of a C string; the terminator at and after its
end. -/
def char_at (s : CStr) (i : Nat) : Char := s.getD i '\x00'

/-- The test `*port == 0 || *end != 0 || val > 65535` of `validate_port` on
the text left after the prefixes, negated: whether the port is taken. -/
def validate_port_number (port : CStr) : Bool :=
  !(decide (char_at port 0 = '\x00') ||
    decide (char_at port (strtoul port 10).2 ≠ '\x00') ||
    decide ((strtoul port 10).1 > 65535))

/-- The text of `port` after `validate_port` has skipped `tcp,` and then
`sctp,`, and the type it chose. -/
def validate_port_strip (port : CStr) : CStr × CStr :=
  let port1 := if "tcp,".toList.isPrefixOf port then port.drop 4 else port
  if "sctp,".toList.isPrefixOf port1 then (port1.drop 5, "sctp".toList)
  else (port1, "tcp".toList)

/-- `validate_port(host, port, &type, addr)`: the type stored through `rtype`
when it returns true, none when it returns false.  `host` is none for
`NULL`. -/
def validate_port (host : Option CStr) (port : CStr) : Option CStr :=
  if host = some [] then none
  else if validate_port_number (validate_port_strip port).1 then
    some (validate_port_strip port).2
  else none

/-- What a call of `handle_port` comes to. -/
inductive PortResult where
  /-- `strdup` failed; -1 is returned. -/
  | nomem
  /-- Label `out_not_enough_fields`; -1 is returned. -/
  | not_enough_fields
  /-- Label `out_too_many_fields`; -1 is returned. -/
  | too_many_fields
  /-- A `validate_port` returned false; -1 is returned. -/
  | invalid
  /-- The element `s[i]` is read though the split never stored it. -/
  | wild (i : Nat)
  /-- Call of `add_remote_port` or `add_local_port` with these strings. -/
  | forward (remote : Bool) (accepter_str connecter_str id_str : CStr)
  /-- The call came to `before` and then, at `out_err`, passed to `free` a
  pointer into the block that `strdup` returned: the behaviour is undefined
  (the C library aborts) and the call does not return. -/
  | bad_free (before : PortResult)
  deriving DecidableEq, Repr

/-- The loop of `handle_port` that splits the text at colons into at most
`n` fields; what follows the colon after the last field is dropped. -/
def handle_port_split : Nat → CStr → List CStr
  | 0, _ => []
  | n + 1, addr =>
    match addr.dropWhile (fun c => c != ':') with
    | [] => [addr]
    | _ :: rest => addr.takeWhile (fun c => c != ':') :: handle_port_split n rest

/-- The pointer `addr` after that loop: none when it is NULL (the last
`strchr` found no colon), else the text it points to, which lies inside the
block that `strdup` returned (all `n` fields were stored and a colon followed
the last one). -/
def handle_port_addr : Nat → CStr → Option CStr
  | 0, addr => some addr
  | n + 1, addr =>
    match addr.dropWhile (fun c => c != ':') with
    | [] => none
    | _ :: rest => handle_port_addr n rest

/-- The test `f[0] == '/'`. -/
def is_unix_path (f : CStr) : Bool := char_at f 0 == '/'

/-- The element `s[i]` of the array of fields. -/
def handle_port_field (s : List CStr) (i : Nat) : Except PortResult CStr :=
  match s.get? i with
  | some f => Except.ok f
  | none => Except.error (PortResult.wild i)

/-- The field count checks of `handle_port`: the value of `has_bind`. -/
def handle_port_has_bind (s : List CStr) : Except PortResult Bool :=
  if s.length < 2 then Except.error PortResult.not_enough_fields
  else if s.length > 4 then Except.error PortResult.too_many_fields
  else do
    let last ← handle_port_field s (s.length - 1)
    let first ← handle_port_field s 0
    if is_unix_path last then
      if is_unix_path first then
        if s.length > 2 then Except.error PortResult.too_many_fields else pure false
      else if s.length > 3 then Except.error PortResult.too_many_fields
      else pure (s.length == 3)
    else if is_unix_path first then
      if s.length > 3 then Except.error PortResult.too_many_fields else pure false
    else if s.length < 3 then Except.error PortResult.not_enough_fields
    else pure (s.length == 4)

/-- The accepter string of `handle_port` and the value of `pos` after it. -/
def handle_port_accepter (s : List CStr) (has_bind : Bool) : Except PortResult (CStr × Nat) :=
  if has_bind then do
    let host ← handle_port_field s 0
    let port ← handle_port_field s 1
    match validate_port (some host) port with
    | none => Except.error PortResult.invalid
    | some type => pure (type ++ [','] ++ host ++ [','] ++ port, 2)
  else do
    let f ← handle_port_field s 0
    if is_unix_path f then pure ("unix,".toList ++ f, 1)
    else
      match validate_port none f with
      | none => Except.error PortResult.invalid
      | some type => pure (type ++ [','] ++ f, 1)

/-- The connecter string of `handle_port`, from the fields at `pos`. -/
def handle_port_connecter (s : List CStr) (pos : Nat) : Except PortResult CStr := do
  let f ← handle_port_field s pos
  if is_unix_path f then pure ("unix,".toList ++ f)
  else do
    let port ← handle_port_field s (pos + 1)
    match validate_port (some f) port with
    | none => Except.error PortResult.invalid
    | some type => pure (type ++ [','] ++ f ++ [','] ++ port)

/-- `handle_port(o, remote, iaddr)`: what it comes to up to its call of
`add_remote_port` or `add_local_port`, whose return value it returns, and the
`free(addr)` of the label `out_err` that every path ends in.  `strdup_ok`
tells whether the copy of `iaddr` could be allocated; the two `alloc_sprintf`
results are not tested by the code and are taken to be the formatted strings.
When the loop has left `addr` NULL nothing is freed; when it has left `addr`
pointing behind the colon after the fourth field, `free` gets that pointer. -/
def handle_port (strdup_ok : Bool) (remote : Bool) (iaddr : CStr) : PortResult :=
  if ¬ strdup_ok then PortResult.nomem
  else
    let s := handle_port_split 4 iaddr
    let r : Except PortResult PortResult := do
      let has_bind ← handle_port_has_bind s
      let a ← handle_port_accepter s has_bind
      let c ← handle_port_connecter s a.2
      pure (PortResult.forward remote a.1 c iaddr)
    let v : PortResult := match r with
      | Except.ok v => v
      | Except.error e => e
    match handle_port_addr 4 iaddr with
    | none => v
    | some _ => PortResult.bad_free v

/-- Whether a character is a decimal digit. -/
def is_digit (c : Char) : Bool := decide (48 ≤ c.toNat ∧ c.toNat ≤ 57)

/-- The value of a string of decimal digits. -/
def decimal_value (ds : CStr) : Nat := ds.foldl (fun acc c => acc * 10 + (c.toNat - 48)) 0

/-- The texts `validate_port` takes for a port number: optional white space,
an optional sign, then a non-empty string of decimal digits through to the
end; without a minus sign the value is at most 65535, with a minus sign it
is 0 or lies within 65535 below 2^64. -/
def port_text_ok (p : CStr) : Bool :=
  let s1 := p.dropWhile isspace
  let s2 := if s1.head? = some '-' ∨ s1.head? = some '+' then s1.tail else s1
  decide (s2 ≠ []) && s2.all is_digit &&
  (if s1.head? = some '-' then
     decide (decimal_value s2 = 0 ∨
       (18446744073709486081 ≤ decimal_value s2 ∧ decimal_value s2 ≤ 18446744073709551615))
   else decide (decimal_value s2 ≤ 65535))

/-! ## Remote forwards (`gtlssh.c`) -/

/-- The text `snprintf(buf, 5, "%4.4d", v)` leaves in `buf`: the decimal
digits padded with zeros to at least four, after a minus sign for a negative
value, cut to four characters. -/
def snprintf_4_4d (v : Int) : CStr :=
  ((if v < 0 then ['-'] else []) ++
    List.replicate (4 - (toString v.natAbs).length) '0' ++ (toString v.natAbs).toList).take 4

/-- The bytes of a C string. -/
def c_bytes (s : CStr) : Bytes := s.map (fun c => UInt8.ofNat c.toNat)

/-- The fields of `struct remote_portinfo` that the forwarding uses: the
service id, the connecter and id strings, and the frame `oob.buf` of
`oob.len` bytes (the memory of `accepter_str` and its terminator). -/
structure remote_portinfo where
  service : CStr
  connecter_str : CStr
  id_str : CStr
  oob_buf : Bytes
  oob_len : Nat
  deriving DecidableEq, Repr

/-- The globals `curr_service` and `remote_ports` (head first). -/
structure RemotePorts where
  curr_service : Nat
  remote_ports : List remote_portinfo
  deriving DecidableEq, Repr

/-- The globals when the program starts. -/
def RemotePorts.init : RemotePorts where
  curr_service := 0
  remote_ports := []

/-- `add_remote_port`: the return value, the globals and the script left.
The script answers `malloc`, `alloc_sprintf` and the two `strdup`;
`curr_service` is an `unsigned int` printed with `%d`. -/
def add_remote_port (E : GE) (allocs : List SysRes) (st : RemotePorts)
    (accepter_str connecter_str id_str : CStr) : Int × RemotePorts × List SysRes :=
  match alloc_sprintf allocs with                           -- malloc(sizeof(*np))
  | (false, a1) => (E.NOMEM, st, a1)
  | (true, a1) =>
    let service := snprintf_4_4d (toInt32 st.curr_service)
    let st1 : RemotePorts := { st with curr_service := (st.curr_service + 1) % 4294967296 }
    match alloc_sprintf a1 with                             -- alloc_sprintf("r  %s%s")
    | (false, a2) => (E.NOMEM, st1, a2)
    | (true, a2) =>
      let text := "r  ".toList ++ service ++ accepter_str
      let len := text.length + 1
      if len > 65535 then (E.NOMEM, st1, a2)
      else
        let buf0 := c_bytes text ++ [0]
        let buf1 := buf0.set 1 (UInt8.ofNat ((len - 3) / 256))
        let buf2 := buf1.set 2 (UInt8.ofNat ((len - 3) % 256))
        match alloc_sprintf a2 with                         -- strdup(connecter_str)
        | (false, a3) => (E.NOMEM, st1, a3)
        | (true, a3) =>
          match alloc_sprintf a3 with                       -- strdup(id_str)
          | (false, a4) => (E.NOMEM, st1, a4)
          | (true, a4) =>
            (0, { st1 with remote_ports :=
                    ⟨service, connecter_str, id_str, buf2, len⟩ :: st1.remote_ports }, a4)

/-- What `handle_rem_req` does with the new channel. -/
inductive RemReq where
  /-- No record has the service: `gensio_free(io)`. -/
  | freed
  /-- Call of `remote_port_new_con` with the record's strings. -/
  | new_con (connecter_str id_str : CStr)
  deriving DecidableEq, Repr

/-- `handle_rem_req(io, service)`: the first record whose service compares
equal under `strcmp`. -/
def handle_rem_req (remote_ports : List remote_portinfo) (service : CStr) : RemReq :=
  match remote_ports.find? (fun pi => pi.service == service) with
  | none => RemReq.freed
  | some pi => RemReq.new_con pi.connecter_str pi.id_str

/-- One call of `add_remote_port`: its allocation script and its three
strings. -/
structure RemoteReq where
  allocs : List SysRes
  accepter_str : CStr
  connecter_str : CStr
  id_str : CStr
  deriving DecidableEq, Repr

/-- The globals after a sequence of calls of `add_remote_port`. -/
def add_remote_ports (E : GE) (reqs : List RemoteReq) (st : RemotePorts) : RemotePorts :=
  reqs.foldl
    (fun st r => (add_remote_port E r.allocs st r.accepter_str r.connecter_str r.id_str).2.1) st

/-- The request `-R 2000:localhost:80`. -/
def exampleReq : RemoteReq where
  allocs := []
  accepter_str := "tcp,2000".toList
  connecter_str := "tcp,localhost,80".toList
  id_str := "2000:localhost:80".toList

/-- The records carry ids of four decimal digits, each below `curr_service`,
the newest record first with the largest id. -/
def RemotePorts.ordered (st : RemotePorts) : Prop :=
  (∀ r ∈ st.remote_ports, r.service.length = 4 ∧ r.service.all is_digit = true ∧
    decimal_value r.service < st.curr_service) ∧
  (st.remote_ports.map (fun r => decimal_value r.service)).Pairwise (fun a b => a > b)

/-! ## Runs of the SIGWINCH handling -/

/-- An event of the SIGWINCH handling, with the answers of the calls it
makes: `winch_ready` with the answer of `isatty(0)`, or the completion
callback `winch_sent` of a frame handed to `ioinfo_sendoob` earlier; `win` is
what `TIOCGWINSZ` reports if it is asked. -/
inductive WinchEv where
  | ready (isatty : Bool) (win : Option winsize)
  | sent (win : Option winsize)
  deriving DecidableEq, Repr

/-- A sequence of events, from the globals and the number of frames whose
completion was delivered; none when a completion is delivered though every
frame handed to `ioinfo_sendoob` has completed. -/
def winch_run (enc : Nat → UInt8 × UInt8) : List WinchEv → Winch × Nat → Option (Winch × Nat)
  | [], st => some st
  | WinchEv.ready isatty win :: rest, (w, done) =>
    winch_run enc rest (winch_ready enc isatty win w, done)
  | WinchEv.sent win :: rest, (w, done) =>
    if done < w.sent.length then winch_run enc rest (winch_sent enc win w, done + 1)
    else none

/-! ## The password prompt (`gtlssh.c`) -/

/-- The answer to one `read(fd, &c, 1)` on the terminal. -/
inductive ReadRes where
  /-- One character is read. -/
  | char (c : Char)
  /-- The call returns 0 and leaves `c` alone. -/
  | eof
  /-- The call returns -1 and sets `errno`. -/
  | fail (errno : Int)
  deriving DecidableEq, Repr

/-- The answer of the script to one system call, and the script left. -/
def sys_call (sys : List SysRes) : SysRes × List SysRes :=
  match sys with
  | [] => (SysRes.ok, [])
  | r :: rest => (r, rest)

/-- The loop of `getpassword` and the code after it: `c` is the character
variable, `pos` the position, `len` the value of `*len`.  The result is the
return value, the buffer and `*len`; none when the input ends before a
carriage return or line feed, so that the next `read` does not return. -/
def getpassword_loop : List ReadRes → Char → Block → Nat → Nat → Option (Int × Block × Nat)
  | [], _, _, _, _ => none
  | r :: rest, c, pw, pos, len =>
    match r with
    | ReadRes.fail e => some (e, pw, len)
    | _ =>
      let c1 : Char := match r with
        | ReadRes.char x => x
        | _ => c
      if c1 = '\r' ∨ c1 = '\n' then
        if pos < len then some (0, pw.store pos ['\x00'], pos + 1) else some (0, pw, pos)
      else if pos < len then getpassword_loop rest c1 (pw.store pos [c1]) (pos + 1) len
      else getpassword_loop rest c1 pw pos len

/-- `getpassword(pw, &len)`: what the call comes to, the buffer and `*len`.
The script answers `open`, `tcgetattr`, `tcsetattr` and the `write` of the
prompt; the `tcsetattr` and `close` at the end are not tested by the code. -/
def getpassword (sys : List SysRes) (reads : List ReadRes) (pw : Block) (len : Nat) :
    Option (Outcome × Block × Nat) :=
  match sys_call sys with                                  -- open("/dev/tty", O_RDWR)
  | (SysRes.fail e, _) => some (Outcome.ret e, pw, len)
  | (_, s1) =>
    match sys_call s1 with                                 -- tcgetattr
    | (SysRes.fail e, _) => some (Outcome.ret e, pw, len)
    | (_, s2) =>
      match sys_call s2 with                               -- tcsetattr
      | (SysRes.fail e, _) => some (Outcome.ret e, pw, len)
      | (_, s3) =>
        match sys_call s3 with                             -- write(fd, prompt)
        | (SysRes.fail _, _) => some (Outcome.exit 1, pw, len)
        | _ =>
          (getpassword_loop reads '\x00' pw 0 len).map
            (fun r => (Outcome.ret r.1, r.2.1, r.2.2))

/-- The characters `getpassword` stores from position `pos` on for the typed
characters `typed`: all of them and a NUL when they end before `len`, else
those that fit. -/
def password_stored (typed : List Char) (pos len : Nat) : List Char :=
  if pos + typed.length < len then typed ++ ['\x00'] else typed.take (len - pos)

/-! ## Lemmas on the certificate store -/

theorem GE.std_WF : GE.std.WF := by
  refine ⟨by decide, by decide, by decide, by decide, by decide, by decide, by decide,
    by decide, by decide, by decide, by decide, by decide, ?_⟩
  intro e he
  have h : e ≠ 0 := by omega
  simp [GE.std, h]

theorem World.pop_files (w : World) : w.pop.2.files = w.files := by
  unfold World.pop; split <;> rfl

theorem World.pop_stdin (w : World) : w.pop.2.stdin = w.stdin := by
  unfold World.pop; split <;> rfl

theorem World.pop_prompts (w : World) : w.pop.2.prompts = w.prompts := by
  unfold World.pop; split <;> rfl

theorem World.pop_sane (w : World) (h : w.sane) : w.pop.2.sane := by
  unfold World.pop; split
  · exact h
  · rename_i r rest hs
    intro e he
    exact h e (by rw [hs]; exact List.mem_cons_of_mem _ he)

theorem World.pop_fail (w : World) (h : w.sane) (e : Int) (he : w.pop.1 = SysRes.fail e) :
    0 < e := by
  unfold World.pop at he; split at he
  · cases he
  · rename_i r rest hs
    simp at he
    exact h e (by rw [hs, he]; exact List.mem_cons_self _ _)

theorem World.pop_nil (w : World) (h : w.sys = []) : w.pop = (SysRes.ok, w) := by
  unfold World.pop; rw [h]

theorem add_certfile_write_sound (g : GE) (hg : g.WF) :
    ∀ (script : List SysRes) (cert done : Bytes),
      (∀ e : Int, SysRes.fail e ∈ script → 0 < e) →
      ((add_certfile_write g script cert done).1 = 0 →
        (add_certfile_write g script cert done).2.2 = done ++ cert) ∧
      (∀ e : Int, SysRes.fail e ∈ (add_certfile_write g script cert done).2.1 → 0 < e) := by
  intro script
  induction script with
  | nil => intro cert done _; simp [add_certfile_write]
  | cons r s ih =>
    intro cert done hs
    have hs' : ∀ e : Int, SysRes.fail e ∈ s → 0 < e :=
      fun e he => hs e (List.mem_cons_of_mem _ he)
    cases r with
    | ok => exact ⟨by simp [add_certfile_write], by simpa [add_certfile_write] using hs'⟩
    | fail e =>
      have he : 0 < e := hs e (List.mem_cons_self _ _)
      refine ⟨?_, by simpa [add_certfile_write] using hs'⟩
      intro h
      simp [add_certfile_write] at h
      exact absurd h (hg.2.2.2.2.2.2.2.2.2.2.2.2 e he)
    | short n =>
      by_cases hn : cert.length ≤ n
      · exact ⟨by simp [add_certfile_write, hn], by simpa [add_certfile_write, hn] using hs'⟩
      · have := ih (cert.drop n) (done ++ cert.take n) hs'
        simp only [add_certfile_write, hn, if_false]
        refine ⟨?_, this.2⟩
        intro h
        rw [this.1 h, List.append_assoc, List.take_append_drop]

theorem add_certfile_frame (g : GE) (E : Errno) (cert : Bytes) (name : String) (w : World) :
    (∀ f, f ≠ name → (add_certfile g E cert name w).2.files f = w.files f) ∧
    (∀ c, w.files name = some c → (add_certfile g E cert name w).2.files name = some c) ∧
    (add_certfile g E cert name w).2.stdin = w.stdin ∧
    (add_certfile g E cert name w).2.prompts = w.prompts := by
  have f1 := World.pop_files w
  have i1 := World.pop_stdin w
  have p1 := World.pop_prompts w
  rcases hp1 : w.pop with ⟨r1, w1⟩
  rw [hp1] at f1 i1 p1
  simp only at f1 i1 p1
  have f2 := World.pop_files w1
  have i2 := World.pop_stdin w1
  have p2 := World.pop_prompts w1
  rcases hp2 : w1.pop with ⟨r2, w2⟩
  rw [hp2] at f2 i2 p2
  simp only at f2 i2 p2
  unfold add_certfile
  rw [hp1]
  cases r1 <;> simp only [hp2]
  · cases r2 <;> simp only <;> (split <;> simp_all)
  · simp_all
  · cases r2 <;> simp only <;> (split <;> simp_all)

theorem add_certfile_zero (g : GE) (E : Errno) (cert : Bytes) (name : String) (w : World)
    (hg : g.WF) (hw : w.sane) :
    (add_certfile g E cert name w).2.sane ∧
    ((add_certfile g E cert name w).1 = 0 →
      w.files name = none ∧ (add_certfile g E cert name w).2.files name = some cert) := by
  have f1 := World.pop_files w
  have s1 := World.pop_sane w hw
  have e1 := World.pop_fail w hw
  rcases hp1 : w.pop with ⟨r1, w1⟩
  rw [hp1] at f1 s1 e1
  simp only at f1 s1 e1
  have f2 := World.pop_files w1
  have s2 := World.pop_sane w1 s1
  have e2 := World.pop_fail w1 s1
  rcases hp2 : w1.pop with ⟨r2, w2⟩
  rw [hp2] at f2 s2 e2
  simp only at f2 s2 e2
  have hk : g.KEYINVALID ≠ 0 := hg.2.2.2.1
  have hn : g.NOMEM ≠ 0 := hg.1
  have hos := hg.2.2.2.2.2.2.2.2.2.2.2.2
  have hwr := add_certfile_write_sound g hg w2.sys cert [] s2
  unfold add_certfile
  rw [hp1]
  cases r1 with
  | fail e => exact ⟨s1, fun h => absurd h hn⟩
  | ok =>
    simp only [hp2]
    cases r2 with
    | fail e =>
      simp only
      split
      · exact ⟨s2, fun h => absurd h hk⟩
      · exact ⟨s2, fun h => absurd h (hos e (e2 e rfl))⟩
    | ok =>
      simp only
      rcases hf : w2.files name with _ | c
      · simp only
        refine ⟨hwr.2, fun h => ⟨by rw [← f1, ← f2]; exact hf, ?_⟩⟩
        simp only [if_true]
        have := hwr.1 h
        simpa using this
      · exact ⟨s2, fun h => absurd h hk⟩
    | short n =>
      simp only
      rcases hf : w2.files name with _ | c
      · simp only
        refine ⟨hwr.2, fun h => ⟨by rw [← f1, ← f2]; exact hf, ?_⟩⟩
        simp only [if_true]
        have := hwr.1 h
        simpa using this
      · exact ⟨s2, fun h => absurd h hk⟩
  | short n =>
    simp only [hp2]
    cases r2 with
    | fail e =>
      simp only
      split
      · exact ⟨s2, fun h => absurd h hk⟩
      · exact ⟨s2, fun h => absurd h (hos e (e2 e rfl))⟩
    | ok =>
      simp only
      rcases hf : w2.files name with _ | c
      · simp only
        refine ⟨hwr.2, fun h => ⟨by rw [← f1, ← f2]; exact hf, ?_⟩⟩
        simp only [if_true]
        have := hwr.1 h
        simpa using this
      · exact ⟨s2, fun h => absurd h hk⟩
    | short n =>
      simp only
      rcases hf : w2.files name with _ | c
      · simp only
        refine ⟨hwr.2, fun h => ⟨by rw [← f1, ← f2]; exact hf, ?_⟩⟩
        simp only [if_true]
        have := hwr.1 h
        simpa using this
      · exact ⟨s2, fun h => absurd h hk⟩

theorem verify_certfile_world (g : GE) (cert : Bytes) (name : String) (w : World) :
    (verify_certfile g cert name w).2 = w.pop.2 ∨
    (verify_certfile g cert name w).2 = w.pop.2.pop.2 ∨
    (verify_certfile g cert name w).2 = w.pop.2.pop.2.pop.2 := by
  unfold verify_certfile
  rcases hp1 : w.pop with ⟨r1, w1⟩
  rcases hp2 : w1.pop with ⟨r2, w2⟩
  rcases hp3 : w2.pop with ⟨r3, w3⟩
  cases r1 <;> cases r2 <;> simp only [hp2] <;> (try split) <;> (try rw [hp3]) <;>
    (try cases r3) <;> (try simp only) <;> (repeat' split) <;> simp

theorem verify_certfile_frame (g : GE) (cert : Bytes) (name : String) (w : World) :
    (verify_certfile g cert name w).2.files = w.files ∧
    (verify_certfile g cert name w).2.stdin = w.stdin ∧
    (verify_certfile g cert name w).2.prompts = w.prompts ∧
    (w.sane → (verify_certfile g cert name w).2.sane) := by
  rcases verify_certfile_world g cert name w with h | h | h <;> rw [h]
  · exact ⟨World.pop_files _, World.pop_stdin _, World.pop_prompts _, World.pop_sane _⟩
  · refine ⟨?_, ?_, ?_, fun hs => World.pop_sane _ (World.pop_sane _ hs)⟩
    · rw [World.pop_files, World.pop_files]
    · rw [World.pop_stdin, World.pop_stdin]
    · rw [World.pop_prompts, World.pop_prompts]
  · refine ⟨?_, ?_, ?_, fun hs => World.pop_sane _ (World.pop_sane _ (World.pop_sane _ hs))⟩
    · rw [World.pop_files, World.pop_files, World.pop_files]
    · rw [World.pop_stdin, World.pop_stdin, World.pop_stdin]
    · rw [World.pop_prompts, World.pop_prompts, World.pop_prompts]

theorem verify_certfile_missing (g : GE) (cert : Bytes) (name : String) (w : World)
    (hsys : w.sys = []) (hf : w.files name = none) :
    verify_certfile g cert name w = (g.CERTNOTFOUND, w) := by
  simp [verify_certfile, World.pop_nil w hsys, hf]

theorem verify_certfile_match (g : GE) (cert : Bytes) (name : String) (w : World)
    (hsys : w.sys = []) (hc : cert.length < 16384) (hf : w.files name = some cert) :
    verify_certfile g cert name w = (0, w) := by
  have h1 : min cert.length 16384 = cert.length := by omega
  simp [verify_certfile, World.pop_nil w hsys, hf, h1]

theorem add_certfile_create (g : GE) (E : Errno) (cert : Bytes) (name : String) (w : World)
    (hsys : w.sys = []) (hf : w.files name = none) :
    add_certfile g E cert name w =
      (0, { w with sys := [], files := fun f => if f = name then some cert else w.files f }) := by
  simp [add_certfile, World.pop_nil w hsys, hf, hsys, add_certfile_write]

theorem add_certfile_exists (g : GE) (E : Errno) (cert c : Bytes) (name : String) (w : World)
    (hsys : w.sys = []) (hf : w.files name = some c) :
    add_certfile g E cert name w = (g.KEYINVALID, w) := by
  simp [add_certfile, World.pop_nil w hsys, hf]

theorem ask_add_answer (g : GE) : ∀ (l : List Bytes) (p : Nat),
    (ask_add g l p).1 = (answer l).map (fun b => if b then 0 else g.AUTHREJECT) ∧
    p < (ask_add g l p).2.2 := by
  intro l
  induction l with
  | nil => intro p; simp [ask_add, answer]
  | cons line rest ih =>
    intro p
    by_cases hy : line.head? = some 121
    · simp [ask_add, answer, hy]
    · by_cases hn : line.head? = some 110
      · simp [ask_add, answer, hy, hn]
      · have := ih (p + 1)
        simp only [ask_add, answer, hy, hn, if_false]
        exact ⟨this.1, by omega⟩

theorem postcert_ready (g : GE) (E : Errno) (s : Session) (ierr : Int) (w : World)
    (hr : s.ready) :
    auth_event_postcert g E s ierr w =
      if ierr = 0 then auth_event_accepted g E s w
      else if ierr ≠ g.CERTNOTFOUND then (Outcome.ret ierr, w)
      else auth_event_notfound g E s w := by
  obtain ⟨h1, h2, h3⟩ := hr
  have h3' : ¬ 16384 ≤ s.certlen := by omega
  simp [auth_event_postcert, h1, h2, h3']

theorem postcert_not_ready (g : GE) (E : Errno) (s : Session) (ierr : Int) (w : World)
    (hr : ¬ s.ready) :
    auth_event_postcert g E s ierr w = (Outcome.ret g.INVAL, w) ∨
    auth_event_postcert g E s ierr w = (Outcome.ret g.NOMEM, w) := by
  unfold auth_event_postcert
  by_cases h1 : "ssl" ∈ s.stack
  · by_cases h2 : s.cert_err = 0
    · by_cases h3 : s.certlen < 16384
      · exact absurd ⟨h1, h2, h3⟩ hr
      · right
        have h3' : 16384 ≤ s.certlen := by omega
        simp [h1, h2, h3']
    · right; simp [h1, h2]
  · left; simp [h1]

theorem postcert_ret_zero_ready (g : GE) (E : Errno) (s : Session) (ierr : Int) (w : World)
    (hg : g.WF) (h : (auth_event_postcert g E s ierr w).1 = Outcome.ret 0) : s.ready := by
  by_contra hr
  rcases postcert_not_ready g E s ierr w hr with h' | h' <;> rw [h'] at h <;> simp at h
  · exact hg.2.2.1 h
  · exact hg.1 h

theorem notfound_tail (s : Session) (rv : Int) (w : World)
    (hre : ∀ fs, s.rehash fs s.hostPin = fs s.hostPin ∧ s.rehash fs s.addrPin = fs s.addrPin) :
    (match w.pop with
      | (SysRes.fail _, w4) => (Outcome.ret rv, w4)
      | (_, w4) => (Outcome.ret rv, { w4 with files := s.rehash w4.files })).1 = Outcome.ret rv ∧
    (match w.pop with
      | (SysRes.fail _, w4) => (Outcome.ret rv, w4)
      | (_, w4) => (Outcome.ret rv, { w4 with files := s.rehash w4.files })).2.files s.hostPin
        = w.files s.hostPin ∧
    (match w.pop with
      | (SysRes.fail _, w4) => (Outcome.ret rv, w4)
      | (_, w4) => (Outcome.ret rv, { w4 with files := s.rehash w4.files })).2.files s.addrPin
        = w.files s.addrPin := by
  have f1 := World.pop_files w
  rcases hp : w.pop with ⟨r, w4⟩
  rw [hp] at f1
  simp only at f1
  cases r <;> simp [f1, hre]

theorem notfound_ret_zero (g : GE) (E : Errno) (s : Session) (w : World)
    (hg : g.WF) (hw : w.sane)
    (hre : ∀ fs, s.rehash fs s.hostPin = fs s.hostPin ∧ s.rehash fs s.addrPin = fs s.addrPin)
    (h : (auth_event_notfound g E s w).1 = Outcome.ret 0) :
    answer w.stdin = some true ∧ w.files s.hostPin = none ∧ w.files s.addrPin = none ∧
    (auth_event_notfound g E s w).2.files s.hostPin = some s.cert ∧
    (auth_event_notfound g E s w).2.files s.addrPin = some s.cert := by
  have hci : g.CERTINVALID ≠ 0 := hg.2.2.2.2.2.1
  have har : g.AUTHREJECT ≠ 0 := hg.2.2.2.2.2.2.2.2.1
  have hnm : g.NOMEM ≠ 0 := hg.1
  have hans := ask_add_answer g w.stdin w.prompts
  generalize hr : auth_event_notfound g E s w = r at h ⊢
  unfold auth_event_notfound at hr
  by_cases c1 : s.fp_err ≠ 0
  · rw [if_pos c1] at hr; subst hr; simp at h; exact absurd h hci
  rw [if_neg c1] at hr
  by_cases c2 : 256 ≤ s.fplen
  · rw [if_pos c2] at hr; subst hr; simp at h; exact absurd h hci
  rw [if_neg c2] at hr
  rcases hask : ask_add g w.stdin w.prompts with ⟨a, rest, p⟩
  rw [hask] at hr hans
  cases a with
  | none => simp only at hr; subst hr; simp at h
  | some err =>
    simp only at hr hans
    by_cases c3 : err ≠ 0
    · rw [if_pos c3] at hr; subst hr; simp at h; exact absurd h c3
    rw [if_neg c3] at hr
    have c3' : err = 0 := by simpa using c3
    subst c3'
    by_cases c4 : s.cert_err ≠ 0
    · rw [if_pos c4] at hr; subst hr; simp at h; exact absurd h hnm
    rw [if_neg c4] at hr
    by_cases c5 : 16384 ≤ s.certlen
    · rw [if_pos c5] at hr; subst hr; simp at h; exact absurd h hnm
    rw [if_neg c5] at hr
    have hy : answer w.stdin = some true := by
      have h1 := hans.1
      cases ha : answer w.stdin with
      | none => rw [ha] at h1; simp at h1
      | some b =>
        rw [ha] at h1
        cases b
        · simp at h1; exact absurd h1.symm har
        · rfl
    generalize hw1 : ({ w with stdin := rest, prompts := p } : World) = w1 at hr
    have hw1f : w1.files = w.files := by rw [← hw1]
    have hw1s : w1.sane := by rw [← hw1]; exact hw
    have z1 := add_certfile_zero g E s.cert s.hostPin w1 hg hw1s
    have fr1 := add_certfile_frame g E s.cert s.hostPin w1
    generalize hr1 : add_certfile g E s.cert s.hostPin w1 = r1 at hr z1 fr1
    have z2 := add_certfile_zero g E s.cert s.addrPin r1.2 hg z1.1
    have fr2 := add_certfile_frame g E s.cert s.addrPin r1.2
    have ht := notfound_tail s (if r1.1 = 0 then add_certfile g E s.cert s.addrPin r1.2 else r1).1
      (if r1.1 = 0 then add_certfile g E s.cert s.addrPin r1.2 else r1).2 hre
    rw [hr] at ht
    rw [ht.1] at h
    rw [ht.2.1, ht.2.2]
    have h' : (if r1.1 = 0 then add_certfile g E s.cert s.addrPin r1.2 else r1).1 = 0 := by
      simpa using h
    by_cases c6 : r1.1 = 0
    · simp only [c6, if_true] at h' ⊢
      have a1 := z1.2 c6
      have a2 := z2.2 h'
      have hne : s.hostPin ≠ s.addrPin := by
        intro he
        rw [he] at a1
        rw [a1.2] at a2
        simp at a2
      rw [hw1f] at a1
      refine ⟨hy, a1.1, ?_, ?_, a2.2⟩
      · rw [← hw1f, ← fr1.1 s.addrPin (Ne.symm hne)]; exact a2.1
      · rw [fr2.1 s.hostPin hne]; exact a1.2
    · simp only [c6, if_false] at h'

theorem notfound_answer_no (g : GE) (E : Errno) (s : Session) (w : World)
    (hg : g.WF) (hf : s.fingerprinted) (hn : answer w.stdin = some false) :
    (auth_event_notfound g E s w).1 = Outcome.ret g.AUTHREJECT ∧
    (auth_event_notfound g E s w).2.files = w.files := by
  have har : g.AUTHREJECT ≠ 0 := hg.2.2.2.2.2.2.2.2.1
  have hans := (ask_add_answer g w.stdin w.prompts).1
  rw [hn] at hans
  obtain ⟨h1, h2⟩ := hf
  have h2' : ¬ 256 ≤ s.fplen := by omega
  unfold auth_event_notfound
  rcases hask : ask_add g w.stdin w.prompts with ⟨a, rest, p⟩
  rw [hask] at hans
  simp at hans
  subst hans
  simp [h1, h2', har]

theorem accepted_eval (g : GE) (E : Errno) (s : Session) (w : World) (err1 err2 : Int)
    (hv1 : verify_certfile g s.cert s.hostPin w = (err1, w))
    (hv2 : verify_certfile g s.cert s.addrPin w = (err2, w)) :
    auth_event_accepted g E s w =
      if (err1 = g.CERTNOTFOUND ∧ err1 = err2) ∨
         (err1 = g.CERTNOTFOUND ∧ err2 = 0) ∨
         (err2 = g.CERTNOTFOUND ∧ err1 = 0) then
        match ask_add g w.stdin w.prompts with
        | (none, rest, p) => (Outcome.exit 1, { w with stdin := rest, prompts := p })
        | (some err, rest, p) =>
          if err ≠ 0 then (Outcome.ret err, { w with stdin := rest, prompts := p })
          else
            (Outcome.ret
              (auth_event_add_missing g E s err1 err2 { w with stdin := rest, prompts := p }).1,
             (auth_event_add_missing g E s err1 err2 { w with stdin := rest, prompts := p }).2)
      else (Outcome.ret 0, w) := by
  unfold auth_event_accepted
  rw [hv1]
  simp only
  rw [hv2]

theorem add_missing_frame (g : GE) (E : Errno) (s : Session) (err1 err2 : Int) (w : World) :
    (auth_event_add_missing g E s err1 err2 w).2.prompts = w.prompts ∧
    (auth_event_add_missing g E s err1 err2 w).2.stdin = w.stdin := by
  unfold auth_event_add_missing
  have f1 := add_certfile_frame g E s.cert s.hostPin w
  by_cases c1 : err1 ≠ 0
  · simp only [if_pos c1]
    have f2 := add_certfile_frame g E s.cert s.addrPin (add_certfile g E s.cert s.hostPin w).2
    by_cases c2 : (add_certfile g E s.cert s.hostPin w).1 = 0 ∧ err2 ≠ 0
    · simp only [if_pos c2]
      exact ⟨by rw [f2.2.2.2, f1.2.2.2], by rw [f2.2.2.1, f1.2.2.1]⟩
    · simp only [if_neg c2]
      exact ⟨f1.2.2.2, f1.2.2.1⟩
  · simp only [if_neg c1]
    have f2 := add_certfile_frame g E s.cert s.addrPin w
    by_cases c2 : err2 ≠ 0
    · simp only [true_and, if_pos c2]
      exact ⟨f2.2.2.2, f2.2.2.1⟩
    · simp only [true_and, if_neg c2]

theorem accepted_prompted (g : GE) (E : Errno) (s : Session) (w : World) (err1 err2 : Int) :
    w.prompts <
      (match ask_add g w.stdin w.prompts with
        | (none, rest, p) => (Outcome.exit 1, { w with stdin := rest, prompts := p })
        | (some err, rest, p) =>
          if err ≠ 0 then (Outcome.ret err, { w with stdin := rest, prompts := p })
          else
            (Outcome.ret
              (auth_event_add_missing g E s err1 err2 { w with stdin := rest, prompts := p }).1,
             (auth_event_add_missing g E s err1 err2
                { w with stdin := rest, prompts := p }).2)).2.prompts := by
  have hpr := (ask_add_answer g w.stdin w.prompts).2
  rcases hask : ask_add g w.stdin w.prompts with ⟨a, rest, p⟩
  rw [hask] at hpr
  cases a with
  | none => exact hpr
  | some err =>
    simp only
    split
    · exact hpr
    · simp only [(add_missing_frame g E s err1 err2 _).1]; exact hpr

theorem accepted_answered (g : GE) (w : World) (b : Bool)
    (ha : answer w.stdin = some b) :
    ∃ rest p, ask_add g w.stdin w.prompts = (some (if b then 0 else g.AUTHREJECT), rest, p) ∧
      w.prompts < p := by
  have hans := ask_add_answer g w.stdin w.prompts
  rw [ha] at hans
  rcases hask : ask_add g w.stdin w.prompts with ⟨a, rest, p⟩
  rw [hask] at hans
  simp at hans
  exact ⟨rest, p, by rw [hans.1], hans.2⟩

/-! ## Claims on the certificate handler -/

/-- C1 (code bug): with `ierr = 0` and a pin by host and port that differs from
the presented certificate (`verify_certfile` gives `GE_CERTINVALID`), the
handler does not refuse: it returns 0, without asking and without writing. -/
theorem C1_mismatch_is_accepted :
    (verify_certfile GE.std exampleSession.cert exampleSession.hostPin mismatchWorld).1
      = GE.std.CERTINVALID ∧
    (auth_event_postcert GE.std Errno.linux exampleSession 0 mismatchWorld).1 = Outcome.ret 0 ∧
    (auth_event_postcert GE.std Errno.linux exampleSession 0 mismatchWorld).2.prompts = 0 ∧
    (auth_event_postcert GE.std Errno.linux exampleSession 0 mismatchWorld).2.files
      exampleSession.hostPin = some [9, 9, 9] := by
  decide

/-- C2: with `ierr = GE_CERTNOTFOUND` the handler returns 0 only if the user
answered `y` and both pin files were newly created and hold exactly the
presented certificate; when it gets as far as asking and the answer is `n`,
it returns `GE_AUTHREJECT` and the files are as before. -/
theorem C2_notfound_dual_write (g : GE) (E : Errno) (s : Session) (w : World)
    (hg : g.WF) (hw : w.sane)
    (hre : ∀ fs, s.rehash fs s.hostPin = fs s.hostPin ∧ s.rehash fs s.addrPin = fs s.addrPin) :
    ((auth_event_postcert g E s g.CERTNOTFOUND w).1 = Outcome.ret 0 →
      answer w.stdin = some true ∧
      w.files s.hostPin = none ∧ w.files s.addrPin = none ∧
      (auth_event_postcert g E s g.CERTNOTFOUND w).2.files s.hostPin = some s.cert ∧
      (auth_event_postcert g E s g.CERTNOTFOUND w).2.files s.addrPin = some s.cert) ∧
    (s.ready → s.fingerprinted → answer w.stdin = some false →
      (auth_event_postcert g E s g.CERTNOTFOUND w).1 = Outcome.ret g.AUTHREJECT ∧
      (auth_event_postcert g E s g.CERTNOTFOUND w).2.files = w.files) := by
  have hnf0 : g.CERTNOTFOUND ≠ 0 := hg.2.2.2.2.1
  constructor
  · intro h
    have hr := postcert_ret_zero_ready g E s _ w hg h
    rw [postcert_ready g E s _ w hr] at h ⊢
    simp only [hnf0, if_false, ne_eq, not_true_eq_false] at h ⊢
    exact notfound_ret_zero g E s w hg hw hre h
  · intro hr hf hn
    rw [postcert_ready g E s _ w hr]
    simp only [hnf0, if_false, ne_eq, not_true_eq_false]
    exact notfound_answer_no g E s w hg hf hn

/-- Witness of C2: in an empty CA directory the answer `y` makes the handler
return 0 with both pins holding the certificate. -/
theorem C2_notfound_dual_write_witness :
    (auth_event_postcert GE.std Errno.linux exampleSession GE.std.CERTNOTFOUND
        (emptyWorld [121])).1 = Outcome.ret 0 ∧
    (auth_event_postcert GE.std Errno.linux exampleSession GE.std.CERTNOTFOUND
        (emptyWorld [121])).2.files exampleSession.hostPin = some [1, 2, 3] ∧
    (auth_event_postcert GE.std Errno.linux exampleSession GE.std.CERTNOTFOUND
        (emptyWorld [121])).2.files exampleSession.addrPin = some [1, 2, 3] ∧
    (auth_event_postcert GE.std Errno.linux exampleSession GE.std.CERTNOTFOUND
        (emptyWorld [110])).1 = Outcome.ret GE.std.AUTHREJECT :=
  have hy := (C2_notfound_dual_write GE.std Errno.linux exampleSession (emptyWorld [121])
    GE.std_WF (by intro e he; simp [emptyWorld] at he) (fun _ => ⟨rfl, rfl⟩)).1 (by decide)
  have hn := (C2_notfound_dual_write GE.std Errno.linux exampleSession (emptyWorld [110])
    GE.std_WF (by intro e he; simp [emptyWorld] at he) (fun _ => ⟨rfl, rfl⟩)).2
    (by decide) (by decide) (by decide)
  ⟨by decide, hy.2.2.2.1, hy.2.2.2.2, hn.1⟩

/-- C3: with `ierr = 0`, once the certificate is fetched and when no call fails
for a reason outside the file store: if both pins hold the presented
certificate the handler returns 0 and the world is untouched; if one pin is
missing and the other matches, or both are missing, the user is asked, on `y`
the missing pins (and no other file) are written with the certificate, and on
`n` the handler returns `GE_AUTHREJECT` and the files are as before. -/
theorem C3_accepted_pins (g : GE) (E : Errno) (s : Session) (w : World)
    (R : Outcome × World) (hR : auth_event_postcert g E s 0 w = R)
    (hg : g.WF) (hr : s.ready) (hsys : w.sys = []) :
    (w.files s.hostPin = some s.cert → w.files s.addrPin = some s.cert →
      R = (Outcome.ret 0, w)) ∧
    (w.files s.hostPin = none → w.files s.addrPin = some s.cert →
      w.prompts < R.2.prompts ∧
      (answer w.stdin = some true →
        R.1 = Outcome.ret 0 ∧ R.2.files s.hostPin = some s.cert ∧
        ∀ f, f ≠ s.hostPin → R.2.files f = w.files f) ∧
      (answer w.stdin = some false →
        R.1 = Outcome.ret g.AUTHREJECT ∧ R.2.files = w.files)) ∧
    (w.files s.hostPin = some s.cert → w.files s.addrPin = none →
      w.prompts < R.2.prompts ∧
      (answer w.stdin = some true →
        R.1 = Outcome.ret 0 ∧ R.2.files s.addrPin = some s.cert ∧
        ∀ f, f ≠ s.addrPin → R.2.files f = w.files f) ∧
      (answer w.stdin = some false →
        R.1 = Outcome.ret g.AUTHREJECT ∧ R.2.files = w.files)) ∧
    (w.files s.hostPin = none → w.files s.addrPin = none →
      w.prompts < R.2.prompts ∧
      (answer w.stdin = some true →
        (∃ rv, R.1 = Outcome.ret rv) ∧ (s.hostPin ≠ s.addrPin → R.1 = Outcome.ret 0) ∧
        R.2.files s.hostPin = some s.cert ∧ R.2.files s.addrPin = some s.cert ∧
        ∀ f, f ≠ s.hostPin → f ≠ s.addrPin → R.2.files f = w.files f) ∧
      (answer w.stdin = some false →
        R.1 = Outcome.ret g.AUTHREJECT ∧ R.2.files = w.files)) := by
  have hnf0 : g.CERTNOTFOUND ≠ 0 := hg.2.2.2.2.1
  have har : g.AUTHREJECT ≠ 0 := hg.2.2.2.2.2.2.2.2.1
  have hk : g.KEYINVALID ≠ 0 := hg.2.2.2.1
  rw [postcert_ready g E s 0 w hr, if_pos rfl] at hR
  subst hR
  refine ⟨?_, ?_, ?_, ?_⟩
  · intro h1 h2
    rw [accepted_eval g E s w 0 0 (verify_certfile_match g _ _ w hsys s.cert_fits h1)
      (verify_certfile_match g _ _ w hsys s.cert_fits h2)]
    simp [hnf0.symm]
  · intro h1 h2
    rw [accepted_eval g E s w g.CERTNOTFOUND 0 (verify_certfile_missing g _ _ w hsys h1)
      (verify_certfile_match g _ _ w hsys s.cert_fits h2)]
    simp only [true_and, or_true, true_or, if_true]
    refine ⟨?_, ?_, ?_⟩
    · exact accepted_prompted g E s w _ _
    · intro hy
      obtain ⟨rest, p, hask, _⟩ := accepted_answered g w true hy
      rw [hask]
      have hc := add_certfile_create g E s.cert s.hostPin
        { w with stdin := rest, prompts := p } hsys h1
      simp [auth_event_add_missing, hnf0, hc]
      intro f hf
      simp [hf]
    · intro hn
      obtain ⟨rest, p, hask, _⟩ := accepted_answered g w false hn
      rw [hask]
      simp [har]
  · intro h1 h2
    rw [accepted_eval g E s w 0 g.CERTNOTFOUND (verify_certfile_match g _ _ w hsys s.cert_fits h1)
      (verify_certfile_missing g _ _ w hsys h2)]
    simp only [and_self, or_true, true_or, if_true]
    refine ⟨?_, ?_, ?_⟩
    · exact accepted_prompted g E s w _ _
    · intro hy
      obtain ⟨rest, p, hask, _⟩ := accepted_answered g w true hy
      rw [hask]
      have hc := add_certfile_create g E s.cert s.addrPin
        { w with stdin := rest, prompts := p } hsys h2
      simp [auth_event_add_missing, hnf0, hc]
      intro f hf
      simp [hf]
    · intro hn
      obtain ⟨rest, p, hask, _⟩ := accepted_answered g w false hn
      rw [hask]
      simp [har]
  · intro h1 h2
    rw [accepted_eval g E s w g.CERTNOTFOUND g.CERTNOTFOUND
      (verify_certfile_missing g _ _ w hsys h1) (verify_certfile_missing g _ _ w hsys h2)]
    simp only [and_self, or_true, true_or, if_true]
    refine ⟨?_, ?_, ?_⟩
    · exact accepted_prompted g E s w _ _
    · intro hy
      obtain ⟨rest, p, hask, _⟩ := accepted_answered g w true hy
      rw [hask]
      have hc := add_certfile_create g E s.cert s.hostPin
        { w with stdin := rest, prompts := p } hsys h1
      by_cases hne : s.hostPin = s.addrPin
      · have hx := add_certfile_exists g E s.cert s.cert s.addrPin
          { w with stdin := rest, prompts := p, sys := [],
                   files := fun f => if f = s.hostPin then some s.cert else w.files f }
          rfl (by simp [hne])
        simp only [auth_event_add_missing]
        rw [hne] at hc hx ⊢
        simp [hnf0, hc, hx]
        intro f hf1 hf2
        exact absurd hf2 hf1
      · have hx := add_certfile_create g E s.cert s.addrPin
          { w with stdin := rest, prompts := p, sys := [],
                   files := fun f => if f = s.hostPin then some s.cert else w.files f }
          rfl (by simp [Ne.symm hne, h2])
        simp [auth_event_add_missing, hnf0, hc, hx, hne]
        intro f hf1 hf2
        simp [hf1, hf2]
    · intro hn
      obtain ⟨rest, p, hask, _⟩ := accepted_answered g w false hn
      rw [hask]
      simp [har]

/-- Witness of C3: with only the pin by address present and matching, the user
is asked; `y` writes the pin by host and port, `n` is refused. -/
theorem C3_accepted_pins_witness :
    (auth_event_postcert GE.std Errno.linux exampleSession 0 (addrOnlyWorld [121])).1
      = Outcome.ret 0 ∧
    (auth_event_postcert GE.std Errno.linux exampleSession 0 (addrOnlyWorld [121])).2.files
      exampleSession.hostPin = some [1, 2, 3] ∧
    0 < (auth_event_postcert GE.std Errno.linux exampleSession 0 (addrOnlyWorld [121])).2.prompts :=
  have h := (C3_accepted_pins GE.std Errno.linux exampleSession (addrOnlyWorld [121]) _ rfl
    GE.std_WF (by decide) rfl).2.1 (by decide) (by decide)
  have hy := h.2.1 (by decide)
  ⟨hy.1, hy.2.1, h.1⟩


/-! ## Claims on the TCP open, the exit status and the controls -/

/-- C5 (code bug): for the one-candidate list with 127.0.0.1:22000, a `connect`
that returns `EINPROGRESS` hands the socket to the caller, `tcp_check_open`
then reports 0 (the connection to the candidate is up), and the stored
remote address is still the zeroed buffer with `raddrlen = 0`. -/
theorem C5_pending_connect_leaves_raddr_unset :
    (tcp_gensio_alloc Errno.linux [loopbackAddr] true true).toOption.bind
      (fun tdata => (tcp_sub_open Errno.linux tdata (-1) pendingNet).map
        (fun r => (r.1, r.2.2.1,
          (tcp_check_open r.2.1 r.2.2.2).1,
          (tcp_check_open r.2.1 r.2.2.2).2.1.raddrlen,
          (tcp_check_open r.2.1 r.2.2.2).2.1.remote.take 16)))
      = some (115, 3, 0, 0, List.replicate 16 0) ∧
    loopbackAddr.ai_addr ≠ List.replicate 16 0 ∧ loopbackAddr.ai_addrlen = 16 := by
  decide

/-- C6 (code bug): when the remote endpoint cannot be opened and no fallback
applies (transport tcp, or sctp with `--notcp`), and when the user's endpoint
cannot be opened, `main` ends with status 0 although no session ran. -/
theorem C6_open_failure_exits_zero :
    main_retry unreachableEnv (MainCfg.mk false true true) "tcp" []
      = (0, [MainEv.open_remote "tcp" 111]) ∧
    main_retry unreachableEnv (MainCfg.mk true true true) "sctp" []
      = (0, [MainEv.open_remote "sctp" 111]) ∧
    main_retry noUserEnv (MainCfg.mk false true true) "tcp" []
      = (0, [MainEv.open_remote "tcp" 0, MainEv.open_user 5, MainEv.close_remote,
             MainEv.wait_close 1]) := by
  refine ⟨?_, ?_, ?_⟩ <;> simp [main_retry, main_closeit, unreachableEnv, noUserEnv]

/-- C7 (counterexample): when the caller's buffer holds the empty string,
`set(NODELAY, "1")` followed by `get(NODELAY)` succeeds and leaves the empty
string in the buffer, not "1". -/
theorem C7_empty_buffer_counterexample :
    (tcp_control Errno.linux Params.linux 3 false 1 "1".toList quietNet).1 = 0 ∧
    (tcp_control Errno.linux Params.linux 3 true 1 []
      (tcp_control Errno.linux Params.linux 3 false 1 "1".toList quietNet).2.2).1 = 0 ∧
    (tcp_control Errno.linux Params.linux 3 true 1 []
      (tcp_control Errno.linux Params.linux 3 false 1 "1".toList quietNet).2.2).2.1 = [] ∧
    ([] : CStr) ≠ "1".toList := by
  decide

/-- C7 (amended): on a socket that answers every call and reports the value it
holds, for every caller buffer that holds a string of at least one character,
`set(NODELAY, "1")` followed by `get(NODELAY)` leaves "1" in the buffer, and
`set(NODELAY, "0")` followed by `get(NODELAY)` leaves "0". -/
theorem C7_nodelay_roundtrip (E : Errno) (P : Params) (fd : Int) (n : Net) (data : CStr)
    (hs : n.script = []) (hd : 1 ≤ data.length) :
    (tcp_control E P fd false P.GENSIO_CONTROL_NODELAY "1".toList n).1 = 0 ∧
    tcp_control E P fd true P.GENSIO_CONTROL_NODELAY data
      (tcp_control E P fd false P.GENSIO_CONTROL_NODELAY "1".toList n).2.2
      = (0, "1".toList, (tcp_control E P fd false P.GENSIO_CONTROL_NODELAY "1".toList n).2.2) ∧
    (tcp_control E P fd false P.GENSIO_CONTROL_NODELAY "0".toList n).1 = 0 ∧
    tcp_control E P fd true P.GENSIO_CONTROL_NODELAY data
      (tcp_control E P fd false P.GENSIO_CONTROL_NODELAY "0".toList n).2.2
      = (0, "0".toList, (tcp_control E P fd false P.GENSIO_CONTROL_NODELAY "0".toList n).2.2) := by
  have hp : n.pop = (NetRes.ok, n) := by unfold Net.pop; rw [hs]
  have h1 : toInt32 (strtoul ['1'] 0).1 = 1 := by decide
  have h0 : toInt32 (strtoul ['0'] 0).1 = 0 := by decide
  have hset : ∀ v : Int,
      ({ n with nodelay := fun f => if f = fd then v else n.nodelay f } : Net).pop
        = (NetRes.ok, { n with nodelay := fun f => if f = fd then v else n.nodelay f }) := by
    intro v; unfold Net.pop; simp [hs]
  have s1 : (toString (1 : Int)).toList = ['1'] := by decide
  have s0 : (toString (0 : Int)).toList = ['0'] := by decide
  have ht1 : snprintf_d (data.length + 1) 1 = ['1'] := by
    cases data with
    | nil => simp at hd
    | cons c cs => unfold snprintf_d; rw [s1]; simp
  have ht0 : snprintf_d (data.length + 1) 0 = ['0'] := by
    cases data with
    | nil => simp at hd
    | cons c cs => unfold snprintf_d; rw [s0]; simp
  simp [tcp_control, hp, h1, h0, hset, ht1, ht0]

/-- Witness of C7: the round trip through a three-character buffer. -/
theorem C7_nodelay_roundtrip_witness :
    (tcp_control Errno.linux Params.linux 3 true 1 "xyz".toList
      (tcp_control Errno.linux Params.linux 3 false 1 "1".toList quietNet).2.2).2.1 = "1".toList ∧
    (tcp_control Errno.linux Params.linux 3 true 1 "xyz".toList
      (tcp_control Errno.linux Params.linux 3 false 1 "0".toList quietNet).2.2).2.1 = "0".toList :=
  have h := C7_nodelay_roundtrip Errno.linux Params.linux 3 quietNet "xyz".toList rfl (by decide)
  ⟨congrArg (fun r => r.2.1) h.2.1, congrArg (fun r => r.2.1) h.2.2.2⟩

/-! ## Lemmas on `tcp_write` -/

theorem Char_toNat_inj (a b : Char) (h : a.toNat = b.toNat) : a = b := by
  rw [← Char.ofNat_toNat a, ← Char.ofNat_toNat b, h]

theorem tolower_ne_nul (c : Char) (h : c ≠ '\x00') : (tolower c).toNat ≠ 0 := by
  have hc : c.toNat ≠ 0 := fun h0 => h (Char_toNat_inj c '\x00' (by rw [h0]; rfl))
  unfold tolower
  split
  · rename_i hr
    obtain ⟨h1, h2⟩ := hr
    generalize c.toNat = k at h1 h2
    interval_cases k <;> decide
  · exact hc

theorem strcasecmp_diff (a b : Char) (h : a ≠ b) : ((a.toNat : Int) - (b.toNat : Int)) ≠ 0 := by
  intro h0
  have : a.toNat = b.toNat := by omega
  exact h (Char_toNat_inj a b this)

theorem strcasecmp_nil_right (t : CStr) (hn : '\x00' ∉ t) :
    strcasecmp t [] = 0 ↔ t = [] := by
  cases t with
  | nil => simp [strcasecmp]
  | cons a as =>
    have ha : a ≠ '\x00' := fun h => hn (by rw [h]; exact List.mem_cons_self _ _)
    have := tolower_ne_nul a ha
    simp only [strcasecmp]
    constructor
    · intro h; omega
    · intro h; simp at h

theorem strcasecmp_oob (t : CStr) (hn : '\x00' ∉ t) :
    strcasecmp t "oob".toList = 0 ↔ is_oob t := by
  have e : "oob".toList = ['o', 'o', 'b'] := rfl
  have lo : tolower 'o' = 'o' := by decide
  have lb : tolower 'b' = 'b' := by decide
  unfold is_oob
  rw [e]
  match t, hn with
  | [], _ => simp [strcasecmp, lo]
  | [a], _ =>
    by_cases h1 : tolower a = 'o'
    · simp [strcasecmp, h1, lo]
    · simp [strcasecmp, h1, lo]; exact strcasecmp_diff _ _ h1
  | [a, b], _ =>
    by_cases h1 : tolower a = 'o'
    · by_cases h2 : tolower b = 'o'
      · simp [strcasecmp, h1, h2, lo, lb]
      · simp [strcasecmp, h1, h2, lo]; exact strcasecmp_diff _ _ h2
    · simp [strcasecmp, h1, lo]; exact strcasecmp_diff _ _ h1
  | a :: b :: c :: rest, hn =>
    have hr : '\x00' ∉ rest := fun h =>
      hn (List.mem_cons_of_mem _ (List.mem_cons_of_mem _ (List.mem_cons_of_mem _ h)))
    by_cases h1 : tolower a = 'o'
    · by_cases h2 : tolower b = 'o'
      · by_cases h3 : tolower c = 'b'
        · simp [strcasecmp, h1, h2, h3, lo, lb]
          exact strcasecmp_nil_right rest hr
        · simp [strcasecmp, h1, h2, h3, lo, lb]; exact strcasecmp_diff _ _ h3
      · simp [strcasecmp, h1, h2, lo]; exact strcasecmp_diff _ _ h2
    · simp [strcasecmp, h1, lo]; exact strcasecmp_diff _ _ h1

theorem tcp_write_aux_err (E : Errno) (P : Params) :
    ∀ (tags : List CStr) (flags : Nat) (err : Int), err ≠ 0 →
      tcp_write_aux E P tags flags err = (flags, err) := by
  intro tags
  cases tags with
  | nil => intro flags err _; rfl
  | cons t ts => intro flags err h; simp [tcp_write_aux, h]

theorem tcp_write_aux_valid (E : Errno) (P : Params) :
    ∀ (tags : List CStr) (flags : Nat), (∀ t ∈ tags, '\x00' ∉ t ∧ is_oob t) →
      tcp_write_aux E P tags flags 0 = (if tags = [] then flags else flags ||| P.MSG_OOB, 0) := by
  intro tags
  induction tags with
  | nil => intro flags _; rfl
  | cons t ts ih =>
    intro flags h
    have ht := h t (List.mem_cons_self _ _)
    have hts : ∀ t ∈ ts, '\x00' ∉ t ∧ is_oob t := fun u hu => h u (List.mem_cons_of_mem _ hu)
    have hz : strcasecmp t "oob".toList = 0 := (strcasecmp_oob t ht.1).2 ht.2
    simp only [tcp_write_aux, ne_eq, not_true_eq_false, if_false, hz, if_true]
    rw [ih _ hts]
    by_cases hn : ts = []
    · simp [hn]
    · simp [hn, Nat.lor_assoc]

theorem tcp_write_aux_invalid (E : Errno) (P : Params) (hE : E.EINVAL ≠ 0) :
    ∀ (tags : List CStr) (flags : Nat), (∀ t ∈ tags, '\x00' ∉ t) → (∃ t ∈ tags, ¬ is_oob t) →
      (tcp_write_aux E P tags flags 0).2 = E.EINVAL := by
  intro tags
  induction tags with
  | nil => intro flags _ h; simp at h
  | cons t ts ih =>
    intro flags hn h
    have hnt := hn t (List.mem_cons_self _ _)
    have hns : ∀ t ∈ ts, '\x00' ∉ t := fun u hu => hn u (List.mem_cons_of_mem _ hu)
    by_cases ho : is_oob t
    · have hz : strcasecmp t "oob".toList = 0 := (strcasecmp_oob t hnt).2 ho
      simp only [tcp_write_aux, ne_eq, not_true_eq_false, if_false, hz, if_true]
      apply ih _ hns
      obtain ⟨u, hu, hu2⟩ := h
      rcases List.mem_cons.1 hu with rfl | hu'
      · exact absurd ho hu2
      · exact ⟨u, hu', hu2⟩
    · have hz : strcasecmp t "oob".toList ≠ 0 := fun h0 => ho ((strcasecmp_oob t hnt).1 h0)
      simp only [tcp_write_aux, ne_eq, not_true_eq_false, if_false, hz]
      rw [tcp_write_aux_err E P ts flags E.EINVAL hE]

theorem tcp_write_retry_eintr (E : Errno) (fd : Int) (buflen flags : Nat) :
    ∀ (k : Nat) (rest : List SendRes) (sent : List SendCall),
      tcp_write_retry E fd buflen flags (List.replicate k (SendRes.eintr E) ++ rest) sent =
      tcp_write_retry E fd buflen flags rest
        (sent ++ List.replicate k (SendCall.mk fd buflen flags)) := by
  intro k
  induction k with
  | zero => intro rest sent; simp
  | succ k ih =>
    intro rest sent
    have h1 : (SendRes.eintr E).rv < 0 := by simp [SendRes.eintr]
    have h2 : (SendRes.eintr E).errno = E.EINTR := rfl
    rw [List.replicate_succ, List.cons_append, tcp_write_retry, if_pos h1, if_pos h2, ih]
    simp [List.replicate_succ]

theorem aux_flags_valid (E : Errno) (P : Params) (auxdata : Option (List CStr))
    (h : valid_aux auxdata) :
    (match auxdata with
      | none => ((0 : Nat), (0 : Int))
      | some tags => tcp_write_aux E P tags 0 0) = (aux_flags P auxdata, 0) := by
  cases auxdata with
  | none => rfl
  | some tags =>
    simp only
    rw [tcp_write_aux_valid E P tags 0 (h tags rfl)]
    cases tags with
    | nil => rfl
    | cons t ts => simp [aux_flags]

theorem tcp_write_valid (E : Errno) (P : Params) (fd : Int) (rcount : Option Nat) (buflen : Nat)
    (auxdata : Option (List CStr)) (w : Wire) (h : valid_aux auxdata) (k : Nat) (r : SendRes)
    (rest : List SendRes) (hs : w.script = List.replicate k (SendRes.eintr E) ++ r :: rest) :
    tcp_write E P fd rcount buflen auxdata w =
      match tcp_write_retry E fd buflen (aux_flags P auxdata) (r :: rest)
          (w.sent ++ List.replicate k (SendCall.mk fd buflen (aux_flags P auxdata))) with
      | none => none
      | some (rv, err, w1) =>
        if err = 0 then some (err, rcount.map (fun _ => toU32 rv), w1)
        else some (err, rcount, w1) := by
  unfold tcp_write
  rw [aux_flags_valid E P auxdata h, hs]
  simp only [ne_eq, not_true_eq_false, and_false, if_false]
  rw [tcp_write_retry_eintr]

theorem tcp_write_retry_final (E : Errno) (fd : Int) (buflen flags : Nat) (r : SendRes)
    (rest : List SendRes) (sent : List SendCall) (h : ¬ (r.rv < 0 ∧ r.errno = E.EINTR)) :
    ∃ rv err, tcp_write_retry E fd buflen flags (r :: rest) sent =
      some (rv, err, Wire.mk rest (sent ++ [SendCall.mk fd buflen flags])) := by
  unfold tcp_write_retry
  by_cases h1 : r.rv < 0
  · have h2 : r.errno ≠ E.EINTR := fun h' => h ⟨h1, h'⟩
    rw [if_pos h1, if_neg h2]
    by_cases h3 : r.errno = E.EWOULDBLOCK ∨ r.errno = E.EAGAIN
    · rw [if_pos h3]; exact ⟨_, _, rfl⟩
    · rw [if_neg h3]; exact ⟨_, _, rfl⟩
  · rw [if_neg h1]
    by_cases h3 : r.rv = 0
    · rw [if_pos h3]; exact ⟨_, _, rfl⟩
    · rw [if_neg h3]; exact ⟨_, _, rfl⟩

theorem tcp_write_sends (E : Errno) (P : Params) (fd : Int) (rcount : Option Nat) (buflen : Nat)
    (auxdata : Option (List CStr)) (w : Wire) (h : valid_aux auxdata) (k : Nat) (r : SendRes)
    (rest : List SendRes) (hs : w.script = List.replicate k (SendRes.eintr E) ++ r :: rest)
    (hr : ¬ (r.rv < 0 ∧ r.errno = E.EINTR)) :
    ∃ res, tcp_write E P fd rcount buflen auxdata w = some res ∧
      res.2.2 = Wire.mk rest
        (w.sent ++ List.replicate (k + 1) (SendCall.mk fd buflen (aux_flags P auxdata))) := by
  rw [tcp_write_valid E P fd rcount buflen auxdata w h k r rest hs]
  obtain ⟨rv, err, he⟩ := tcp_write_retry_final E fd buflen (aux_flags P auxdata) r rest
    (w.sent ++ List.replicate k (SendCall.mk fd buflen (aux_flags P auxdata))) hr
  rw [he]
  have hl : w.sent ++ List.replicate k (SendCall.mk fd buflen (aux_flags P auxdata)) ++
      [SendCall.mk fd buflen (aux_flags P auxdata)] =
      w.sent ++ List.replicate (k + 1) (SendCall.mk fd buflen (aux_flags P auxdata)) := by
    rw [List.append_assoc, ← List.replicate_succ']
  by_cases h0 : err = 0
  · simp only [h0, if_true]; exact ⟨_, rfl, by simp only [hl]⟩
  · simp only [h0, if_false]; exact ⟨_, rfl, by simp only [hl]⟩

/-! ## Claims on `tcp_write` -/

/-- C8: for every aux list of C strings given to `tcp_write`: if some tag is
not `oob` (case ignored) the call returns `EINVAL`, sends nothing and leaves
the written count alone; if every tag is `oob`, each `send` it makes carries
`MSG_OOB` when the list holds a tag and no flag when the list is empty; and
when the list is absent each `send` carries no flag. -/
theorem C8_aux_tags (E : Errno) (P : Params) (fd : Int) (rcount : Option Nat) (buflen : Nat)
    (tags : List CStr) (w : Wire) (hE : E.WF) (hnul : ∀ t ∈ tags, '\x00' ∉ t) :
    ((∃ t ∈ tags, ¬ is_oob t) →
      tcp_write E P fd rcount buflen (some tags) w = some (E.EINVAL, rcount, w)) ∧
    ((∀ t ∈ tags, is_oob t) → ∀ (k : Nat) (r : SendRes) (rest : List SendRes),
      w.script = List.replicate k (SendRes.eintr E) ++ r :: rest →
      ¬ (r.rv < 0 ∧ r.errno = E.EINTR) →
      ∃ res, tcp_write E P fd rcount buflen (some tags) w = some res ∧
        res.2.2 = Wire.mk rest (w.sent ++ List.replicate (k + 1)
          (SendCall.mk fd buflen (if tags = [] then 0 else P.MSG_OOB)))) ∧
    (∀ (k : Nat) (r : SendRes) (rest : List SendRes),
      w.script = List.replicate k (SendRes.eintr E) ++ r :: rest →
      ¬ (r.rv < 0 ∧ r.errno = E.EINTR) →
      ∃ res, tcp_write E P fd rcount buflen none w = some res ∧
        res.2.2 = Wire.mk rest (w.sent ++ List.replicate (k + 1) (SendCall.mk fd buflen 0))) := by
  have hinv : E.EINVAL ≠ 0 := by
    have := hE.2.2.2.2.2.2.2.1
    omega
  refine ⟨?_, ?_, ?_⟩
  · intro h
    have h2 := tcp_write_aux_invalid E P hinv tags 0 hnul h
    unfold tcp_write
    simp [h2, hinv]
  · intro h k r rest hs hr
    have hv : valid_aux (some tags) := by
      intro tg htg t ht
      cases htg
      exact ⟨hnul t ht, h t ht⟩
    have := tcp_write_sends E P fd rcount buflen (some tags) w hv k r rest hs hr
    have hf : aux_flags P (some tags) = if tags = [] then 0 else P.MSG_OOB := by
      cases tags <;> simp [aux_flags]
    rw [hf] at this
    exact this
  · intro k r rest hs hr
    have hv : valid_aux none := by intro tg htg; cases htg
    exact tcp_write_sends E P fd rcount buflen none w hv k r rest hs hr

/-- C9: with a valid aux list, after any number of `send` calls interrupted by
`EINTR` the call that is not interrupted decides: `n > 0` bytes give return 0
and written count `n`; `EAGAIN` or `EWOULDBLOCK` give return 0 and written
count 0; 0 bytes give `EPIPE` and any other error gives that error, both with
the written count left alone. -/
theorem C9_send_outcomes (E : Errno) (P : Params) (fd : Int) (rcount : Option Nat)
    (buflen : Nat) (auxdata : Option (List CStr)) (w : Wire) (k : Nat) (r : SendRes)
    (rest : List SendRes) (hE : E.WF) (haux : valid_aux auxdata)
    (hs : w.script = List.replicate k (SendRes.eintr E) ++ r :: rest) :
    (0 < r.rv → r.rv < 2147483648 →
      (tcp_write E P fd rcount buflen auxdata w).map (fun x => (x.1, x.2.1))
        = some (0, rcount.map (fun _ => r.rv.toNat))) ∧
    (r.rv < 0 → (r.errno = E.EAGAIN ∨ r.errno = E.EWOULDBLOCK) →
      (tcp_write E P fd rcount buflen auxdata w).map (fun x => (x.1, x.2.1))
        = some (0, rcount.map (fun _ => 0))) ∧
    (r.rv = 0 →
      (tcp_write E P fd rcount buflen auxdata w).map (fun x => (x.1, x.2.1))
        = some (E.EPIPE, rcount)) ∧
    (r.rv < 0 → r.errno ≠ E.EINTR → r.errno ≠ E.EAGAIN → r.errno ≠ E.EWOULDBLOCK →
      r.errno ≠ 0 →
      (tcp_write E P fd rcount buflen auxdata w).map (fun x => (x.1, x.2.1))
        = some (r.errno, rcount)) := by
  obtain ⟨_, _, _, _, _, _, hpipe, _, _, _, _, h1, h2, _, _, _, _⟩ := hE
  rw [tcp_write_valid E P fd rcount buflen auxdata w haux k r rest hs]
  refine ⟨?_, ?_, ?_, ?_⟩
  · intro hp hlt
    have c1 : ¬ r.rv < 0 := by omega
    have c2 : ¬ r.rv = 0 := by omega
    have hu : toU32 r.rv = r.rv.toNat := by
      unfold toU32
      rw [Int.emod_eq_of_lt (by omega) (by omega)]
    simp [tcp_write_retry, c1, c2, hu]
  · intro hn he
    have c2 : r.errno ≠ E.EINTR := by
      rcases he with he | he <;> rw [he]
      · exact fun h => h1 h.symm
      · exact fun h => h2 h.symm
    have c3 : r.errno = E.EWOULDBLOCK ∨ r.errno = E.EAGAIN := he.symm
    have hu : toU32 0 = 0 := by decide
    simp [tcp_write_retry, hn, c2, c3, hu]
  · intro hz
    have c1 : ¬ r.rv < 0 := by omega
    have hp : E.EPIPE ≠ 0 := by omega
    simp [tcp_write_retry, c1, hz, hp]
  · intro hn c2 c3 c4 c5
    have c6 : ¬ (r.errno = E.EWOULDBLOCK ∨ r.errno = E.EAGAIN) := by
      intro h; rcases h with h | h
      · exact c4 h
      · exact c3 h
    simp [tcp_write_retry, hn, c2, c6, c5]

/-- Witness of C8: a list with a foreign tag is refused with `EINVAL` and
nothing is sent; the tag `OoB` sends the data once with `MSG_OOB`. -/
theorem C8_aux_tags_witness :
    tcp_write Errno.linux Params.linux 3 (some 0) 5 (some ["oob".toList, "urgent".toList])
        (Wire.mk [SendRes.mk 5 0] [])
      = some (22, some 0, Wire.mk [SendRes.mk 5 0] []) ∧
    ∃ res, tcp_write Errno.linux Params.linux 3 (some 0) 5 (some ["OoB".toList])
        (Wire.mk [SendRes.mk 5 0] []) = some res ∧
      res.2.2 = Wire.mk [] [SendCall.mk 3 5 1] :=
  ⟨(C8_aux_tags Errno.linux Params.linux 3 (some 0) 5 ["oob".toList, "urgent".toList]
      (Wire.mk [SendRes.mk 5 0] []) (by decide) (by decide)).1 (by decide),
   (C8_aux_tags Errno.linux Params.linux 3 (some 0) 5 ["OoB".toList]
      (Wire.mk [SendRes.mk 5 0] []) (by decide) (by decide)).2.1 (by decide)
      0 (SendRes.mk 5 0) [] rfl (by decide)⟩

/-- Witness of C9: two interrupted calls, then 7 bytes sent with `MSG_OOB`. -/
theorem C9_send_outcomes_witness :
    (tcp_write Errno.linux Params.linux 3 (some 0) 9 (some ["oob".toList])
        (Wire.mk [SendRes.mk (-1) 4, SendRes.mk (-1) 4, SendRes.mk 7 0] [])).map
      (fun x => (x.1, x.2.1)) = some (0, some 7) :=
  (C9_send_outcomes Errno.linux Params.linux 3 (some 0) 9 (some ["oob".toList])
    (Wire.mk [SendRes.mk (-1) 4, SendRes.mk (-1) 4, SendRes.mk 7 0] []) 2 (SendRes.mk 7 0) []
    (by decide) (by intro tags h t ht; cases h; revert t; decide) rfl).1 (by decide) (by decide)

/-! ## Lemmas on the accepter -/

theorem done_calls_close (s : tcpna_data) (cb : Nat) (fd : Int) (w : Nat) :
    ({ s with log := s.log ++ [AccEv.close fd], nr_accept_close_waiting := w } : tcpna_data).done_calls cb
      = s.done_calls cb := by
  simp [tcpna_data.done_calls, List.filter_append]

theorem tcpna_fd_cleared_pending (fd : Int) (s : tcpna_data) (hf : s.freed = false)
    (h1 : 1 < s.nr_accept_close_waiting) (h2 : s.nr_accept_close_waiting < 4294967296) :
    tcpna_fd_cleared fd s =
      some { s with log := s.log ++ [AccEv.close fd],
                    nr_accept_close_waiting := s.nr_accept_close_waiting - 1 } := by
  have e : (s.nr_accept_close_waiting + 4294967295) % 4294967296
      = s.nr_accept_close_waiting - 1 := by omega
  have ne : s.nr_accept_close_waiting - 1 ≠ 0 := by omega
  simp [tcpna_fd_cleared, hf, e, ne]

theorem tcpna_fd_cleared_all_pending (cb : Nat) :
    ∀ (cl : List Int) (s : tcpna_data), s.freed = false →
      cl.length < s.nr_accept_close_waiting → s.nr_accept_close_waiting < 4294967296 →
      ∃ s1, tcpna_fd_cleared_all cl s = some s1 ∧
        s1.nr_accept_close_waiting = s.nr_accept_close_waiting - cl.length ∧
        s1.freed = false ∧ s1.in_shutdown = s.in_shutdown ∧ s1.setup = s.setup ∧
        s1.enabled = s.enabled ∧
        s1.shutdown_done = s.shutdown_done ∧ s1.shutdown_data = s.shutdown_data ∧
        s1.refcount = s.refcount ∧ s1.done_calls cb = s.done_calls cb := by
  intro cl
  induction cl with
  | nil => intro s hf _ _; exact ⟨s, rfl, by simp, hf, rfl, rfl, rfl, rfl, rfl, rfl, rfl⟩
  | cons fd rest ih =>
    intro s hf h1 h2
    simp only [List.length_cons] at h1
    have hstep := tcpna_fd_cleared_pending fd s hf (by omega) h2
    obtain ⟨s1, e1, a1, a2, a3, a4, a5, a6, a7, a8, a9⟩ :=
      ih { s with log := s.log ++ [AccEv.close fd],
                  nr_accept_close_waiting := s.nr_accept_close_waiting - 1 } hf
        (by simp only; omega) (by simp only; omega)
    refine ⟨s1, ?_, ?_, a2, a3, a4, a5, a6, a7, a8, ?_⟩
    · simp only [tcpna_fd_cleared_all, hstep, Option.some_bind]
      exact e1
    · rw [a1]; simp only [List.length_cons]; omega
    · rw [a9]; exact done_calls_close s cb fd _

theorem tcpna_fd_cleared_last (fd : Int) (s : tcpna_data) (cb : Nat) (hf : s.freed = false)
    (h1 : s.nr_accept_close_waiting = 1) (hcb : s.shutdown_done = some cb)
    (hr : 2 ≤ s.refcount) :
    ∃ s1, tcpna_fd_cleared fd s = some s1 ∧ s1.in_shutdown = false ∧ s1.freed = false ∧
      s1.setup = s.setup ∧ s1.refcount = s.refcount - 1 ∧
      s1.done_calls cb = s.done_calls cb + 1 := by
  have hr0 : s.refcount ≠ 0 := by omega
  have hr1 : s.refcount - 1 ≠ 0 := by omega
  have e : tcpna_fd_cleared fd s = some
      { s with log := s.log ++ [AccEv.close fd] ++ [AccEv.shutdown_done cb s.shutdown_data],
               nr_accept_close_waiting := 0, in_shutdown := false,
               refcount := s.refcount - 1 } := by
    simp [tcpna_fd_cleared, hf, h1, hcb, tcpna_deref_and_unlock, hr0, hr1]
  refine ⟨_, e, rfl, hf, rfl, rfl, ?_⟩
  simp [tcpna_data.done_calls, List.filter_append]

theorem tcpna_fd_cleared_all_append :
    ∀ (a b : List Int) (s : tcpna_data),
      tcpna_fd_cleared_all (a ++ b) s = (tcpna_fd_cleared_all a s).bind (tcpna_fd_cleared_all b) := by
  intro a
  induction a with
  | nil => intro b s; rfl
  | cons fd rest ih =>
    intro b s
    simp only [List.cons_append, tcpna_fd_cleared_all]
    cases tcpna_fd_cleared fd s with
    | none => rfl
    | some s1 => simp only [Option.some_bind]; exact ih b s1

theorem tcpna_startup_ok (E : Errno) (fds : List Int) (s : tcpna_data) (cb : Nat)
    (hf : s.freed = false) (hsetup : s.setup = false) (hshut : s.in_shutdown = false) :
    ∃ s1, tcpna_startup E (Except.ok fds) s = some (0, s1) ∧
      s1.freed = false ∧ s1.setup = true ∧ s1.enabled = true ∧ s1.in_shutdown = false ∧
      s1.acceptfds = some fds ∧ s1.nr_acceptfds = fds.length ∧
      s1.refcount = (s.refcount + 1) % 4294967296 ∧
      s1.done_calls cb = s.done_calls cb := by
  have e : tcpna_startup E (Except.ok fds) s = some (0,
      { s with
        acceptfds := some fds
        nr_acceptfds := fds.length
        setup := true
        log := s.log ++ fds.map (fun fd => AccEv.set_read_handler fd true)
        enabled := true
        shutdown_done := none
        refcount := (s.refcount + 1) % 4294967296 }) := by
    simp [tcpna_startup, hf, hsetup, hshut, tcpna_set_fd_enables, tcpna_data.fds, tcpna_ref]
  refine ⟨_, e, ?_⟩
  simp [hf, hshut, tcpna_data.done_calls, List.filter_append]

theorem tcpna_shutdown_ok (E : Errno) (cb : Option Nat) (data : Nat) (s : tcpna_data)
    (fds : List Int) (c : Nat) (hf : s.freed = false) (hsetup : s.setup = true)
    (ha : s.acceptfds = some fds) (hn : s.nr_acceptfds = fds.length) :
    ∃ s2, tcpna_shutdown E cb data s = some (0, s2) ∧
      s2.freed = false ∧ s2.setup = false ∧ s2.enabled = false ∧ s2.in_shutdown = true ∧
      s2.shutdown_done = cb ∧ s2.nr_accept_close_waiting = s.nr_acceptfds ∧
      s2.refcount = s.refcount ∧ s2.done_calls c = s.done_calls c := by
  have e : tcpna_shutdown E cb data s = some (0,
      { s with
        in_shutdown := true
        shutdown_done := cb
        shutdown_data := data
        nr_accept_close_waiting := s.nr_acceptfds
        log := s.log ++ fds.map AccEv.clear_fd_handlers
        setup := false
        enabled := false }) := by
    simp [tcpna_shutdown, hf, hsetup, tcpna_shutdown_locked, tcpna_data.fds, ha, hn]
  refine ⟨_, e, ?_⟩
  simp [hf, tcpna_data.done_calls, List.filter_append]

/-! ## Claim on the accepter lifecycle -/

/-- C10: for a live accepter that is neither set up nor shutting down and any
number `n >= 1` of listening descriptors: `tcpna_startup` returns 0,
`tcpna_shutdown(cb)` returns 0, after fewer than `n` of the `tcpna_fd_cleared`
callbacks `cb` has not been invoked and the shutdown is still in progress,
after the `n`-th `cb` has been invoked exactly once and `in_shutdown` is
false, and a further `tcpna_startup` whose sockets open returns 0. -/
theorem C10_accepter_lifecycle (E : Errno) (s : tcpna_data) (fds cl fds2 : List Int)
    (cb data : Nat)
    (hf : s.freed = false) (hsetup : s.setup = false) (hshut : s.in_shutdown = false)
    (href : 1 ≤ s.refcount) (hrc : s.refcount + 1 < 4294967296)
    (hn : 1 ≤ fds.length) (hn2 : fds.length < 4294967296) (hcl : cl.length = fds.length) :
    ∃ s1 s2 s3 s4,
      tcpna_startup E (Except.ok fds) s = some (0, s1) ∧
      tcpna_shutdown E (some cb) data s1 = some (0, s2) ∧
      (∀ j, j < fds.length → ∃ sj, tcpna_fd_cleared_all (cl.take j) s2 = some sj ∧
          sj.done_calls cb = s.done_calls cb ∧ sj.in_shutdown = true) ∧
      tcpna_fd_cleared_all cl s2 = some s3 ∧
      s3.done_calls cb = s.done_calls cb + 1 ∧
      s3.in_shutdown = false ∧
      tcpna_startup E (Except.ok fds2) s3 = some (0, s4) := by
  obtain ⟨s1, h1, s1f, s1s, _, _, s1a, s1n, s1r', s1d⟩ :=
    tcpna_startup_ok E fds s cb hf hsetup hshut
  have s1r : s1.refcount = s.refcount + 1 := by rw [s1r']; omega
  obtain ⟨s2, h2, s2f, s2s, _, s2i, s2c, s2w', s2r', s2d'⟩ :=
    tcpna_shutdown_ok E (some cb) data s1 fds cb s1f s1s s1a s1n
  have s2w : s2.nr_accept_close_waiting = fds.length := by rw [s2w', s1n]
  have s2r : s2.refcount = s.refcount + 1 := by rw [s2r', s1r]
  have s2d : s2.done_calls cb = s.done_calls cb := by rw [s2d', s1d]
  have hpart : ∀ j, j < fds.length → ∃ sj, tcpna_fd_cleared_all (cl.take j) s2 = some sj ∧
      sj.nr_accept_close_waiting = fds.length - j ∧ sj.freed = false ∧
      sj.in_shutdown = true ∧ sj.setup = false ∧ sj.shutdown_done = some cb ∧
      sj.refcount = s.refcount + 1 ∧ sj.done_calls cb = s.done_calls cb := by
    intro j hj
    have hlen : (cl.take j).length = j := by rw [List.length_take]; omega
    obtain ⟨sj, e, a1, a2, a3, a4, _, a6, _, a8, a9⟩ :=
      tcpna_fd_cleared_all_pending cb (cl.take j) s2 s2f (by rw [hlen, s2w]; exact hj)
        (by rw [s2w]; exact hn2)
    exact ⟨sj, e, by rw [a1, hlen, s2w], a2, by rw [a3, s2i], by rw [a4, s2s],
      by rw [a6, s2c], by rw [a8, s2r], by rw [a9, s2d]⟩
  obtain ⟨sj, ej, b1, b2, b3, b4, b5, b6, b7⟩ := hpart (fds.length - 1) (by omega)
  have hsplit : cl = cl.take (fds.length - 1) ++ cl.drop (fds.length - 1) :=
    (List.take_append_drop _ _).symm
  obtain ⟨x, hx⟩ : ∃ x, cl.drop (fds.length - 1) = [x] := by
    have hl : (cl.drop (fds.length - 1)).length = 1 := by rw [List.length_drop]; omega
    match hd : cl.drop (fds.length - 1), hl with
    | [x], _ => exact ⟨x, rfl⟩
  obtain ⟨s3, e3, c1, c2, c3, c4, c5⟩ :=
    tcpna_fd_cleared_last x sj cb b2 (by rw [b1]; omega) b5 (by rw [b6]; omega)
  obtain ⟨s4, h4, _⟩ := tcpna_startup_ok E fds2 s3 cb c2 (by rw [c3, b4]) c1
  refine ⟨s1, s2, s3, s4, h1, h2, ?_, ?_, ?_, c1, h4⟩
  · intro j hj
    obtain ⟨sj', e', _, _, a3, _, _, _, a7⟩ := hpart j hj
    exact ⟨sj', e', a7, a3⟩
  · rw [hsplit, tcpna_fd_cleared_all_append, ej, hx]
    simp only [Option.some_bind, tcpna_fd_cleared_all, e3]
  · rw [c5, b7]

/-- Witness of C10: a fresh accepter with two listening descriptors. -/
theorem C10_accepter_lifecycle_witness :
    ∃ s1 s2 s3 s4,
      tcpna_startup Errno.linux (Except.ok [5, 6]) tcp_gensio_accepter_alloc = some (0, s1) ∧
      tcpna_shutdown Errno.linux (some 1) 0 s1 = some (0, s2) ∧
      (∀ j, j < 2 → ∃ sj, tcpna_fd_cleared_all ([6, 5].take j) s2 = some sj ∧
          sj.done_calls 1 = 0 ∧ sj.in_shutdown = true) ∧
      tcpna_fd_cleared_all [6, 5] s2 = some s3 ∧
      s3.done_calls 1 = 1 ∧
      s3.in_shutdown = false ∧
      tcpna_startup Errno.linux (Except.ok [7]) s3 = some (0, s4) :=
  C10_accepter_lifecycle Errno.linux tcp_gensio_accepter_alloc [5, 6] [6, 5] [7] 1 0
    rfl rfl rfl (by decide) (by decide) (by decide) (by decide) rfl


/-! ## Lemmas on the accepter's reference count -/

theorem tcp_gensio_accepter_alloc_run_ok (E : Errno) :
    tcp_gensio_accepter_alloc_run E true true true true true
      = (0, some tcp_gensio_accepter_alloc) := by
  rfl

theorem free_calls_append (s : tcpna_data) (l : List AccEv) (h : AccEv.finish_free ∉ l) :
    (s.log ++ l).count AccEv.finish_free = s.free_calls := by
  rw [List.count_append, List.count_eq_zero.2 h]; rfl

theorem tcpna_deref_step (s s1 : tcpna_data) (hf : s.freed = false)
    (h : tcpna_deref_and_unlock s = some s1) :
    (s1.freed = false ∧ s1.free_calls = s.free_calls ∧ s1.refcount ≠ 0) ∨
    (s1.freed = true ∧ s1.free_calls = s.free_calls + 1 ∧ s.refcount = 1 ∧ s1.refcount = 0) := by
  unfold tcpna_deref_and_unlock at h
  by_cases h0 : s.refcount = 0
  · simp [h0] at h
  · by_cases h1 : s.refcount - 1 = 0
    · right
      simp [h0, h1, tcpna_finish_free] at h
      subst h
      refine ⟨rfl, ?_, by omega, rfl⟩
      simp [tcpna_data.free_calls, List.count_append]
    · left
      simp [h0, h1] at h
      subst h
      exact ⟨hf, rfl, h1⟩

theorem tcpna_step (E : Errno) (op : AccOp) (s s1 : tcpna_data) (hf : s.freed = false)
    (h : op.apply E s = some s1) :
    (s1.freed = false ∧ s1.free_calls = s.free_calls) ∨
    (s1.freed = true ∧ s1.free_calls = s.free_calls + 1 ∧ s.refcount = 1 ∧ s1.refcount = 0) := by
  cases op with
  | startup opened =>
    left
    simp only [AccOp.apply, tcpna_startup, hf, Bool.false_eq_true, if_false] at h
    by_cases hb : s.in_shutdown = true ∨ s.setup = true
    · rw [if_pos hb] at h
      simp at h; subst h; exact ⟨by simp [hf], rfl⟩
    · rw [if_neg hb] at h
      cases opened with
      | error e => simp at h; subst h; exact ⟨by simp [hf], rfl⟩
      | ok l =>
        simp [tcpna_set_fd_enables, tcpna_data.fds, tcpna_ref] at h
        subst h
        exact ⟨by simp [hf], free_calls_append s _ (by simp)⟩
  | shutdown cb data =>
    left
    simp only [AccOp.apply, tcpna_shutdown, hf, Bool.false_eq_true, if_false] at h
    by_cases hs : s.setup = true
    · rw [if_pos hs] at h
      simp only [tcpna_shutdown_locked] at h
      cases hfd : s.fds with
      | none => simp [hfd] at h
      | some l =>
        simp [hfd] at h
        subst h
        exact ⟨by simp [hf], free_calls_append s _ (by simp)⟩
    · rw [if_neg hs] at h
      simp at h; subst h; exact ⟨by simp [hf], rfl⟩
  | set_accept_callback_enable en =>
    left
    simp only [AccOp.apply, tcpna_set_accept_callback_enable, hf, Bool.false_eq_true,
      if_false] at h
    by_cases he : s.enabled ≠ en
    · rw [if_pos he] at h
      simp only [tcpna_set_fd_enables] at h
      cases hfd : s.fds with
      | none => simp [hfd] at h
      | some l =>
        simp [hfd] at h
        subst h
        exact ⟨by simp [hf], free_calls_append s _ (by simp)⟩
    · rw [if_neg he] at h
      simp at h; subst h; exact ⟨by simp [hf], rfl⟩
  | fd_cleared fd =>
    simp only [AccOp.apply, tcpna_fd_cleared, hf, Bool.false_eq_true, if_false] at h
    by_cases hz : (s.nr_accept_close_waiting + 4294967295) % 4294967296 = 0
    · rw [if_pos hz] at h
      cases hcb : s.shutdown_done with
      | none =>
        simp only [hcb] at h
        have := tcpna_deref_step _ _ (by simp [hf]) h
        rcases this with h1 | h1
        · left
          simpa [tcpna_data.free_calls, List.count_append] using And.intro h1.1 h1.2.1
        · right
          simpa [tcpna_data.free_calls, List.count_append] using h1
      | some cb =>
        simp only [hcb] at h
        have := tcpna_deref_step _ _ (by simp [hf]) h
        rcases this with h1 | h1
        · left
          simpa [tcpna_data.free_calls, List.count_append] using And.intro h1.1 h1.2.1
        · right
          simpa [tcpna_data.free_calls, List.count_append] using h1
    · left
      rw [if_neg hz] at h
      simp at h
      subst h
      exact ⟨by simp [hf], free_calls_append s _ (by simp)⟩
  | free =>
    simp only [AccOp.apply, tcpna_free, hf, Bool.false_eq_true, if_false] at h
    by_cases hs : s.setup = true
    · rw [if_pos hs] at h
      simp only [tcpna_shutdown_locked] at h
      cases hfd : s.fds with
      | none => simp [hfd] at h
      | some l =>
        simp only [hfd, Option.some_bind] at h
        have := tcpna_deref_step _ _ (by simp [hf]) h
        have hc : (s.log ++ l.map AccEv.clear_fd_handlers).count AccEv.finish_free
            = s.free_calls := free_calls_append s _ (by simp)
        rcases this with h1 | h1
        · left
          simpa [tcpna_data.free_calls, hc] using And.intro h1.1 h1.2.1
        · right
          simpa [tcpna_data.free_calls, hc] using h1
    · rw [if_neg hs] at h
      rcases tcpna_deref_step _ _ hf h with h1 | h1
      · exact Or.inl ⟨h1.1, h1.2.1⟩
      · exact Or.inr h1

theorem tcpna_run_free_calls (E : Errno) :
    ∀ (ops : List AccOp) (s s1 : tcpna_data),
      (s.freed = false ∧ s.free_calls = 0) ∨ (s.freed = true ∧ s.free_calls = 1 ∧ s.refcount = 0) →
      tcpna_run E ops s = some s1 →
      (s1.freed = false ∧ s1.free_calls = 0) ∨
      (s1.freed = true ∧ s1.free_calls = 1 ∧ s1.refcount = 0) := by
  intro ops
  induction ops with
  | nil => intro s s1 hi h; simp [tcpna_run] at h; subst h; exact hi
  | cons op rest ih =>
    intro s s1 hi h
    simp only [tcpna_run] at h
    cases hop : op.apply E s with
    | none => simp [hop] at h
    | some s2 =>
      simp only [hop, Option.some_bind] at h
      apply ih s2 s1 _ h
      rcases hi with hi | hi
      · rcases tcpna_step E op s s2 hi.1 hop with h1 | h1
        · exact Or.inl ⟨h1.1, by rw [h1.2, hi.2]⟩
        · exact Or.inr ⟨h1.1, by rw [h1.2.1, hi.2], h1.2.2.2⟩
      · exfalso
        have hfr := hi.1
        cases op <;>
          simp [AccOp.apply, tcpna_startup, tcpna_shutdown, tcpna_set_accept_callback_enable,
            tcpna_fd_cleared, tcpna_free, hfr] at hop

theorem tcpna_fd_cleared_final (fd : Int) (s : tcpna_data) (hf : s.freed = false)
    (h1 : s.nr_accept_close_waiting = 1) (hr : 2 ≤ s.refcount) :
    ∃ s1, tcpna_fd_cleared fd s = some s1 ∧ s1.in_shutdown = false ∧ s1.freed = false ∧
      s1.setup = s.setup ∧ s1.refcount = s.refcount - 1 := by
  have hr0 : s.refcount ≠ 0 := by omega
  have hr1 : s.refcount - 1 ≠ 0 := by omega
  have e : tcpna_fd_cleared fd s = some
      { s with
        log := s.log ++ [AccEv.close fd] ++
          (match s.shutdown_done with
            | some cb => [AccEv.shutdown_done cb s.shutdown_data]
            | none => [])
        nr_accept_close_waiting := 0
        in_shutdown := false
        refcount := s.refcount - 1 } := by
    cases hc : s.shutdown_done <;>
      simp [tcpna_fd_cleared, hf, h1, hc, tcpna_deref_and_unlock, hr0, hr1]
  exact ⟨_, e, rfl, hf, rfl, rfl⟩

theorem tcpna_cycle (E : Errno) (s : tcpna_data) (fds cl : List Int) (cb : Option Nat)
    (data : Nat)
    (hf : s.freed = false) (hsetup : s.setup = false) (hshut : s.in_shutdown = false)
    (href : 1 ≤ s.refcount) (hrc : s.refcount + 1 < 4294967296)
    (hn : 1 ≤ fds.length) (hn2 : fds.length < 4294967296) (hcl : cl.length = fds.length) :
    ∃ s1 s2 s3,
      tcpna_startup E (Except.ok fds) s = some (0, s1) ∧
      tcpna_shutdown E cb data s1 = some (0, s2) ∧
      tcpna_fd_cleared_all cl s2 = some s3 ∧
      s1.refcount = s.refcount + 1 ∧ s2.refcount = s.refcount + 1 ∧
      s3.refcount = s.refcount ∧ s3.freed = false ∧ s3.in_shutdown = false ∧
      s3.setup = false := by
  obtain ⟨s1, h1, s1f, s1s, _, _, s1a, s1n, s1r', _⟩ :=
    tcpna_startup_ok E fds s 0 hf hsetup hshut
  have s1r : s1.refcount = s.refcount + 1 := by rw [s1r']; omega
  obtain ⟨s2, h2, s2f, s2s, _, s2i, s2c, s2w', s2r', _⟩ :=
    tcpna_shutdown_ok E cb data s1 fds 0 s1f s1s s1a s1n
  have s2w : s2.nr_accept_close_waiting = fds.length := by rw [s2w', s1n]
  have s2r : s2.refcount = s.refcount + 1 := by rw [s2r', s1r]
  obtain ⟨sj, ej, b1, b2, b3, b4, _, b5, _, b6, _⟩ :=
    tcpna_fd_cleared_all_pending 0 (cl.take (fds.length - 1)) s2 s2f
      (by rw [List.length_take, s2w]; omega) (by rw [s2w]; exact hn2)
  have hlen : (cl.take (fds.length - 1)).length = fds.length - 1 := by
    rw [List.length_take]; omega
  obtain ⟨x, hx⟩ : ∃ x, cl.drop (fds.length - 1) = [x] := by
    have hl : (cl.drop (fds.length - 1)).length = 1 := by rw [List.length_drop]; omega
    match hd : cl.drop (fds.length - 1), hl with
    | [x], _ => exact ⟨x, rfl⟩
  have hfin := tcpna_fd_cleared_final x sj b2 (by rw [b1, hlen, s2w]; omega)
    (by rw [b6, s2r]; omega)
  obtain ⟨s3, e3, c1, c2, c3, c4⟩ := hfin
  refine ⟨s1, s2, s3, h1, h2, ?_, s1r, s2r, ?_, c2, c1, ?_⟩
  · have hsplit : cl = cl.take (fds.length - 1) ++ cl.drop (fds.length - 1) :=
      (List.take_append_drop _ _).symm
    rw [hsplit, tcpna_fd_cleared_all_append, ej, hx]
    simp only [Option.some_bind, tcpna_fd_cleared_all, e3]
  · rw [c4, b6, s2r]; omega
  · rw [c3, b4, s2s]

/-! ## Claims on the accepter's reference count and its busy states -/

/-- C11 (counterexample): a `tcp_gensio_accepter_alloc` whose `alloc_lock`
fails has taken its reference, goes to `out_nomem` and invokes
`tcpna_finish_free` with the refcount at 1, not at the moment it reaches 0. -/
theorem C11_failed_alloc_counterexample :
    (tcp_gensio_accepter_alloc_run Errno.linux true true true false true).1 = 12 ∧
    (tcp_gensio_accepter_alloc_run Errno.linux true true true false true).2.map
      (fun s => (s.free_calls, s.refcount)) = some (1, 1) := by
  decide

/-- C11 (amended): for a live accepter with at least one listening descriptor,
after `tcpna_startup`, `tcpna_shutdown` and all of its `tcpna_fd_cleared`
callbacks the refcount equals its value before the startup; over every
sequence of operations on an accepter that `tcp_gensio_accepter_alloc`
returned, `tcpna_finish_free` is invoked at most once and, once invoked, the
refcount is 0; and each operation that invokes it takes the refcount from 1
to 0. -/
theorem C11_refcount_balance (E : Errno) :
    (∀ (s : tcpna_data) (fds cl : List Int) (cb : Option Nat) (data : Nat),
      s.freed = false → s.setup = false → s.in_shutdown = false → 1 ≤ s.refcount →
      s.refcount + 1 < 4294967296 → 1 ≤ fds.length → fds.length < 4294967296 →
      cl.length = fds.length →
      ∃ s1 s2 s3, tcpna_startup E (Except.ok fds) s = some (0, s1) ∧
        tcpna_shutdown E cb data s1 = some (0, s2) ∧
        tcpna_fd_cleared_all cl s2 = some s3 ∧ s3.refcount = s.refcount) ∧
    (∀ (ops : List AccOp) (s : tcpna_data),
      tcpna_run E ops tcp_gensio_accepter_alloc = some s →
      s.free_calls ≤ 1 ∧ (s.free_calls = 1 → s.refcount = 0 ∧ s.freed = true) ∧
      (s.freed = true → s.free_calls = 1)) ∧
    (∀ (op : AccOp) (s s1 : tcpna_data), s.freed = false → op.apply E s = some s1 →
      s1.free_calls = s.free_calls ∨
      (s1.free_calls = s.free_calls + 1 ∧ s.refcount = 1 ∧ s1.refcount = 0)) := by
  refine ⟨?_, ?_, ?_⟩
  · intro s fds cl cb data hf hs hi hr hrc hn hn2 hcl
    obtain ⟨s1, s2, s3, h1, h2, h3, _, _, h4, _⟩ :=
      tcpna_cycle E s fds cl cb data hf hs hi hr hrc hn hn2 hcl
    exact ⟨s1, s2, s3, h1, h2, h3, h4⟩
  · intro ops s h
    rcases tcpna_run_free_calls E ops tcp_gensio_accepter_alloc s (Or.inl ⟨rfl, rfl⟩) h
      with h1 | h1
    · refine ⟨by rw [h1.2]; omega, ?_, ?_⟩
      · intro h2; rw [h1.2] at h2; omega
      · intro h2; rw [h1.1] at h2; cases h2
    · exact ⟨by rw [h1.2.1], fun _ => ⟨h1.2.2, h1.1⟩, fun _ => h1.2.1⟩
  · intro op s s1 hf h
    rcases tcpna_step E op s s1 hf h with h1 | h1
    · exact Or.inl h1.2
    · exact Or.inr h1.2

/-- Witness of C11: a fresh accepter with two descriptors comes back to one
reference, and `tcpna_free` on a fresh accepter invokes `tcpna_finish_free`
once, with the refcount at 0. -/
theorem C11_refcount_balance_witness :
    (∃ s1 s2 s3, tcpna_startup Errno.linux (Except.ok [5, 6]) tcp_gensio_accepter_alloc
          = some (0, s1) ∧
        tcpna_shutdown Errno.linux (some 1) 0 s1 = some (0, s2) ∧
        tcpna_fd_cleared_all [6, 5] s2 = some s3 ∧ s3.refcount = 1) ∧
    (tcpna_finish_free { tcp_gensio_accepter_alloc with refcount := 0 }).free_calls ≤ 1 :=
  ⟨(C11_refcount_balance Errno.linux).1 tcp_gensio_accepter_alloc [5, 6] [6, 5] (some 1) 0
      rfl rfl rfl (by decide) (by decide) (by decide) (by decide) rfl,
   ((C11_refcount_balance Errno.linux).2.1 [AccOp.free]
      (tcpna_finish_free { tcp_gensio_accepter_alloc with refcount := 0 }) rfl).1⟩

/-- C12: on a live accepter, when opening the sockets does not itself fail
with `EBUSY`: `tcpna_startup` returns `EBUSY` exactly when the accepter is set
up or in shutdown, and returns 0 otherwise when the sockets open;
`tcpna_shutdown` returns `EBUSY` exactly when the accepter is not set up; and
whenever either returns `EBUSY` the flags, the refcount and the stored
shutdown callback are unchanged. -/
theorem C12_busy_states (E : Errno) (s : tcpna_data) (opened : Except Int (List Int))
    (cb : Option Nat) (data : Nat)
    (hE : E.WF) (hf : s.freed = false) (ho : opened ≠ Except.error E.EBUSY) :
    ((tcpna_startup E opened s).map Prod.fst = some E.EBUSY ↔
      (s.setup = true ∨ s.in_shutdown = true)) ∧
    (s.setup = false → s.in_shutdown = false →
      ∀ fds, (tcpna_startup E (Except.ok fds) s).map Prod.fst = some 0) ∧
    ((tcpna_shutdown E cb data s).map Prod.fst = some E.EBUSY ↔ s.setup = false) ∧
    (∀ s1, tcpna_startup E opened s = some (E.EBUSY, s1) →
      s1.setup = s.setup ∧ s1.enabled = s.enabled ∧ s1.in_shutdown = s.in_shutdown ∧
      s1.refcount = s.refcount ∧ s1.shutdown_done = s.shutdown_done) ∧
    (∀ s1, tcpna_shutdown E cb data s = some (E.EBUSY, s1) →
      s1.setup = s.setup ∧ s1.enabled = s.enabled ∧ s1.in_shutdown = s.in_shutdown ∧
      s1.refcount = s.refcount ∧ s1.shutdown_done = s.shutdown_done) := by
  have hb : E.EBUSY ≠ 0 := by
    have := hE.2.2.1
    omega
  have hstart : ∀ fds, s.setup = false → s.in_shutdown = false →
      (tcpna_startup E (Except.ok fds) s).map Prod.fst = some 0 := by
    intro fds h1 h2
    obtain ⟨s1, e, _⟩ := tcpna_startup_ok E fds s 0 hf h1 h2
    rw [e]; rfl
  refine ⟨?_, fun h1 h2 fds => hstart fds h1 h2, ?_, ?_, ?_⟩
  · constructor
    · intro h
      by_contra hc
      have h1 : s.setup = false := by
        cases hs : s.setup with
        | false => rfl
        | true => exact absurd (Or.inl hs) hc
      have h2 : s.in_shutdown = false := by
        cases hs : s.in_shutdown with
        | false => rfl
        | true => exact absurd (Or.inr hs) hc
      cases opened with
      | error e =>
        simp [tcpna_startup, hf, h1, h2] at h
        exact ho (by rw [h])
      | ok fds =>
        rw [hstart fds h1 h2] at h
        simp at h
        exact hb h.symm
    · intro h
      have : s.in_shutdown = true ∨ s.setup = true := h.symm
      simp [tcpna_startup, hf, this]
  · constructor
    · intro h
      cases hs : s.setup with
      | false => rfl
      | true =>
        simp only [tcpna_shutdown, hf, hs, Bool.false_eq_true, if_false, if_true] at h
        cases hl : tcpna_shutdown_locked s cb data with
        | none => simp [hl] at h
        | some s1 => simp [hl] at h; exact absurd h.symm hb
    · intro h
      simp [tcpna_shutdown, hf, h]
  · intro s1 h
    by_cases hc : s.in_shutdown = true ∨ s.setup = true
    · simp [tcpna_startup, hf, hc] at h
      subst h
      exact ⟨rfl, rfl, rfl, rfl, rfl⟩
    · cases opened with
      | error e =>
        simp [tcpna_startup, hf, hc] at h
        exact absurd (by rw [h.1]) ho
      | ok fds =>
        have h1 : s.setup = false := by
          cases hs : s.setup with
          | false => rfl
          | true => exact absurd (Or.inr hs) hc
        have h2 : s.in_shutdown = false := by
          cases hs : s.in_shutdown with
          | false => rfl
          | true => exact absurd (Or.inl hs) hc
        have := hstart fds h1 h2
        rw [h] at this
        simp at this
        exact absurd this hb
  · intro s1 h
    cases hs : s.setup with
    | false =>
      simp [tcpna_shutdown, hf, hs] at h
      subst h
      exact ⟨hs, rfl, rfl, rfl, rfl⟩
    | true =>
      simp only [tcpna_shutdown, hf, hs, Bool.false_eq_true, if_false, if_true] at h
      cases hl : tcpna_shutdown_locked s cb data with
      | none => simp [hl] at h
      | some s2 => simp [hl] at h; exact absurd h.1.symm hb

/-- Witness of C12: a fresh accepter refuses `tcpna_shutdown` with `EBUSY` and
accepts `tcpna_startup`. -/
theorem C12_busy_states_witness :
    (tcpna_shutdown Errno.linux (some 1) 0 tcp_gensio_accepter_alloc).map Prod.fst = some 16 ∧
    (tcpna_startup Errno.linux (Except.ok [5]) tcp_gensio_accepter_alloc).map Prod.fst
      = some 0 :=
  have h := C12_busy_states Errno.linux tcp_gensio_accepter_alloc (Except.ok [5]) (some 1) 0
    (by decide) rfl (by intro h; cases h)
  ⟨h.2.2.1.2 rfl, h.2.1 rfl rfl [5]⟩


/-! ## Claim on the sockets of `tcp_try_open` -/

/-- C20 (code bug): for the list with 127.0.0.1:22000 (family 2) followed by
`[::1]:22000` (family 10), when the first `connect` is refused the only socket
is the one created with family 2; it is not closed, and the second candidate
is connected on it. -/
theorem C20_socket_is_reused_across_families :
    (tcp_gensio_alloc Errno.linux [loopbackAddr, loopback6Addr] true true).toOption.bind
      (fun tdata => (tcp_sub_open Errno.linux tdata (-1) refusedNet).map
        (fun r => (r.1, r.2.2.1, r.2.2.2.log)))
      = some (0, 3, [NetEv.socket 3 2, NetEv.connect 3 loopbackAddr.ai_addr,
                     NetEv.connect 3 loopback6Addr.ai_addr]) ∧
    loopback6Addr.ai_family ≠ 2 := by
  decide


/-! ## Claim on the window size frame -/

/-- C17: for every window size that `TIOCGWINSZ` reports, `send_winch` hands
exactly one frame to `ioinfo_sendoob`; it has 11 bytes: `w`, the two bytes of
the 16-bit value 8, then the two bytes each of rows, columns, x pixels and
y pixels, in that order. -/
theorem C17_winch_frame (enc : Nat → UInt8 × UInt8) (win : winsize) (w : Winch)
    (hb : w.winch_buf.length = 11) :
    (send_winch enc (some win) w).sent = w.sent ++
      [[119, (enc 8).1, (enc 8).2, (enc win.ws_row).1, (enc win.ws_row).2,
        (enc win.ws_col).1, (enc win.ws_col).2, (enc win.ws_xpixel).1, (enc win.ws_xpixel).2,
        (enc win.ws_ypixel).1, (enc win.ws_ypixel).2]] ∧
    (send_winch enc (some win) w).len = 11 := by
  obtain ⟨buf, len, sg, pg, sent⟩ := w
  simp only at hb
  match buf, hb with
  | [a0, a1, a2, a3, a4, a5, a6, a7, a8, a9, a10], _ =>
    simp [send_winch, u16_to_buf]

/-- Witness of C17: an 80 by 24 terminal of 640 by 480 pixels, big-endian. -/
theorem C17_winch_frame_witness :
    (send_winch u16_be (some (winsize.mk 24 80 640 480)) Winch.init).sent
      = [[119, 0, 8, 0, 24, 0, 80, 2, 128, 1, 224]] :=
  (C17_winch_frame u16_be (winsize.mk 24 80 640 480) Winch.init rfl).1


/-! ## Claim on the session service -/

theorem Block.store_mid (pre old post data : List Char) (o : Bool)
    (h : old.length = data.length) :
    (Block.mk (pre ++ old ++ post) o).store pre.length data
      = Block.mk (pre ++ data ++ post) o := by
  unfold Block.store
  have h1 : pre.length + data.length ≤ (pre ++ old ++ post).length := by
    simp only [List.length_append]; omega
  simp only [if_pos h1]
  congr 1
  have e1 : (pre ++ old ++ post).take pre.length = pre := by
    rw [List.append_assoc, List.take_left]
  have e2 : (pre ++ old ++ post).drop (pre.length + data.length) = post := by
    rw [← h, ← List.length_append, List.drop_left]
  rw [e1, e2]

theorem Block.store_over (pre old data : List Char) (o : Bool)
    (h : data.length ≤ old.length) :
    (Block.mk (pre ++ old) o).store pre.length data
      = Block.mk (pre ++ data ++ old.drop data.length) o := by
  have e : pre ++ old = pre ++ old.take data.length ++ old.drop data.length := by
    rw [List.append_assoc, List.take_append_drop]
  rw [e]
  exact Block.store_mid pre _ _ data o (by simp; omega)

theorem nul_joined_length (args : List CStr) :
    (nul_joined args).length = nul_joined_len args := by
  induction args with
  | nil => rfl
  | cons a rest ih =>
    simp only [nul_joined, nul_joined_len, List.flatMap_cons, List.length_append,
      List.map_cons, List.sum_cons] at ih ⊢
    rw [ih]; simp

theorem main_service_len0 (args : List CStr) (acc : Nat)
    (h : acc + nul_joined_len args < 4294967296) :
    args.foldl (fun l a => (l + (a.length + 1)) % 4294967296) acc
      = acc + nul_joined_len args := by
  induction args generalizing acc with
  | nil => simp [nul_joined_len]
  | cons a rest ih =>
    simp only [nul_joined_len, List.map_cons, List.sum_cons] at h
    simp only [List.foldl_cons]
    rw [Nat.mod_eq_of_lt (by omega), ih _ (by simp only [nul_joined_len]; omega)]
    simp only [nul_joined_len, List.map_cons, List.sum_cons]
    omega

theorem main_service_args_written (args : List CStr) (pre old : List Char)
    (hk : nul_joined_len args ≤ old.length)
    (hl : pre.length + nul_joined_len args < 4294967296) :
    main_service_args args (Block.mk (pre ++ old) false, pre.length)
      = (Block.mk (pre ++ nul_joined args ++ old.drop (nul_joined_len args)) false,
         pre.length + nul_joined_len args) := by
  induction args generalizing pre old with
  | nil => simp [main_service_args, nul_joined, nul_joined_len]
  | cons a rest ih =>
    have hn : nul_joined_len (a :: rest) = a.length + 1 + nul_joined_len rest := by
      simp [nul_joined_len]
    have hj : nul_joined (a :: rest) = a ++ ['\x00'] ++ nul_joined rest := by
      simp [nul_joined]
    rw [hn] at hk hl
    rw [hn, hj]
    generalize nul_joined_len rest = n at hk hl ih
    have hk1 : (a ++ ['\x00']).length ≤ old.length := by
      simp only [List.length_append, List.length_singleton]; omega
    simp only [main_service_args]
    rw [Block.store_over pre old _ false hk1]
    rw [Nat.mod_eq_of_lt (by omega : pre.length + a.length < 4294967296)]
    rw [Nat.mod_eq_of_lt (by omega : pre.length + a.length + 1 < 4294967296)]
    have e1 : pre ++ (a ++ ['\x00']) ++ old.drop (a ++ ['\x00']).length
        = (pre ++ a) ++ ['\x00'] ++ old.drop (a.length + 1) := by
      simp
    have e2 : pre.length + a.length = (pre ++ a).length := by
      simp only [List.length_append]
    rw [e1, e2, Block.store_mid (pre ++ a) _ _ ['\x00'] false rfl]
    have e3 : (pre ++ a).length + 1 = (pre ++ a ++ ['\x00']).length := by
      simp only [List.length_append, List.length_singleton]
    rw [e3, ih (pre ++ a ++ ['\x00']) (old.drop (a.length + 1))
      (by simp only [List.length_drop]; omega)
      (by simp only [List.length_append, List.length_singleton]; omega)]
    simp only [List.drop_drop, List.length_append, List.length_singleton, List.append_assoc,
      Prod.mk.injEq, Block.mk.injEq, and_true]
    refine ⟨?_, ?_⟩ <;> first | trivial | omega

theorem main_service_program (junk : Char) (args : List CStr) (termvar : Option CStr)
    (ha : args ≠ []) (h : nul_joined_len args + 9 < 4294967296) :
    main_service junk true args termvar
      = some (Block.mk ("program:".toList ++ nul_joined args ++ ['\x00']) false,
              8 + nul_joined_len args + 1) := by
  have hp : "program:".toList.length = 8 := rfl
  have e0 : (malloc junk (nul_joined_len args + 9)).store 0 ("program:".toList ++ ['\x00'])
      = Block.mk ("program:".toList ++ ('\x00' :: List.replicate (nul_joined_len args) junk))
          false := by
    have := Block.store_over [] (List.replicate (nul_joined_len args + 9) junk)
      ("program:".toList ++ ['\x00']) false (by simp [hp])
    simp only [List.length_nil, List.nil_append] at this
    rw [malloc, this]
    simp [hp]
  have hw := main_service_args_written args "program:".toList
    ('\x00' :: List.replicate (nul_joined_len args) junk)
    (by simp) (by rw [hp]; omega)
  rw [hp] at hw
  unfold main_service
  rw [if_pos ha]
  simp only [main_service_len0 args 0 (by omega), Nat.zero_add,
    Nat.mod_eq_of_lt h, Bool.not_true, Bool.false_eq_true, if_false, e0, hw]
  have hlen : 8 + nul_joined_len args
      = ("program:".toList ++ nul_joined args).length := by
    rw [List.length_append, hp, nul_joined_length]
  rw [Nat.mod_eq_of_lt (by omega : 8 + nul_joined_len args + 1 < 4294967296)]
  rw [hlen, Block.store_over _ _ ['\x00'] false (by simp)]
  simp

/-- C19 (counterexample): for the single program argument `ls` the service is
`program:ls` followed by two NUL bytes and `service_len` is 12, not the 11
bytes of `program:ls` followed by one NUL; with `TERM=vt` the login service is
`login:TERM=vt` followed by two NUL bytes. -/
theorem C19_extra_nul_counterexample :
    (main_service '?' true ["ls".toList] none).map (fun r => (r.1.bytes.take r.2, r.2))
      = some ("program:ls".toList ++ ['\x00', '\x00'], 12) ∧
    ("program:".toList ++ nul_joined ["ls".toList]).length = 11 ∧
    (main_service '?' true [] (some "vt".toList)).map (fun r => (r.1.bytes.take r.2, r.2))
      = some ("login:TERM=vt".toList ++ ['\x00', '\x00'], 15) := by
  decide

/-- C19 (amended): for every non-empty list of program arguments the service
is `program:` followed by `a1 NUL ... an NUL` and one more NUL, and
`service_len` is the length of that byte string, which is also the allocated
size; with no program and `TERM` set it is `login:TERM=<term>` followed by two
NUL bytes, with `TERM` unset it is `login:` followed by one NUL; in every
case no store goes past the allocated block (the sizes being below 2^32). -/
theorem C19_service_bytes (junk : Char) (args : List CStr) (termvar : Option CStr)
    (hargs : nul_joined_len args + 9 < 4294967296)
    (hterm : ∀ t, termvar = some t → t.length + 13 < 4294967296) :
    ∃ service service_len,
      main_service junk true args termvar = some (service, service_len) ∧
      service.overrun = false ∧
      service_len = service.bytes.length ∧
      service.bytes.take service_len =
        (if args ≠ [] then "program:".toList ++ nul_joined args ++ ['\x00']
         else match termvar with
           | some t => "login:TERM=".toList ++ t ++ ['\x00', '\x00']
           | none => "login:".toList ++ ['\x00']) ∧
      (args ≠ [] → service_len = 8 + nul_joined_len args + 1) := by
  by_cases ha : args ≠ []
  · refine ⟨_, _, main_service_program junk args termvar ha hargs, rfl, ?_, ?_, fun _ => rfl⟩
    · simp only [List.length_append, nul_joined_length, List.length_singleton]
      rfl
    · rw [if_pos ha, List.take_of_length_le]
      simp only [List.length_append, nul_joined_length, List.length_singleton]
      exact Nat.le_of_eq rfl
  · have ha1 : args = [] := by simpa using ha
    subst ha1
    cases termvar with
    | none =>
      refine ⟨_, _, rfl, ?_, ?_, ?_, fun h => absurd rfl h⟩
      · simp [malloc, Block.store]
      · simp [malloc, Block.store]
      · simp [malloc, Block.store]
    | some t =>
      have ht := hterm t rfl
      have hp : "login:TERM=".toList.length = 11 := rfl
      have e0 : (malloc junk (6 + 5 + t.length + 2)).store 0
            ("login:TERM=".toList ++ t ++ ['\x00'])
          = Block.mk ("login:TERM=".toList ++ t ++ ['\x00'] ++ [junk]) false := by
        have := Block.store_over [] (List.replicate (6 + 5 + t.length + 2) junk)
          ("login:TERM=".toList ++ t ++ ['\x00']) false (by simp [hp]; omega)
        simp only [List.length_nil, List.nil_append] at this
        rw [malloc, this]
        have : 6 + 5 + t.length + 2 - ("login:TERM=".toList ++ t ++ ['\x00']).length = 1 := by
          simp [hp]; omega
        simp only [List.drop_replicate, this]
        rfl
      have e1 : (Block.mk ("login:TERM=".toList ++ t ++ ['\x00'] ++ [junk]) false).store
            (11 + t.length) ['\x00']
          = Block.mk ("login:TERM=".toList ++ t ++ ['\x00'] ++ [junk]) false := by
        have := Block.store_mid ("login:TERM=".toList ++ t) ['\x00'] [junk] ['\x00'] false rfl
        rw [List.length_append, hp] at this
        simpa using this
      have e2 : (Block.mk ("login:TERM=".toList ++ t ++ ['\x00'] ++ [junk]) false).store
            (11 + t.length + 1) ['\x00']
          = Block.mk ("login:TERM=".toList ++ t ++ ['\x00'] ++ ['\x00']) false := by
        have := Block.store_mid ("login:TERM=".toList ++ t ++ ['\x00']) [junk] [] ['\x00']
          false rfl
        rw [List.length_append, List.length_append, hp] at this
        simpa using this
      have hm : main_service junk true [] (some t)
          = some (Block.mk ("login:TERM=".toList ++ t ++ ['\x00'] ++ ['\x00']) false,
                  11 + t.length + 2) := by
        simp only [main_service, ne_eq, not_true_eq_false, if_false, Bool.not_true,
          Bool.false_eq_true]
        rw [Nat.mod_eq_of_lt (by omega : 6 + 5 + t.length + 2 < 4294967296),
          Nat.mod_eq_of_lt (by omega : 11 + t.length + 1 < 4294967296),
          Nat.mod_eq_of_lt (by omega : 11 + t.length + 1 + 1 < 4294967296), e0, e1, e2]
      refine ⟨_, _, hm, rfl, ?_, ?_, fun h => absurd rfl h⟩
      · simp [hp]; omega
      · simp [hp]
        omega

/-- Witness of C19: the program `ls -l` with `TERM` unset. -/
theorem C19_service_bytes_witness :
    ∃ service service_len,
      main_service '?' true ["ls".toList, "-l".toList] none = some (service, service_len) ∧
      service.overrun = false ∧
      service_len = service.bytes.length ∧
      service.bytes.take service_len =
        (if ["ls".toList, "-l".toList] ≠ [] then
           "program:".toList ++ nul_joined ["ls".toList, "-l".toList] ++ ['\x00']
         else match (none : Option CStr) with
           | some t => "login:TERM=".toList ++ t ++ ['\x00', '\x00']
           | none => "login:".toList ++ ['\x00']) ∧
      (["ls".toList, "-l".toList] ≠ [] →
        service_len = 8 + nul_joined_len ["ls".toList, "-l".toList] + 1) :=
  C19_service_bytes '?' ["ls".toList, "-l".toList] none (by decide)
    (fun _ h => Option.noConfusion h)


/-! ## Claim on the client's credentials -/

theorem alloc_sprintf_ok (allocs : List SysRes) (h : ∀ e, SysRes.fail e ∉ allocs) :
    (alloc_sprintf allocs).1 = true ∧ ∀ e, SysRes.fail e ∉ (alloc_sprintf allocs).2 := by
  cases allocs with
  | nil => exact ⟨rfl, h⟩
  | cons r rest =>
    have hr : ∀ e, SysRes.fail e ∉ rest := fun e he => h e (List.mem_cons_of_mem _ he)
    cases r with
    | fail e => exact absurd (List.mem_cons_self _ _) (h e)
    | ok => exact ⟨rfl, hr⟩
    | short n => exact ⟨rfl, hr⟩

theorem lookup_certfiles_found_ok (g : CertFiles) (key : String) (allocs : List SysRes)
    (h : ∀ e, SysRes.fail e ∉ allocs) :
    (lookup_certfiles_found g key allocs).1 = true ∧
    (lookup_certfiles_found g key allocs).2.1 = { g with keyfile := some key } := by
  have h1 := (alloc_sprintf_ok allocs h).1
  unfold lookup_certfiles_found
  generalize alloc_sprintf allocs = r at h1
  obtain ⟨b, a⟩ := r
  simp only at h1
  subst h1
  exact ⟨rfl, rfl⟩

theorem lookup_certfiles_found_sound (g : CertFiles) (key : String) (allocs : List SysRes)
    (h : (lookup_certfiles_found g key allocs).1 = true) :
    (lookup_certfiles_found g key allocs).2.1 = { g with keyfile := some key } := by
  unfold lookup_certfiles_found at h ⊢
  generalize alloc_sprintf allocs = r at h
  obtain ⟨b, a⟩ := r
  cases b with
  | true => rfl
  | false => simp at h

theorem lookup_certfiles_default_sound (readable : String → Bool)
    (tlssh_dir hostname : String) (port : Int) (g : CertFiles) (allocs : List SysRes)
    (h : (lookup_certfiles_default readable tlssh_dir hostname port g allocs).1 = true) :
    (lookup_certfiles_default readable tlssh_dir hostname port g allocs).2.1
      = { g with
          certfile := some (credential_stem readable tlssh_dir hostname port ++ ".crt"),
          keyfile := some (credential_stem readable tlssh_dir hostname port ++ ".key") } := by
  unfold lookup_certfiles_default at h ⊢
  unfold credential_stem
  generalize alloc_sprintf allocs = r1 at h
  obtain ⟨b1, a1⟩ := r1
  cases b1 with
  | false => simp at h
  | true =>
    simp only at h ⊢
    by_cases c1 : readable
        (tlssh_dir ++ "/keycerts/" ++ hostname ++ "," ++ toString port ++ ".crt") = true
    · rw [if_pos c1] at h ⊢
      rw [if_pos c1, lookup_certfiles_found_sound _ _ _ h]
    · rw [if_neg c1] at h ⊢
      rw [if_neg c1]
      generalize alloc_sprintf a1 = r2 at h
      obtain ⟨b2, a2⟩ := r2
      cases b2 with
      | false => simp at h
      | true =>
        simp only at h ⊢
        by_cases c2 : readable (tlssh_dir ++ "/keycerts/" ++ hostname ++ ".crt") = true
        · rw [if_pos c2] at h ⊢
          rw [if_pos c2, lookup_certfiles_found_sound _ _ _ h]
        · rw [if_neg c2] at h ⊢
          rw [if_neg c2]
          generalize alloc_sprintf a2 = r3 at h
          obtain ⟨b3, a3⟩ := r3
          cases b3 with
          | false => simp at h
          | true =>
            simp only at h ⊢
            rw [lookup_certfiles_found_sound _ _ _ h]
            have e1 : tlssh_dir ++ "/default" ++ ".crt" = tlssh_dir ++ "/default.crt" := by
              rw [String.append_assoc]; rfl
            have e2 : tlssh_dir ++ "/default" ++ ".key" = tlssh_dir ++ "/default.key" := by
              rw [String.append_assoc]; rfl
            rw [e1, e2]

theorem lookup_certfiles_found_ok_rest (g : CertFiles) (key : String) (allocs : List SysRes)
    (h : ∀ e, SysRes.fail e ∉ allocs) :
    ∀ e, SysRes.fail e ∉ (lookup_certfiles_found g key allocs).2.2 := by
  have h1 := alloc_sprintf_ok allocs h
  unfold lookup_certfiles_found
  generalize alloc_sprintf allocs = r at h1
  obtain ⟨b, a⟩ := r
  obtain ⟨hb, ha⟩ := h1
  simp only at hb ha
  subst hb
  exact ha

theorem lookup_certfiles_default_ok (readable : String → Bool)
    (tlssh_dir hostname : String) (port : Int) (g : CertFiles) (allocs : List SysRes)
    (h : ∀ e, SysRes.fail e ∉ allocs) :
    (lookup_certfiles_default readable tlssh_dir hostname port g allocs).1 = true ∧
    ∀ e, SysRes.fail e ∉
      (lookup_certfiles_default readable tlssh_dir hostname port g allocs).2.2 := by
  have h1 := alloc_sprintf_ok allocs h
  unfold lookup_certfiles_default
  generalize alloc_sprintf allocs = r1 at h1
  obtain ⟨b1, a1⟩ := r1
  obtain ⟨hb1, ha1⟩ := h1
  simp only at hb1 ha1
  subst hb1
  simp only
  split
  · exact ⟨(lookup_certfiles_found_ok _ _ _ ha1).1, lookup_certfiles_found_ok_rest _ _ _ ha1⟩
  · have h2 := alloc_sprintf_ok a1 ha1
    generalize alloc_sprintf a1 = r2 at h2
    obtain ⟨b2, a2⟩ := r2
    obtain ⟨hb2, ha2⟩ := h2
    simp only at hb2 ha2
    subst hb2
    simp only
    split
    · exact ⟨(lookup_certfiles_found_ok _ _ _ ha2).1, lookup_certfiles_found_ok_rest _ _ _ ha2⟩
    · have h3 := alloc_sprintf_ok a2 ha2
      generalize alloc_sprintf a2 = r3 at h3
      obtain ⟨b3, a3⟩ := r3
      obtain ⟨hb3, ha3⟩ := h3
      simp only at hb3 ha3
      subst hb3
      exact ⟨(lookup_certfiles_found_ok _ _ _ ha3).1, lookup_certfiles_found_ok_rest _ _ _ ha3⟩

theorem lookup_certfiles_CAdir_sound (tlssh_dir : String) (g g1 : CertFiles)
    (allocs a1 : List SysRes) (h : lookup_certfiles_CAdir tlssh_dir g allocs = some (g1, a1)) :
    g1.certfile = g.certfile ∧ ((∀ e, SysRes.fail e ∉ allocs) → ∀ e, SysRes.fail e ∉ a1) := by
  unfold lookup_certfiles_CAdir at h
  cases hc : g.CAdir with
  | some d =>
    rw [hc] at h
    simp only [Option.some.injEq, Prod.mk.injEq] at h
    obtain ⟨h1, h2⟩ := h
    subst h1 h2
    exact ⟨rfl, fun x => x⟩
  | none =>
    rw [hc] at h
    have h0 := alloc_sprintf_ok allocs
    generalize alloc_sprintf allocs = r at h h0
    obtain ⟨b, a⟩ := r
    cases b with
    | false => simp at h
    | true =>
      simp only [Option.some.injEq, Prod.mk.injEq] at h
      obtain ⟨h1, h2⟩ := h
      subst h1 h2
      exact ⟨rfl, fun x => (h0 x).2⟩

theorem lookup_certfiles_CAdir_ok (tlssh_dir : String) (g : CertFiles)
    (allocs : List SysRes) (h : ∀ e, SysRes.fail e ∉ allocs) :
    ∃ g1 a1, lookup_certfiles_CAdir tlssh_dir g allocs = some (g1, a1) := by
  unfold lookup_certfiles_CAdir
  cases hc : g.CAdir with
  | some d => exact ⟨_, _, rfl⟩
  | none =>
    have h0 := (alloc_sprintf_ok allocs h).1
    generalize alloc_sprintf allocs = r at h0
    obtain ⟨b, a⟩ := r
    simp only at h0
    subst h0
    exact ⟨_, _, rfl⟩

theorem lookup_certfiles_args_zero (E : GE) (hE : E.NOMEM ≠ 0) (g : CertFiles)
    (allocs : List SysRes) (h : (lookup_certfiles_args E g allocs).1 = 0) :
    (lookup_certfiles_args E g allocs).2
      = ⟨some ("CA=" ++ g.CAdir.getD "" ++ "/"), some (",cert=" ++ g.certfile.getD ""),
         some (",key=" ++ g.keyfile.getD "")⟩ := by
  unfold lookup_certfiles_args at h ⊢
  generalize alloc_sprintf allocs = r1 at h
  obtain ⟨b1, a1⟩ := r1
  cases b1 with
  | false => exact absurd h hE
  | true =>
    simp only at h ⊢
    generalize alloc_sprintf a1 = r2 at h
    obtain ⟨b2, a2⟩ := r2
    cases b2 with
    | false => exact absurd h hE
    | true =>
      simp only at h ⊢
      generalize alloc_sprintf a2 = r3 at h
      obtain ⟨b3, a3⟩ := r3
      cases b3 with
      | false => exact absurd h hE
      | true => rfl

theorem lookup_certfiles_args_ok (E : GE) (g : CertFiles) (allocs : List SysRes)
    (h : ∀ e, SysRes.fail e ∉ allocs) : (lookup_certfiles_args E g allocs).1 = 0 := by
  have h1 := alloc_sprintf_ok allocs h
  unfold lookup_certfiles_args
  generalize alloc_sprintf allocs = r1 at h1
  obtain ⟨b1, a1⟩ := r1
  obtain ⟨hb1, ha1⟩ := h1
  simp only at hb1 ha1
  subst hb1
  have h2 := alloc_sprintf_ok a1 ha1
  simp only
  generalize alloc_sprintf a1 = r2 at h2
  obtain ⟨b2, a2⟩ := r2
  obtain ⟨hb2, ha2⟩ := h2
  simp only at hb2 ha2
  subst hb2
  have h3 := alloc_sprintf_ok a2 ha2
  simp only
  generalize alloc_sprintf a2 = r3 at h3
  obtain ⟨b3, a3⟩ := r3
  obtain ⟨hb3, ha3⟩ := h3
  simp only at hb3
  subst hb3
  rfl

theorem lookup_certfiles_checks_globals (E : GE)
    (checkout_file : Option String → Bool → Bool → Int) (g : CertFiles)
    (allocs : List SysRes) :
    (lookup_certfiles_checks E checkout_file g allocs).2.1 = g := by
  unfold lookup_certfiles_checks
  split
  · rfl
  · split
    · rfl
    · split <;> rfl

theorem lookup_certfiles_checks_zero (E : GE) (hE : E.NOMEM ≠ 0)
    (checkout_file : Option String → Bool → Bool → Int) (g : CertFiles)
    (allocs : List SysRes) (h : (lookup_certfiles_checks E checkout_file g allocs).1 = 0) :
    (lookup_certfiles_checks E checkout_file g allocs).2.2
      = ⟨some ("CA=" ++ g.CAdir.getD "" ++ "/"), some (",cert=" ++ g.certfile.getD ""),
         some (",key=" ++ g.keyfile.getD "")⟩ := by
  unfold lookup_certfiles_checks at h ⊢
  by_cases c1 : checkout_file g.CAdir true false ≠ 0
  · rw [if_pos c1] at h; exact absurd h c1
  · rw [if_neg c1] at h ⊢
    by_cases c2 : checkout_file g.certfile false false ≠ 0
    · rw [if_pos c2] at h; exact absurd h c2
    · rw [if_neg c2] at h ⊢
      by_cases c3 : checkout_file g.keyfile false true ≠ 0
      · rw [if_pos c3] at h; exact absurd h c3
      · rw [if_neg c3] at h ⊢
        exact lookup_certfiles_args_zero E hE g allocs h

theorem lookup_certfiles_checks_ok (E : GE)
    (checkout_file : Option String → Bool → Bool → Int) (g : CertFiles)
    (allocs : List SysRes) (h : ∀ e, SysRes.fail e ∉ allocs)
    (hk : ∀ name isdir isprivate, checkout_file name isdir isprivate = 0) :
    (lookup_certfiles_checks E checkout_file g allocs).1 = 0 := by
  unfold lookup_certfiles_checks
  simp only [hk, ne_eq, not_true_eq_false, if_false]
  exact lookup_certfiles_args_ok E g allocs h

/-- C18: when no certificate file was given, a `lookup_certfiles` that
returns 0 has selected `<stem>.crt` with `<stem>.key` for the first stem, in
the order `keycerts/<host>,<port>`, `keycerts/<host>`, whose certificate is
readable, else `default`, and hands back `,cert=` and `,key=` of that pair;
when no allocation fails the globals name that pair, and `lookup_certfiles`
returns 0 if `checkout_file` accepts the files. -/
theorem C18_credential_order (E : GE) (readable : String → Bool)
    (checkout_file : Option String → Bool → Bool → Int) (tlssh_dir hostname : String)
    (port : Int) (g : CertFiles) (allocs : List SysRes)
    (hE : E.WF) (hc : g.certfile = none) :
    ∀ r, r = lookup_certfiles E readable checkout_file tlssh_dir hostname port g allocs →
      (r.1 = 0 →
        r.2.1.certfile = some (credential_stem readable tlssh_dir hostname port ++ ".crt") ∧
        r.2.1.keyfile = some (credential_stem readable tlssh_dir hostname port ++ ".key") ∧
        r.2.2.rcertfile
          = some (",cert=" ++ (credential_stem readable tlssh_dir hostname port ++ ".crt")) ∧
        r.2.2.rkeyfile
          = some (",key=" ++ (credential_stem readable tlssh_dir hostname port ++ ".key"))) ∧
      ((∀ e, SysRes.fail e ∉ allocs) →
        r.2.1.certfile = some (credential_stem readable tlssh_dir hostname port ++ ".crt") ∧
        r.2.1.keyfile = some (credential_stem readable tlssh_dir hostname port ++ ".key") ∧
        ((∀ name isdir isprivate, checkout_file name isdir isprivate = 0) → r.1 = 0)) := by
  intro r hr
  subst hr
  have hN : E.NOMEM ≠ 0 := hE.1
  unfold lookup_certfiles
  cases h1 : lookup_certfiles_CAdir tlssh_dir g allocs with
  | none =>
    refine ⟨fun h => absurd h hN, fun ha => ?_⟩
    obtain ⟨g1, a1, e⟩ := lookup_certfiles_CAdir_ok tlssh_dir g allocs ha
    rw [e] at h1
    exact Option.noConfusion h1
  | some p =>
    obtain ⟨g1, a1⟩ := p
    obtain ⟨hg1, hrest⟩ := lookup_certfiles_CAdir_sound tlssh_dir g g1 allocs a1 h1
    rw [hc] at hg1
    simp only [hg1]
    have hs := lookup_certfiles_default_sound readable tlssh_dir hostname port g1 a1
    have ho := lookup_certfiles_default_ok readable tlssh_dir hostname port g1 a1
    generalize lookup_certfiles_default readable tlssh_dir hostname port g1 a1 = d at hs ho
    obtain ⟨b, g2, a2⟩ := d
    cases b with
    | false =>
      refine ⟨fun h => absurd h hN, fun ha => ?_⟩
      have := (ho (hrest ha)).1
      simp at this
    | true =>
      have hg2 := hs rfl
      simp only at hg2 ho ⊢
      have hgl := lookup_certfiles_checks_globals E checkout_file g2 a2
      refine ⟨fun h => ?_, fun ha => ?_⟩
      · have hz := lookup_certfiles_checks_zero E hN checkout_file g2 a2 h
        rw [hgl, hz, hg2]
        exact ⟨rfl, rfl, rfl, rfl⟩
      · rw [hgl, hg2]
        exact ⟨rfl, rfl, fun hk =>
          lookup_certfiles_checks_ok E checkout_file _ a2 (ho (hrest ha)).2 hk⟩

/-- Witness of C18: only `keycerts/example.crt` is readable, so the pair of
the second stem is selected. -/
theorem C18_credential_order_witness :
    (lookup_certfiles GE.std hostCertOnly checkoutAccepts "/h" "example" 2222
        ⟨none, none, none⟩ []).2.1.certfile
      = some (credential_stem hostCertOnly "/h" "example" 2222 ++ ".crt") ∧
    (lookup_certfiles GE.std hostCertOnly checkoutAccepts "/h" "example" 2222
        ⟨none, none, none⟩ []).2.1.keyfile
      = some (credential_stem hostCertOnly "/h" "example" 2222 ++ ".key") ∧
    (lookup_certfiles GE.std hostCertOnly checkoutAccepts "/h" "example" 2222
        ⟨none, none, none⟩ []).1 = 0 ∧
    credential_stem hostCertOnly "/h" "example" 2222 = "/h/keycerts/example" :=
  have h := (C18_credential_order GE.std hostCertOnly checkoutAccepts "/h" "example" 2222
    ⟨none, none, none⟩ [] GE.std_WF rfl _ rfl).2 (fun _ he => nomatch he)
  ⟨h.1, h.2.1, h.2.2 (fun _ _ _ => rfl), by decide⟩


/-! ## Claims on the port forwarding requests -/

/-- C13 (code bug): for `2000:example.test:tcp,80` the connecter string that
`handle_port` builds is `tcp,example.test,tcp,80`, not `tcp,example.test,80`;
for `localhost:sctp,2000:example.test:80` the accepter string is
`sctp,localhost,sctp,2000`, not `sctp,localhost,2000`. -/
theorem C13_prefix_is_repeated :
    handle_port true false "2000:example.test:tcp,80".toList
      = PortResult.forward false "tcp,2000".toList "tcp,example.test,tcp,80".toList
          "2000:example.test:tcp,80".toList ∧
    handle_port true false "localhost:sctp,2000:example.test:80".toList
      = PortResult.forward false "sctp,localhost,sctp,2000".toList
          "tcp,example.test,80".toList "localhost:sctp,2000:example.test:80".toList := by
  decide

theorem digit_value_of_digit (c : Char) (h : is_digit c = true) :
    digit_value c = some (c.toNat - 48) ∧ c.toNat - 48 < 10 := by
  simp only [is_digit, decide_eq_true_eq] at h
  unfold digit_value
  rw [if_pos h]
  exact ⟨rfl, by omega⟩

theorem strtoul_digits_stop (c : Char) (cs : CStr) (acc k : Nat) (h : is_digit c = false) :
    strtoul_digits 10 (c :: cs) acc k = (acc, k) := by
  simp only [is_digit, decide_eq_false_iff_not] at h
  unfold strtoul_digits digit_value
  rw [if_neg h]
  split_ifs <;> simp only [] <;> first | rfl | (rw [if_neg (by omega)])

theorem strtoul_digits_ten (s : CStr) (acc k : Nat) :
    strtoul_digits 10 s acc k
      = ((s.takeWhile is_digit).foldl (fun a c => a * 10 + (c.toNat - 48)) acc,
         k + (s.takeWhile is_digit).length) := by
  induction s generalizing acc k with
  | nil => rfl
  | cons c cs ih =>
    cases hd : is_digit c with
    | false =>
      rw [strtoul_digits_stop c cs acc k hd, List.takeWhile_cons, hd]
      rfl
    | true =>
      obtain ⟨h1, h2⟩ := digit_value_of_digit c hd
      rw [List.takeWhile_cons, hd]
      simp only [strtoul_digits, h1, if_pos h2, ite_true, List.foldl_cons, List.length_cons]
      rw [ih]
      congr 1
      omega

theorem drop_length_takeWhile (f : Char → Bool) (l : List Char) :
    l.drop (l.takeWhile f).length = l.dropWhile f := by
  induction l with
  | nil => rfl
  | cons c cs ih =>
    cases hf : f c with
    | false => simp [List.takeWhile_cons, List.dropWhile_cons, hf]
    | true => simp [List.takeWhile_cons, List.dropWhile_cons, hf, ih]

theorem length_takeWhile_dropWhile (f : Char → Bool) (l : List Char) :
    (l.takeWhile f).length + (l.dropWhile f).length = l.length := by
  have := congrArg List.length (List.takeWhile_append_dropWhile f l)
  rw [List.length_append] at this
  exact this

theorem takeWhile_length_all (f : Char → Bool) (l : List Char) :
    ((l.takeWhile f).length < l.length ↔ l.all f = false) ∧
    (l.all f = true → l.takeWhile f = l) ∧ (l.takeWhile f).length ≤ l.length := by
  induction l with
  | nil => simp
  | cons c cs ih =>
    cases hf : f c with
    | false => simp [List.takeWhile_cons, hf]
    | true =>
      simp only [List.takeWhile_cons, hf, ite_true, List.length_cons, List.all_cons,
        Bool.true_and, Nat.add_lt_add_iff_right, Nat.add_le_add_iff_right]
      refine ⟨ih.1, fun h => ?_, ih.2.2⟩
      rw [ih.2.1 h]

theorem char_at_nul (p : CStr) (h : ∀ c ∈ p, c ≠ '\x00') (i : Nat) :
    char_at p i = '\x00' ↔ p.length ≤ i := by
  unfold char_at
  constructor
  · intro h1
    by_contra hlt
    have hlt1 : i < p.length := by omega
    rw [List.getD_eq_getElem _ _ hlt1] at h1
    exact h _ (List.getElem_mem hlt1) h1
  · intro h1
    rw [List.getD_eq_default _ _ h1]

theorem strtoul_ten (p s1 s2 ds : CStr) (h1 : s1 = p.dropWhile isspace)
    (h2 : s2 = if s1.head? = some '-' ∨ s1.head? = some '+' then s1.tail else s1)
    (h3 : ds = s2.takeWhile is_digit) :
    strtoul p 10 =
      if ds.length = 0 then (0, 0)
      else (if ULONG_MAX < decimal_value ds then ULONG_MAX
            else if s1.head? = some '-' then
              (ULONG_MAX + 1 - decimal_value ds) % (ULONG_MAX + 1)
            else decimal_value ds,
            p.length - s2.length + ds.length) := by
  have hl := length_takeWhile_dropWhile isspace p
  rw [← h1] at hl
  have hd : p.drop (p.takeWhile isspace).length = s1 := by
    rw [h1]; exact drop_length_takeWhile isspace p
  have hs2 : s1.drop (if s1.head? = some '-' ∨ s1.head? = some '+' then 1 else 0) = s2 ∧
      (p.takeWhile isspace).length
        + (if s1.head? = some '-' ∨ s1.head? = some '+' then 1 else 0)
        = p.length - s2.length := by
    by_cases hsg : s1.head? = some '-' ∨ s1.head? = some '+'
    · rw [if_pos hsg] at h2 ⊢
      cases s1 with
      | nil => simp at hsg
      | cons c cs =>
        subst h2
        simp only [List.drop_succ_cons, List.drop_zero, List.tail_cons, List.length_cons] at hl ⊢
        exact ⟨trivial, by omega⟩
    · rw [if_neg hsg] at h2 ⊢
      subst h2
      exact ⟨rfl, by omega⟩
  unfold strtoul
  simp only [hd, hs2.1]
  have hx : (((10 : Nat) = 0 ∨ (10 : Nat) = 16) ∧ has_hex_lead s2 = true) = False := by
    simp
  have hx1 : ((False ∨ (10 : Nat) = 16) ∧ has_hex_lead s2 = true) = False := by
    simp
  simp only [hx, hx1, decide_False, Bool.false_eq_true, if_false, List.drop_zero,
    strtoul_digits_ten, Nat.zero_add, ← h3, show (10 : Nat) ≠ 0 by decide, Nat.add_zero, hs2.2,
    decide_eq_true_eq]
  have hv : List.foldl (fun a c => a * 10 + (c.toNat - 48)) 0 ds = decimal_value ds := rfl
  rw [hv]
  split_ifs <;> rfl

theorem validate_port_number_eq (p : CStr) (h : ∀ c ∈ p, c ≠ '\x00') :
    validate_port_number p = port_text_ok p := by
  have hs := strtoul_ten p _ _ _ rfl rfl rfl
  have hl := length_takeWhile_dropWhile isspace p
  unfold validate_port_number port_text_ok
  simp only []
  generalize p.dropWhile isspace = s1 at hs hl ⊢
  have hl2 : (if s1.head? = some '-' ∨ s1.head? = some '+' then s1.tail else s1).length
      ≤ s1.length := by
    split_ifs
    · rw [List.length_tail]; omega
    · exact Nat.le_refl _
  generalize (if s1.head? = some '-' ∨ s1.head? = some '+' then s1.tail else s1) = s2
    at hs hl2 ⊢
  obtain ⟨ha1, ha2, ha3⟩ := takeWhile_length_all is_digit s2
  have hc0 := char_at_nul p h 0
  by_cases hk : (s2.takeWhile is_digit).length = 0
  · rw [if_pos hk] at hs
    have hl0 : (decide (char_at p 0 = '\x00') || decide (char_at p 0 ≠ '\x00')) = true := by
      by_cases c : char_at p 0 = '\x00' <;> simp [c]
    rw [hs]
    simp only [hl0, Bool.true_or, Bool.not_true]
    by_cases he : s2 = []
    · simp [he]
    · have : (s2.takeWhile is_digit).length < s2.length := by
        have := List.length_pos.mpr he
        omega
      rw [ha1.mp this]
      simp
  · rw [if_neg hk] at hs
    have hp0 : ¬ char_at p 0 = '\x00' := by
      rw [hc0]; omega
    have hne : s2 ≠ [] := by
      intro he
      rw [he] at hk
      exact hk rfl
    rw [hs]
    simp only [hp0, decide_False, Bool.false_or, hne, ne_eq, not_false_eq_true, decide_True,
      Bool.true_and]
    cases hall : s2.all is_digit with
    | false =>
      have hlt := ha1.mpr hall
      have : ¬ char_at p (p.length - s2.length + (s2.takeWhile is_digit).length) = '\x00' := by
        rw [char_at_nul p h]; omega
      simp [this]
    | true =>
      have heq := ha2 hall
      rw [heq]
      have : char_at p (p.length - s2.length + s2.length) = '\x00' := by
        rw [char_at_nul p h]; omega
      simp only [this, not_true_eq_false, decide_False, Bool.false_or, Bool.true_and]
      rw [Bool.eq_iff_iff]
      by_cases hneg : s1.head? = some '-'
      · simp only [hneg, if_true, Bool.not_eq_true', decide_eq_false_iff_not, decide_eq_true_eq,
          ULONG_MAX]
        split_ifs <;> omega
      · simp only [hneg, if_false, Bool.not_eq_true', decide_eq_false_iff_not,
          decide_eq_true_eq, ULONG_MAX]
        split_ifs <;> omega

theorem validate_port_strip_mem (port : CStr) (c : Char)
    (h : c ∈ (validate_port_strip port).1) : c ∈ port := by
  unfold validate_port_strip at h
  simp only [] at h
  split_ifs at h
  · exact List.mem_of_mem_drop (List.mem_of_mem_drop h)
  · exact List.mem_of_mem_drop h
  · exact List.mem_of_mem_drop h
  · exact h

theorem port_text_ok_digits (ds : CStr) (hne : ds ≠ []) (hd : ds.all is_digit = true)
    (hv : decimal_value ds ≤ 65535) : port_text_ok ds = true := by
  cases ds with
  | nil => exact absurd rfl hne
  | cons c cs =>
    have hc : is_digit c = true := by
      simp only [List.all_cons, Bool.and_eq_true] at hd
      exact hd.1
    simp only [is_digit, decide_eq_true_eq] at hc
    have hsp : isspace c = false := by
      cases hs : isspace c with
      | false => rfl
      | true =>
        simp only [isspace, Bool.or_eq_true, decide_eq_true_eq] at hs
        rcases hs with ((((h | h) | h) | h) | h) | h <;> subst h <;> revert hc <;> decide
    have hm : c ≠ '-' := by
      intro h; subst h; revert hc; decide
    have hp : c ≠ '+' := by
      intro h; subst h; revert hc; decide
    unfold port_text_ok
    simp only [List.dropWhile_cons, hsp, Bool.false_eq_true, if_false, List.head?_cons,
      Option.some.injEq, hm, hp, or_self, hd, ne_eq, not_false_eq_true, decide_True,
      Bool.true_and, hv, reduceCtorEq]

/-- C14 (counterexample): `validate_port` accepts `+80`, ` 80` with a
leading blank, `-0`, and the digits of 2^64 - 1 after a minus sign. -/
theorem C14_signed_and_blank_ports_accepted :
    validate_port none "+80".toList = some "tcp".toList ∧
    validate_port none " 80".toList = some "tcp".toList ∧
    validate_port (some "h".toList) "sctp,-0".toList = some "sctp".toList ∧
    validate_port none "-18446744073709551615".toList = some "tcp".toList := by
  decide

/-- C14 (amended): for a port text without NUL, `validate_port` returns true
exactly when the host is not the empty string and the text left after the
prefixes is optional white space, an optional sign and then a non-empty
string of decimal digits through to the end, with a value of at most 65535
(after a minus sign: 0, or within 65535 below 2^64); the type it stores is
the one of the prefix.  A non-empty string of decimal digits whose value is
at most 65535 is such a text. -/
theorem C14_validate_port_accepts (host : Option CStr) (port : CStr)
    (h : ∀ c ∈ port, c ≠ '\x00') :
    ((validate_port host port).isSome = true ↔
      host ≠ some [] ∧ port_text_ok (validate_port_strip port).1 = true) ∧
    (∀ type, validate_port host port = some type → type = (validate_port_strip port).2) ∧
    (∀ ds : CStr, ds ≠ [] → ds.all is_digit = true → decimal_value ds ≤ 65535 →
      port_text_ok ds = true) := by
  have he := validate_port_number_eq (validate_port_strip port).1
    (fun c hc => h c (validate_port_strip_mem port c hc))
  refine ⟨?_, ?_, port_text_ok_digits⟩
  · unfold validate_port
    rw [he]
    by_cases hh : host = some []
    · simp [hh]
    · cases hp : port_text_ok (validate_port_strip port).1 <;> simp [hh]
  · intro type ht
    unfold validate_port at ht
    split_ifs at ht
    simp only [Option.some.injEq] at ht
    exact ht.symm

/-- Witness of C14: the port text `tcp,8080` with no host. -/
theorem C14_validate_port_accepts_witness :
    ((validate_port none "tcp,8080".toList).isSome = true ↔
      (none : Option CStr) ≠ some [] ∧
        port_text_ok (validate_port_strip "tcp,8080".toList).1 = true) ∧
    (∀ type, validate_port none "tcp,8080".toList = some type →
      type = (validate_port_strip "tcp,8080".toList).2) ∧
    (∀ ds : CStr, ds ≠ [] → ds.all is_digit = true → decimal_value ds ≤ 65535 →
      port_text_ok ds = true) :=
  C14_validate_port_accepts none "tcp,8080".toList (by decide)


/-! ## Claims on the remote forwards -/

/-- C15 (counterexample): the frame of the first forward with accepter string
`tcp,2000` has 16 bytes; after `r` come the bytes 0 and 13 of the length, not
two blanks followed by a length. -/
theorem C15_blanks_are_overwritten :
    ((add_remote_port GE.std [] RemotePorts.init "tcp,2000".toList "tcp,localhost,80".toList
        "2000:localhost:80".toList).2.1.remote_ports.map (fun np => (np.oob_buf, np.oob_len)))
      = [([114, 0, 13, 48, 48, 48, 48, 116, 99, 112, 44, 50, 48, 48, 48, 0], 16)] := by
  decide

theorem snprintf_4_4d_length (v : Int) : (snprintf_4_4d v).length = 4 := by
  unfold snprintf_4_4d
  have e : (toString v.natAbs).toList.length = (toString v.natAbs).length := rfl
  rw [List.length_take, List.length_append, List.length_append, List.length_replicate, e]
  omega

theorem add_remote_port_cases (E : GE) (allocs : List SysRes) (st : RemotePorts)
    (accepter_str connecter_str id_str : CStr) :
    ((add_remote_port E allocs st accepter_str connecter_str id_str).1 = E.NOMEM ∧
      (add_remote_port E allocs st accepter_str connecter_str id_str).2.1.remote_ports
        = st.remote_ports ∧
      ((add_remote_port E allocs st accepter_str connecter_str id_str).2.1.curr_service
          = st.curr_service ∨
       (add_remote_port E allocs st accepter_str connecter_str id_str).2.1.curr_service
          = (st.curr_service + 1) % 4294967296)) ∨
    ((add_remote_port E allocs st accepter_str connecter_str id_str).1 = 0 ∧
      accepter_str.length + 8 ≤ 65535 ∧
      (add_remote_port E allocs st accepter_str connecter_str id_str).2.1
        = { curr_service := (st.curr_service + 1) % 4294967296,
            remote_ports :=
              ⟨snprintf_4_4d (toInt32 st.curr_service), connecter_str, id_str,
               [114, UInt8.ofNat ((accepter_str.length + 5) / 256),
                 UInt8.ofNat ((accepter_str.length + 5) % 256)]
                 ++ c_bytes (snprintf_4_4d (toInt32 st.curr_service))
                 ++ c_bytes accepter_str ++ [0],
               accepter_str.length + 8⟩ :: st.remote_ports }) := by
  unfold add_remote_port
  generalize alloc_sprintf allocs = r1
  obtain ⟨b1, a1⟩ := r1
  cases b1 with
  | false => exact Or.inl ⟨rfl, rfl, Or.inl rfl⟩
  | true =>
    simp only []
    generalize alloc_sprintf a1 = r2
    obtain ⟨b2, a2⟩ := r2
    cases b2 with
    | false => exact Or.inl ⟨rfl, rfl, Or.inr rfl⟩
    | true =>
      simp only []
      have hl := snprintf_4_4d_length (toInt32 st.curr_service)
      have hlen : ("r  ".toList ++ snprintf_4_4d (toInt32 st.curr_service)
          ++ accepter_str).length + 1 = accepter_str.length + 8 := by
        rw [List.length_append, List.length_append, hl]
        have : "r  ".toList.length = 3 := rfl
        omega
      rw [hlen]
      by_cases hbig : accepter_str.length + 8 > 65535
      · rw [if_pos hbig]
        exact Or.inl ⟨rfl, rfl, Or.inr rfl⟩
      · rw [if_neg hbig]
        generalize alloc_sprintf a2 = r3
        obtain ⟨b3, a3⟩ := r3
        cases b3 with
        | false => exact Or.inl ⟨rfl, rfl, Or.inr rfl⟩
        | true =>
          simp only []
          generalize alloc_sprintf a3 = r4
          obtain ⟨b4, a4⟩ := r4
          cases b4 with
          | false => exact Or.inl ⟨rfl, rfl, Or.inr rfl⟩
          | true =>
            refine Or.inr ⟨rfl, by omega, ?_⟩
            simp only [RemotePorts.mk.injEq, List.cons.injEq, remote_portinfo.mk.injEq,
              true_and, and_true]
            have e5 : accepter_str.length + 8 - 3 = accepter_str.length + 5 := by omega
            rw [e5]
            have eb : c_bytes ("r  ".toList ++ snprintf_4_4d (toInt32 st.curr_service)
                ++ accepter_str)
                = [114, 32, 32] ++ c_bytes (snprintf_4_4d (toInt32 st.curr_service))
                  ++ c_bytes accepter_str := by
              simp only [c_bytes, List.map_append]
              rfl
            rw [eb]
            rfl

/-- C15 (amended): for every remote forward that `add_remote_port` accepts,
the frame has `oob.len = strlen(accepter) + 8` bytes, at most 65535: the byte
`r`, the two bytes of `oob.len - 3` with the high byte first (they replace
the two blanks of the format), the 4 bytes of the service id, the accepter
string, and a terminating NUL. -/
theorem C15_oob_frame (E : GE) (allocs : List SysRes) (st : RemotePorts)
    (accepter_str connecter_str id_str : CStr) (hE : E.WF)
    (h : (add_remote_port E allocs st accepter_str connecter_str id_str).1 = 0) :
    ∃ np, (add_remote_port E allocs st accepter_str connecter_str id_str).2.1.remote_ports
        = np :: st.remote_ports ∧
      np.service.length = 4 ∧
      np.oob_len = accepter_str.length + 8 ∧ np.oob_len ≤ 65535 ∧
      np.oob_buf.length = np.oob_len ∧
      np.oob_buf = [114, UInt8.ofNat ((np.oob_len - 3) / 256),
                     UInt8.ofNat ((np.oob_len - 3) % 256)]
                   ++ c_bytes np.service ++ c_bytes accepter_str ++ [0] := by
  rcases add_remote_port_cases E allocs st accepter_str connecter_str id_str with
    ⟨h1, _, _⟩ | ⟨_, hlen, h2⟩
  · rw [h] at h1
    exact absurd h1.symm hE.1
  · rw [h2]
    refine ⟨_, rfl, ?_, ?_, ?_, ?_, ?_⟩
    · simp only []
      exact snprintf_4_4d_length _
    · rfl
    · exact hlen
    · simp only [List.length_append, List.length_cons, List.length_nil, c_bytes,
        List.length_map, snprintf_4_4d_length]
      omega
    · simp only []
      have e5 : accepter_str.length + 8 - 3 = accepter_str.length + 5 := by omega
      rw [e5]

/-- Witness of C15: the first forward, with accepter string `tcp,2000`. -/
theorem C15_oob_frame_witness :
    ∃ np, (add_remote_port GE.std [] RemotePorts.init "tcp,2000".toList
          "tcp,localhost,80".toList "2000:localhost:80".toList).2.1.remote_ports
        = np :: RemotePorts.init.remote_ports ∧
      np.service.length = 4 ∧
      np.oob_len = "tcp,2000".toList.length + 8 ∧ np.oob_len ≤ 65535 ∧
      np.oob_buf.length = np.oob_len ∧
      np.oob_buf = [114, UInt8.ofNat ((np.oob_len - 3) / 256),
                     UInt8.ofNat ((np.oob_len - 3) % 256)]
                   ++ c_bytes np.service ++ c_bytes "tcp,2000".toList ++ [0] :=
  C15_oob_frame GE.std [] RemotePorts.init "tcp,2000".toList "tcp,localhost,80".toList
    "2000:localhost:80".toList GE.std_WF (by decide)

theorem toDigitsCore_step (fuel n : Nat) (ds : List Char) (h : 10 ≤ n) :
    Nat.toDigitsCore 10 (fuel + 1) n ds
      = Nat.toDigitsCore 10 fuel (n / 10) (Nat.digitChar (n % 10) :: ds) := by
  have h0 : n / 10 ≠ 0 := by omega
  simp [Nat.toDigitsCore, h0]

theorem toDigitsCore_last (fuel n : Nat) (ds : List Char) (h : n < 10) :
    Nat.toDigitsCore 10 (fuel + 1) n ds = Nat.digitChar n :: ds := by
  have h0 : n / 10 = 0 := by omega
  have h1 : n % 10 = n := by omega
  simp [Nat.toDigitsCore, h0, h1]

theorem toString_four (n : Nat) (h : n < 10000) :
    List.replicate (4 - (toString n).length) '0' ++ (toString n).toList
      = [Nat.digitChar (n / 1000), Nat.digitChar (n / 100 % 10), Nat.digitChar (n / 10 % 10),
         Nat.digitChar (n % 10)] := by
  have e : (toString n).toList = Nat.toDigits 10 n := rfl
  have e1 : (toString n).length = (Nat.toDigits 10 n).length := rfl
  rw [e, e1]
  unfold Nat.toDigits
  by_cases h1 : n < 10
  · rw [toDigitsCore_last n n [] h1]
    have a1 : n / 1000 = 0 := by omega
    have a2 : n / 100 % 10 = 0 := by omega
    have a3 : n / 10 % 10 = 0 := by omega
    have a4 : n % 10 = n := by omega
    rw [a1, a2, a3, a4]
    rfl
  · by_cases h2 : n < 100
    · have f : n + 1 = (n - 1) + 1 + 1 := by omega
      rw [f, toDigitsCore_step _ n [] (by omega), toDigitsCore_last _ _ _ (by omega)]
      have a1 : n / 1000 = 0 := by omega
      have a2 : n / 100 % 10 = 0 := by omega
      have a3 : n / 10 % 10 = n / 10 := by omega
      rw [a1, a2, a3]
      rfl
    · by_cases h3 : n < 1000
      · have f : n + 1 = (n - 2) + 1 + 1 + 1 := by omega
        rw [f, toDigitsCore_step _ n [] (by omega), toDigitsCore_step _ _ _ (by omega),
          toDigitsCore_last _ _ _ (by omega)]
        have a1 : n / 1000 = 0 := by omega
        have a2 : n / 100 % 10 = n / 10 / 10 := by omega
        have a3 : n / 10 % 10 = n / 10 % 10 := rfl
        rw [a1, a2]
        rfl
      · have f : n + 1 = (n - 3) + 1 + 1 + 1 + 1 := by omega
        rw [f, toDigitsCore_step _ n [] (by omega), toDigitsCore_step _ _ _ (by omega),
          toDigitsCore_step _ _ _ (by omega), toDigitsCore_last _ _ _ (by omega)]
        have a1 : n / 1000 = n / 10 / 10 / 10 := by omega
        have a2 : n / 100 % 10 = n / 10 / 10 % 10 := by omega
        rw [a1, a2]
        rfl

theorem snprintf_4_4d_small (n : Nat) (h : n < 10000) :
    snprintf_4_4d (toInt32 n)
      = [Nat.digitChar (n / 1000), Nat.digitChar (n / 100 % 10), Nat.digitChar (n / 10 % 10),
         Nat.digitChar (n % 10)] := by
  have e : toInt32 (n : Int) = (n : Int) := by
    unfold toInt32
    have : (n : Int) % 4294967296 = n := by omega
    rw [this, if_pos (by omega)]
  rw [e]
  unfold snprintf_4_4d
  have hn : ¬ ((n : Int) < 0) := by omega
  rw [if_neg hn, Int.natAbs_ofNat, List.nil_append, toString_four n h]
  rfl

theorem digitChar_value (d : Nat) (h : d < 10) :
    (Nat.digitChar d).toNat - 48 = d ∧ is_digit (Nat.digitChar d) = true := by
  interval_cases d <;> exact ⟨rfl, rfl⟩

theorem snprintf_4_4d_value (n : Nat) (h : n < 10000) :
    decimal_value (snprintf_4_4d (toInt32 n)) = n ∧
    (snprintf_4_4d (toInt32 n)).all is_digit = true := by
  rw [snprintf_4_4d_small n h]
  obtain ⟨v1, d1⟩ := digitChar_value (n / 1000) (by omega)
  obtain ⟨v2, d2⟩ := digitChar_value (n / 100 % 10) (by omega)
  obtain ⟨v3, d3⟩ := digitChar_value (n / 10 % 10) (by omega)
  obtain ⟨v4, d4⟩ := digitChar_value (n % 10) (by omega)
  constructor
  · simp only [decimal_value, List.foldl_cons, List.foldl_nil, v1, v2, v3, v4]
    omega
  · simp only [List.all_cons, List.all_nil, d1, d2, d3, d4, Bool.and_self]

theorem add_remote_port_ordered (E : GE) (allocs : List SysRes) (st : RemotePorts)
    (accepter_str connecter_str id_str : CStr) (ho : st.ordered)
    (hc : st.curr_service < 10000) :
    (add_remote_port E allocs st accepter_str connecter_str id_str).2.1.ordered ∧
    (add_remote_port E allocs st accepter_str connecter_str id_str).2.1.curr_service
      ≤ st.curr_service + 1 := by
  obtain ⟨ho1, ho2⟩ := ho
  rcases add_remote_port_cases E allocs st accepter_str connecter_str id_str with
    ⟨_, hp, hcs⟩ | ⟨_, _, h2⟩
  · have hle : st.curr_service ≤
        (add_remote_port E allocs st accepter_str connecter_str id_str).2.1.curr_service ∧
        (add_remote_port E allocs st accepter_str connecter_str id_str).2.1.curr_service
          ≤ st.curr_service + 1 := by
      rcases hcs with h | h <;> rw [h] <;> omega
    refine ⟨⟨?_, ?_⟩, hle.2⟩
    · rw [hp]
      intro r hr
      obtain ⟨a, b, c⟩ := ho1 r hr
      exact ⟨a, b, by omega⟩
    · rw [hp]; exact ho2
  · rw [h2]
    have hm : (st.curr_service + 1) % 4294967296 = st.curr_service + 1 := by omega
    obtain ⟨hv, hd⟩ := snprintf_4_4d_value st.curr_service hc
    refine ⟨⟨?_, ?_⟩, by simp only [hm]; omega⟩
    · intro r hr
      simp only [List.mem_cons] at hr
      rcases hr with hr | hr
      · rw [hr]
        simp only []
        exact ⟨snprintf_4_4d_length _, hd, by rw [hv, hm]; omega⟩
      · obtain ⟨a, b, c⟩ := ho1 r hr
        exact ⟨a, b, by simp only [hm]; omega⟩
    · simp only [List.map_cons, List.pairwise_cons]
      refine ⟨?_, ho2⟩
      intro v hv1
      simp only [List.mem_map] at hv1
      obtain ⟨r, hr, rfl⟩ := hv1
      rw [hv]
      exact (ho1 r hr).2.2

theorem add_remote_ports_ordered (E : GE) (reqs : List RemoteReq) (st : RemotePorts)
    (ho : st.ordered) (hc : st.curr_service + reqs.length ≤ 10000) :
    (add_remote_ports E reqs st).ordered := by
  induction reqs generalizing st with
  | nil => exact ho
  | cons r rest ih =>
    simp only [List.length_cons] at hc
    obtain ⟨h1, h2⟩ := add_remote_port_ordered E r.allocs st r.accepter_str r.connecter_str
      r.id_str ho (by omega)
    simp only [add_remote_ports, List.foldl_cons]
    exact ih _ h1 (by omega)

theorem handle_rem_req_own (ports : List remote_portinfo)
    (hp : ports.Pairwise (fun a b => a.service ≠ b.service)) (r : remote_portinfo)
    (hr : r ∈ ports) :
    handle_rem_req ports r.service = RemReq.new_con r.connecter_str r.id_str := by
  have hf : ports.find? (fun pi => pi.service == r.service) = some r := by
    induction ports with
    | nil => simp at hr
    | cons a t ih =>
      simp only [List.pairwise_cons] at hp
      simp only [List.mem_cons] at hr
      rcases hr with hr | hr
      · subst hr
        simp [List.find?_cons]
      · have hne : a.service ≠ r.service := hp.1 r hr
        have hb : (a.service == r.service) = false := by simpa using hne
        rw [List.find?_cons, hb]
        exact ih hp.2 hr
  unfold handle_rem_req
  rw [hf]

theorem handle_rem_req_unknown (ports : List remote_portinfo) (service : CStr)
    (h : ∀ r ∈ ports, r.service ≠ service) :
    handle_rem_req ports service = RemReq.freed := by
  have hf : ports.find? (fun pi => pi.service == service) = none := by
    rw [List.find?_eq_none]
    intro r hr
    simpa using h r hr
  unfold handle_rem_req
  rw [hf]

theorem ordered_distinct (st : RemotePorts) (ho : st.ordered) :
    st.remote_ports.Pairwise (fun a b => a.service ≠ b.service) := by
  have h := ho.2
  rw [List.pairwise_map] at h
  refine h.imp ?_
  intro a b hab he
  rw [he] at hab
  exact Nat.lt_irrefl _ hab

/-- C16 (amended): after at most 10000 calls of `add_remote_port` from the
start of the program, each record's service id is four decimal digits, the
ids read as numbers grow with the order of registration (the newest record
is first in the list) and are pairwise distinct, `handle_rem_req` with a
record's id connects the channel to that record's connecter string, and with
a service that no record has it frees the channel. -/
theorem C16_service_ids (E : GE) (reqs : List RemoteReq) (hn : reqs.length ≤ 10000) :
    ∀ st, st = add_remote_ports E reqs RemotePorts.init →
      (∀ r ∈ st.remote_ports, r.service.length = 4 ∧ r.service.all is_digit = true) ∧
      (st.remote_ports.map (fun r => decimal_value r.service)).Pairwise (fun a b => a > b) ∧
      (st.remote_ports.map (fun r => r.service)).Nodup ∧
      (∀ r ∈ st.remote_ports,
        handle_rem_req st.remote_ports r.service = RemReq.new_con r.connecter_str r.id_str) ∧
      (∀ service, (∀ r ∈ st.remote_ports, r.service ≠ service) →
        handle_rem_req st.remote_ports service = RemReq.freed) := by
  intro st hst
  have h0 : RemotePorts.init.ordered := by
    refine ⟨fun r hr => ?_, ?_⟩
    · simp [RemotePorts.init] at hr
    · simp [RemotePorts.init]
  have ho : st.ordered := by
    rw [hst]
    exact add_remote_ports_ordered E reqs _ h0 (by simp only [RemotePorts.init]; omega)
  have hd := ordered_distinct st ho
  refine ⟨fun r hr => ⟨(ho.1 r hr).1, (ho.1 r hr).2.1⟩, ho.2, ?_,
    fun r hr => handle_rem_req_own _ hd r hr, fun s hs => handle_rem_req_unknown _ s hs⟩
  rw [List.Nodup, List.pairwise_map]
  exact hd

/-- Witness of C16: three forwards, the second of which fails to allocate
its connecter string. -/
theorem C16_service_ids_witness :
    (∀ r ∈ (add_remote_ports GE.std
          [exampleReq, { exampleReq with allocs := [SysRes.ok, SysRes.ok, SysRes.fail 12] },
           exampleReq] RemotePorts.init).remote_ports,
        r.service.length = 4 ∧ r.service.all is_digit = true) ∧
    ((add_remote_ports GE.std
          [exampleReq, { exampleReq with allocs := [SysRes.ok, SysRes.ok, SysRes.fail 12] },
           exampleReq] RemotePorts.init).remote_ports.map (fun r => r.service)).Nodup ∧
    (add_remote_ports GE.std
          [exampleReq, { exampleReq with allocs := [SysRes.ok, SysRes.ok, SysRes.fail 12] },
           exampleReq] RemotePorts.init).remote_ports.map (fun r => r.service)
      = ["0002".toList, "0000".toList] :=
  have h := C16_service_ids GE.std
    [exampleReq, { exampleReq with allocs := [SysRes.ok, SysRes.ok, SysRes.fail 12] },
     exampleReq] (by decide) _ rfl
  ⟨h.1, h.2.2.1, by decide⟩

theorem add_remote_port_no_failure (E : GE) (st : RemotePorts)
    (accepter_str connecter_str id_str : CStr) (h : accepter_str.length + 8 ≤ 65535) :
    (add_remote_port E [] st accepter_str connecter_str id_str).1 = 0 := by
  unfold add_remote_port
  have hl := snprintf_4_4d_length (toInt32 st.curr_service)
  have hlen : ¬ (("r  ".toList ++ snprintf_4_4d (toInt32 st.curr_service)
      ++ accepter_str).length + 1 > 65535) := by
    rw [List.length_append, List.length_append, hl]
    have : "r  ".toList.length = 3 := rfl
    omega
  simp only [alloc_sprintf, if_neg hlen]

theorem add_remote_port_services (E : GE) (hN : E.NOMEM ≠ 0) (st : RemotePorts)
    (accepter_str connecter_str id_str : CStr) (h : accepter_str.length + 8 ≤ 65535) :
    (add_remote_port E [] st accepter_str connecter_str id_str).2.1.curr_service
      = (st.curr_service + 1) % 4294967296 ∧
    (add_remote_port E [] st accepter_str connecter_str id_str).2.1.remote_ports.map
        (fun np => np.service)
      = snprintf_4_4d (toInt32 st.curr_service) :: st.remote_ports.map (fun np => np.service) := by
  have h0 := add_remote_port_no_failure E st accepter_str connecter_str id_str h
  rcases add_remote_port_cases E [] st accepter_str connecter_str id_str with
    ⟨h1, _, _⟩ | ⟨_, _, h2⟩
  · rw [h0] at h1
    exact absurd h1.symm hN
  · rw [h2]
    refine ⟨?_, ?_⟩ <;> simp only [List.map_cons]

theorem add_remote_ports_replicate (E : GE) (hN : E.NOMEM ≠ 0) (req : RemoteReq)
    (ha : req.allocs = []) (hl : req.accepter_str.length + 8 ≤ 65535) (k : Nat)
    (st : RemotePorts) (hk : st.curr_service + k < 4294967296) :
    (add_remote_ports E (List.replicate k req) st).remote_ports.map (fun np => np.service)
      = ((List.range k).map
          (fun j => snprintf_4_4d (toInt32 ((st.curr_service + j : Nat) : Int)))).reverse
        ++ st.remote_ports.map (fun np => np.service) := by
  induction k generalizing st with
  | zero => simp [add_remote_ports]
  | succ k ih =>
    obtain ⟨h1, h2⟩ := add_remote_port_services E hN st req.accepter_str req.connecter_str
      req.id_str hl
    rw [Nat.mod_eq_of_lt (by omega)] at h1
    simp only [List.replicate_succ, add_remote_ports, List.foldl_cons, ha]
    generalize (add_remote_port E [] st req.accepter_str req.connecter_str req.id_str).2.1
      = st1 at h1 h2
    have h3 := ih st1 (by rw [h1]; omega)
    simp only [add_remote_ports] at h3
    have hf : (fun j => snprintf_4_4d (toInt32 ((st1.curr_service + j : Nat) : Int)))
        = (fun j => snprintf_4_4d (toInt32 ((st.curr_service + Nat.succ j : Nat) : Int))) := by
      funext j
      have hj : st1.curr_service + j = st.curr_service + Nat.succ j := by
        rw [h1, Nat.succ_eq_add_one]; omega
      rw [hj]
    rw [h3, h2, hf, List.range_succ_eq_map, List.map_cons, List.reverse_cons,
      List.append_assoc, List.map_map, Function.comp_def]
    rfl

/-- C16 (counterexample): after 10001 registrations of the forward
`2000:localhost:80` the service ids are the texts of 10000, 9999, ..., 0 cut
to four characters, so the newest record and the record of the 1001st
registration both have the id `1000`: the ids are not pairwise distinct. -/
theorem C16_service_ids_repeat :
    ((add_remote_ports GE.std (List.replicate 10001 exampleReq) RemotePorts.init).remote_ports.map
        (fun np => np.service))
      = ((List.range 10001).map (fun j => snprintf_4_4d (toInt32 ((j : Nat) : Int)))).reverse ∧
    snprintf_4_4d (toInt32 ((10000 : Nat) : Int)) = "1000".toList ∧
    snprintf_4_4d (toInt32 ((1000 : Nat) : Int)) = "1000".toList ∧
    ¬ ((add_remote_ports GE.std (List.replicate 10001 exampleReq)
          RemotePorts.init).remote_ports.map (fun np => np.service)).Nodup := by
  have h := add_remote_ports_replicate GE.std (by decide) exampleReq rfl (by decide) 10001
    RemotePorts.init (by decide)
  have e0 : RemotePorts.init.remote_ports.map (fun np => np.service) = [] := rfl
  have ec : RemotePorts.init.curr_service = 0 := rfl
  rw [e0, ec, List.append_nil] at h
  simp only [Nat.zero_add] at h
  have e1 : snprintf_4_4d (toInt32 ((10000 : Nat) : Int)) = "1000".toList := by decide
  have e2 : snprintf_4_4d (toInt32 ((1000 : Nat) : Int)) = "1000".toList := by decide
  refine ⟨h, e1, e2, ?_⟩
  rw [h, List.nodup_reverse]
  intro hnd
  have hinj := List.inj_on_of_nodup_map hnd
  have := hinj (List.mem_range.mpr (by omega : 10000 < 10001))
    (List.mem_range.mpr (by omega : 1000 < 10001)) (e1.trans e2.symm)
  omega


/-! ## Claims on the accepter flags -/

theorem tcpna_deref_flags (s s1 : tcpna_data) (h : tcpna_deref_and_unlock s = some s1) :
    s1.setup = s.setup ∧ s1.in_shutdown = s.in_shutdown ∧ s1.enabled = s.enabled := by
  unfold tcpna_deref_and_unlock at h
  by_cases h0 : s.refcount = 0
  · simp [h0] at h
  · by_cases h1 : s.refcount - 1 = 0
    · simp [h0, h1, tcpna_finish_free] at h
      subst h
      exact ⟨rfl, rfl, rfl⟩
    · simp [h0, h1] at h
      subst h
      exact ⟨rfl, rfl, rfl⟩

theorem tcpna_step_in_shutdown (E : Errno) (op : AccOp) (s s1 : tcpna_data)
    (hi : s.in_shutdown = true → s.setup = false) (h : op.apply E s = some s1) :
    s1.in_shutdown = true → s1.setup = false := by
  cases op with
  | startup opened =>
    simp only [AccOp.apply, tcpna_startup] at h
    by_cases hf : s.freed = true
    · simp [hf] at h
    · simp only [hf, Bool.false_eq_true, if_false] at h
      by_cases hb : s.in_shutdown = true ∨ s.setup = true
      · rw [if_pos hb] at h
        simp at h; subst h; exact hi
      · rw [if_neg hb] at h
        have hn : s.in_shutdown = false := by
          cases hs : s.in_shutdown with
          | false => rfl
          | true => exact absurd (Or.inl hs) hb
        cases opened with
        | error e =>
          simp at h; subst h
          intro hc
          simp only [hn] at hc
          cases hc
        | ok l =>
          simp [tcpna_set_fd_enables, tcpna_data.fds, tcpna_ref] at h
          subst h
          intro hc
          simp only [hn] at hc
          cases hc
  | shutdown cb data =>
    simp only [AccOp.apply, tcpna_shutdown] at h
    by_cases hf : s.freed = true
    · simp [hf] at h
    · simp only [hf, Bool.false_eq_true, if_false] at h
      by_cases hs : s.setup = true
      · rw [if_pos hs] at h
        simp only [tcpna_shutdown_locked] at h
        cases hfd : s.fds with
        | none => simp [hfd] at h
        | some l =>
          simp [hfd] at h
          subst h
          intro _; rfl
      · rw [if_neg hs] at h
        simp at h; subst h; exact hi
  | set_accept_callback_enable en =>
    simp only [AccOp.apply, tcpna_set_accept_callback_enable] at h
    by_cases hf : s.freed = true
    · simp [hf] at h
    · simp only [hf, Bool.false_eq_true, if_false] at h
      by_cases he : s.enabled ≠ en
      · rw [if_pos he] at h
        simp only [tcpna_set_fd_enables] at h
        cases hfd : s.fds with
        | none => simp [hfd] at h
        | some l =>
          simp [hfd] at h
          subst h
          exact hi
      · rw [if_neg he] at h
        simp at h; subst h; exact hi
  | fd_cleared fd =>
    simp only [AccOp.apply, tcpna_fd_cleared] at h
    by_cases hf : s.freed = true
    · simp [hf] at h
    · simp only [hf, Bool.false_eq_true, if_false] at h
      split at h
      · obtain ⟨_, h2, _⟩ := tcpna_deref_flags _ _ h
        intro hc
        rw [h2] at hc
        cases hc
      · simp at h; subst h; exact hi
  | free =>
    simp only [AccOp.apply, tcpna_free] at h
    by_cases hf : s.freed = true
    · simp [hf] at h
    · simp only [hf, Bool.false_eq_true, if_false] at h
      by_cases hs : s.setup = true
      · rw [if_pos hs] at h
        simp only [tcpna_shutdown_locked] at h
        cases hfd : s.fds with
        | none => simp [hfd] at h
        | some l =>
          simp only [hfd, Option.some_bind] at h
          obtain ⟨h1, _, _⟩ := tcpna_deref_flags _ _ h
          intro _
          rw [h1]
      · rw [if_neg hs] at h
        obtain ⟨h1, h2, _⟩ := tcpna_deref_flags _ _ h
        rw [h1, h2]
        exact hi

theorem tcpna_run_in_shutdown (E : Errno) (ops : List AccOp) (s s1 : tcpna_data)
    (hi : s.in_shutdown = true → s.setup = false) (h : tcpna_run E ops s = some s1) :
    s1.in_shutdown = true → s1.setup = false := by
  induction ops generalizing s with
  | nil => simp [tcpna_run] at h; subst h; exact hi
  | cons op rest ih =>
    simp only [tcpna_run] at h
    cases hop : op.apply E s with
    | none => simp [hop] at h
    | some s2 =>
      simp only [hop, Option.some_bind] at h
      exact ih s2 (tcpna_step_in_shutdown E op s s2 hi hop) h

/-- C21 (code bug): `tcpna_set_accept_callback_enable(true)` on a freshly
allocated accepter leaves `enabled` set with `setup` clear; issued after a
startup and a shutdown it leaves `enabled` set while the accepter is in
shutdown and not set up, and switches the read handler of the descriptor back
on after its handlers were cleared. -/
theorem C21_enabled_without_setup :
    (tcpna_run Errno.linux [AccOp.set_accept_callback_enable true]
        tcp_gensio_accepter_alloc).map (fun s => (s.enabled, s.setup)) = some (true, false) ∧
    (tcpna_run Errno.linux
        [AccOp.startup (Except.ok [5]), AccOp.shutdown none 0,
         AccOp.set_accept_callback_enable true]
        tcp_gensio_accepter_alloc).map (fun s => (s.enabled, s.setup, s.in_shutdown, s.log))
      = some (true, false, true,
          [AccEv.set_read_handler 5 true, AccEv.clear_fd_handlers 5,
           AccEv.set_read_handler 5 true]) := by
  decide

/-- C22: in every state reached from a freshly allocated accepter by a
sequence of `tcpna_startup`, `tcpna_shutdown`,
`tcpna_set_accept_callback_enable`, `tcpna_fd_cleared` and `tcpna_free`, an
accepter that is in shutdown is not set up; and each operation keeps this
from any state in which it holds. -/
theorem C22_in_shutdown_excludes_setup (E : Errno) :
    (∀ (ops : List AccOp) (s : tcpna_data),
      tcpna_run E ops tcp_gensio_accepter_alloc = some s →
      s.in_shutdown = true → s.setup = false) ∧
    (∀ (op : AccOp) (s s1 : tcpna_data), (s.in_shutdown = true → s.setup = false) →
      op.apply E s = some s1 → s1.in_shutdown = true → s1.setup = false) := by
  refine ⟨fun ops s h => ?_, fun op s s1 hi h => tcpna_step_in_shutdown E op s s1 hi h⟩
  exact tcpna_run_in_shutdown E ops tcp_gensio_accepter_alloc s (fun hc => by cases hc) h

/-- Witness of C22: after a startup with two descriptors, a shutdown and one
of the two `tcpna_fd_cleared` callbacks the accepter is in shutdown and not
set up. -/
theorem C22_in_shutdown_excludes_setup_witness :
    tcpna_run Errno.linux
        [AccOp.startup (Except.ok [5, 6]), AccOp.shutdown (some 1) 0, AccOp.fd_cleared 5]
        tcp_gensio_accepter_alloc
      = some { tcp_gensio_accepter_alloc with
                in_shutdown := true, refcount := 2, shutdown_done := some 1,
                acceptfds := some [5, 6], nr_acceptfds := 2, nr_accept_close_waiting := 1,
                log := [AccEv.set_read_handler 5 true, AccEv.set_read_handler 6 true,
                        AccEv.clear_fd_handlers 5, AccEv.clear_fd_handlers 6,
                        AccEv.close 5] } ∧
    ({ tcp_gensio_accepter_alloc with
        in_shutdown := true, refcount := 2, shutdown_done := some 1,
        acceptfds := some [5, 6], nr_acceptfds := 2, nr_accept_close_waiting := 1,
        log := [AccEv.set_read_handler 5 true, AccEv.set_read_handler 6 true,
                AccEv.clear_fd_handlers 5, AccEv.clear_fd_handlers 6,
                AccEv.close 5] } : tcpna_data).setup = false :=
  have h : tcpna_run Errno.linux
        [AccOp.startup (Except.ok [5, 6]), AccOp.shutdown (some 1) 0, AccOp.fd_cleared 5]
        tcp_gensio_accepter_alloc
      = some { tcp_gensio_accepter_alloc with
                in_shutdown := true, refcount := 2, shutdown_done := some 1,
                acceptfds := some [5, 6], nr_acceptfds := 2, nr_accept_close_waiting := 1,
                log := [AccEv.set_read_handler 5 true, AccEv.set_read_handler 6 true,
                        AccEv.clear_fd_handlers 5, AccEv.clear_fd_handlers 6,
                        AccEv.close 5] } := by decide
  ⟨h, (C22_in_shutdown_excludes_setup Errno.linux).1 _ _ h rfl⟩


/-! ## Claim on `tcp_check_open` and `tcp_retry_open` -/

theorem Net.pop_log (n : Net) : n.pop.2.log = n.log ∧ n.pop.2.next_fd = n.next_fd := by
  unfold Net.pop
  cases n.script <;> exact ⟨rfl, rfl⟩

theorem Net.pop_cons (n : Net) (r : NetRes) (rest : List NetRes) (h : n.script = r :: rest) :
    n.pop = (r, { n with script := rest }) := by
  unfold Net.pop
  rw [h]

theorem tcp_socket_setup_log (n : Net) : (tcp_socket_setup n).2.log = n.log := by
  unfold tcp_socket_setup
  have h1 := (Net.pop_log n).1
  generalize n.pop = p1 at h1
  obtain ⟨r1, n1⟩ := p1
  simp only at h1
  cases r1 with
  | fail e => exact h1
  | ok =>
    simp only []
    have h2 := (Net.pop_log n1).1
    generalize n1.pop = p2 at h2
    obtain ⟨r2, n2⟩ := p2
    simp only at h2
    cases r2 <;> exact h2.trans h1
  | value v =>
    simp only []
    have h2 := (Net.pop_log n1).1
    generalize n1.pop = p2 at h2
    obtain ⟨r2, n2⟩ := p2
    simp only at h2
    cases r2 <;> exact h2.trans h1

theorem tcp_try_open_out_log (err new_fd : Int) (tdata : tcp_data) (fd : Int) (n : Net)
    (base pre : List NetEv) (h : n.log = base ++ pre) :
    ∃ evs, (tcp_try_open_out err new_fd tdata fd n).2.2.2.log = base ++ evs := by
  unfold tcp_try_open_out
  split
  · split
    · exact ⟨pre ++ [NetEv.close new_fd], by simp [Net.close, h]⟩
    · exact ⟨pre, h⟩
  · exact ⟨pre, h⟩

theorem tcp_try_open_retry_log (E : Errno) (new_fd : Int) (rest : List AddrInfo) :
    ∀ (ai : AddrInfo) (tdata : tcp_data) (fd : Int) (n : Net) (base pre : List NetEv),
      n.log = base ++ pre →
      ∃ evs, (tcp_try_open_retry E new_fd ai rest tdata fd n).2.2.2.log = base ++ evs := by
  induction rest with
  | nil =>
    intro ai tdata fd n base pre h
    unfold tcp_try_open_retry
    have h1 := (Net.pop_log n).1
    generalize n.pop = p1 at h1
    obtain ⟨r1, n0⟩ := p1
    simp only at h1 ⊢
    split
    · exact ⟨pre ++ [NetEv.connect new_fd ai.ai_addr], by simp [h1, h]⟩
    · split
      · exact tcp_try_open_out_log _ _ _ _ _ base (pre ++ [NetEv.connect new_fd ai.ai_addr])
          (by simp [h1, h])
      · exact tcp_try_open_out_log _ _ _ _ _ base (pre ++ [NetEv.connect new_fd ai.ai_addr])
          (by simp [h1, h])
  | cons next rest1 ih =>
    intro ai tdata fd n base pre h
    unfold tcp_try_open_retry
    have h1 := (Net.pop_log n).1
    generalize n.pop = p1 at h1
    obtain ⟨r1, n0⟩ := p1
    simp only at h1 ⊢
    split
    · exact ⟨pre ++ [NetEv.connect new_fd ai.ai_addr], by simp [h1, h]⟩
    · split
      · exact ih _ _ _ _ base (pre ++ [NetEv.connect new_fd ai.ai_addr]) (by simp [h1, h])
      · exact tcp_try_open_out_log _ _ _ _ _ base (pre ++ [NetEv.connect new_fd ai.ai_addr])
          (by simp [h1, h])

theorem tcp_try_open_socket (E : Errno) (tdata : tcp_data) (fd : Int) (n : Net)
    (ai : AddrInfo) (rest : List AddrInfo) (hc : tdata.curr_ai = ai :: rest) :
    ∃ r, tcp_try_open E tdata fd n = some r ∧
      (∀ e s, n.script = NetRes.fail e :: s → e ≠ 0 →
        r = (e, tdata, fd, { n with script := s })) ∧
      ((∀ e s, n.script ≠ NetRes.fail e :: s) →
        ∃ evs, r.2.2.2.log = n.log ++ NetEv.socket n.next_fd ai.ai_family :: evs) := by
  unfold tcp_try_open
  rw [hc]
  simp only []
  obtain ⟨hl, hf⟩ := Net.pop_log n
  have hp : ∀ r s, n.script = r :: s → n.pop = (r, { n with script := s }) :=
    fun r s h => Net.pop_cons n r s h
  have hnil : n.script = [] → n.pop = (NetRes.ok, n) := by
    intro h
    unfold Net.pop
    rw [h]
  generalize n.pop = p1 at hl hf hp hnil
  obtain ⟨r1, n1⟩ := p1
  simp only at hl hf
  have hsock : ∀ r1 : NetRes, (∀ e, r1 ≠ NetRes.fail e) →
      ∃ r, (match tcp_socket_setup
              { n1 with next_fd := n1.next_fd + 1,
                        log := n1.log ++ [NetEv.socket (n1.next_fd : Int) ai.ai_family] } with
            | (err, n3) =>
              if err ≠ 0 then some (tcp_try_open_out err n1.next_fd tdata fd n3)
              else some (tcp_try_open_retry E n1.next_fd ai rest tdata fd n3)) = some r ∧
        ∃ evs, r.2.2.2.log = n.log ++ NetEv.socket n.next_fd ai.ai_family :: evs := by
    intro _ _
    have hs := tcp_socket_setup_log
      { n1 with next_fd := n1.next_fd + 1,
                log := n1.log ++ [NetEv.socket (n1.next_fd : Int) ai.ai_family] }
    generalize tcp_socket_setup
      { n1 with next_fd := n1.next_fd + 1,
                log := n1.log ++ [NetEv.socket (n1.next_fd : Int) ai.ai_family] } = p3 at hs
    obtain ⟨err, n3⟩ := p3
    simp only at hs ⊢
    have hb : n3.log = (n.log ++ [NetEv.socket (n.next_fd : Int) ai.ai_family]) ++ [] := by
      rw [hs, hl, hf, List.append_nil]
    by_cases he : err ≠ 0
    · rw [if_pos he]
      obtain ⟨evs, hev⟩ := tcp_try_open_out_log err n1.next_fd tdata fd n3 _ _ hb
      exact ⟨_, rfl, evs, by rw [hev]; simp⟩
    · rw [if_neg he]
      obtain ⟨evs, hev⟩ := tcp_try_open_retry_log E n1.next_fd rest ai tdata fd n3 _ _ hb
      exact ⟨_, rfl, evs, by rw [hev]; simp⟩
  cases r1 with
  | fail e =>
    simp only []
    refine ⟨_, rfl, ?_, ?_⟩
    · intro e1 s hs he1
      have := hp _ _ hs
      simp only [Prod.mk.injEq, NetRes.fail.injEq] at this
      obtain ⟨h1, h2⟩ := this
      subst h1 h2
      simp [tcp_try_open_out, he1]
    · intro hno
      exfalso
      cases hsc : n.script with
      | nil =>
        have := hnil hsc
        simp at this
      | cons r s =>
        have := hp _ _ hsc
        simp only [Prod.mk.injEq] at this
        exact hno e s (by rw [hsc, this.1])
  | ok =>
    simp only []
    obtain ⟨r, hr, hev⟩ := hsock NetRes.ok (fun e h => NetRes.noConfusion h)
    refine ⟨r, hr, ?_, fun _ => hev⟩
    intro e1 s hs _
    have := hp _ _ hs
    simp at this
  | value v =>
    simp only []
    obtain ⟨r, hr, hev⟩ := hsock (NetRes.value v) (fun e h => NetRes.noConfusion h)
    refine ⟨r, hr, ?_, fun _ => hev⟩
    intro e1 s hs _
    have := hp _ _ hs
    simp at this

/-- C24: `tcp_check_open` stores in `last_err` what `getsockopt` gives,
`errno` when the call fails and the value of `SO_ERROR` otherwise, changes
nothing else of the state, and returns the value it stored.
`tcp_retry_open`, when the current candidate is the last of the list or
`curr_ai` is already NULL, returns `last_err`, leaves `curr_ai` NULL, makes no
socket call and does not write `*fd`; in every other case its result is that
of `tcp_try_open` started at the candidate after the current one: it returns,
with `errno` and nothing else changed when `socket` fails, and otherwise with
a socket created in the address family of that candidate. -/
theorem C24_check_and_retry (E : Errno) (tdata : tcp_data) (fd : Int) (n : Net) :
    (tcp_check_open tdata n).1 = (tcp_check_open tdata n).2.1.last_err ∧
    (∀ e s, n.script = NetRes.fail e :: s →
      tcp_check_open tdata n = (e, { tdata with last_err := e }, { n with script := s })) ∧
    (∀ v s, n.script = NetRes.value v :: s →
      tcp_check_open tdata n = (v, { tdata with last_err := v }, { n with script := s })) ∧
    (∀ s, n.script = NetRes.ok :: s →
      tcp_check_open tdata n = (0, { tdata with last_err := 0 }, { n with script := s })) ∧
    (tdata.curr_ai.tail = [] →
      tcp_retry_open E tdata fd n = some (tdata.last_err, { tdata with curr_ai := [] }, fd, n)) ∧
    (∀ a b rest, tdata.curr_ai = a :: b :: rest →
      tcp_retry_open E tdata fd n = tcp_try_open E { tdata with curr_ai := b :: rest } fd n ∧
      ∃ r, tcp_retry_open E tdata fd n = some r ∧
        (∀ e s, n.script = NetRes.fail e :: s → e ≠ 0 →
          r = (e, { tdata with curr_ai := b :: rest }, fd, { n with script := s })) ∧
        ((∀ e s, n.script ≠ NetRes.fail e :: s) →
          ∃ evs, r.2.2.2.log = n.log ++ NetEv.socket n.next_fd b.ai_family :: evs)) := by
  refine ⟨?_, ?_, ?_, ?_, ?_, ?_⟩
  · unfold tcp_check_open
    generalize n.pop = r
    obtain ⟨r1, n1⟩ := r
    cases r1 <;> rfl
  · intro e s h
    unfold tcp_check_open
    rw [Net.pop_cons n _ s h]
  · intro v s h
    unfold tcp_check_open
    rw [Net.pop_cons n _ s h]
  · intro s h
    unfold tcp_check_open
    rw [Net.pop_cons n _ s h]
  · intro h
    obtain ⟨remote, raddrlen, ai, curr_ai, last_err⟩ := tdata
    simp only at h
    cases curr_ai with
    | nil => rfl
    | cons a rest =>
      simp only [List.tail_cons] at h
      subst h
      rfl
  · intro a b rest h
    have e : tcp_retry_open E tdata fd n
        = tcp_try_open E { tdata with curr_ai := b :: rest } fd n := by
      obtain ⟨remote, raddrlen, ai, curr_ai, last_err⟩ := tdata
      simp only at h
      subst h
      rfl
    refine ⟨e, ?_⟩
    rw [e]
    exact tcp_try_open_socket E { tdata with curr_ai := b :: rest } fd n b rest rfl

/-- Witness of C24: `tcp_check_open` on a socket whose `SO_ERROR` is 111
stores and returns 111; with the loopback address as the only candidate
`tcp_retry_open` gives up with `last_err`; with an IPv6 candidate after it,
it returns with a socket of family 10. -/
theorem C24_check_and_retry_witness :
    tcp_check_open
        { remote := [], raddrlen := 0, ai := [loopbackAddr], curr_ai := [loopbackAddr],
          last_err := 0 } { quietNet with script := [NetRes.value 111] }
      = (111, { remote := [], raddrlen := 0, ai := [loopbackAddr], curr_ai := [loopbackAddr],
                last_err := 111 }, { quietNet with script := [] }) ∧
    tcp_retry_open Errno.linux
        { remote := [], raddrlen := 0, ai := [loopbackAddr], curr_ai := [loopbackAddr],
          last_err := 111 } (-1) quietNet
      = some (111, { remote := [], raddrlen := 0, ai := [loopbackAddr], curr_ai := [],
                     last_err := 111 }, -1, quietNet) ∧
    ∃ r, tcp_retry_open Errno.linux
          { remote := [], raddrlen := 0, ai := [loopbackAddr, loopback6Addr],
            curr_ai := [loopbackAddr, loopback6Addr], last_err := 111 } (-1) quietNet
        = some r ∧
      ∃ evs, r.2.2.2.log = quietNet.log ++ NetEv.socket quietNet.next_fd 10 :: evs :=
  ⟨(C24_check_and_retry Errno.linux
      { remote := [], raddrlen := 0, ai := [loopbackAddr], curr_ai := [loopbackAddr],
        last_err := 0 } (-1) { quietNet with script := [NetRes.value 111] }).2.2.1 111 [] rfl,
   (C24_check_and_retry Errno.linux
      { remote := [], raddrlen := 0, ai := [loopbackAddr], curr_ai := [loopbackAddr],
        last_err := 111 } (-1) quietNet).2.2.2.2.1 rfl,
   match (C24_check_and_retry Errno.linux
      { remote := [], raddrlen := 0, ai := [loopbackAddr, loopback6Addr],
        curr_ai := [loopbackAddr, loopback6Addr], last_err := 111 } (-1) quietNet).2.2.2.2.2
      loopbackAddr loopback6Addr [] rfl with
   | ⟨_, r, hr, _, hsock⟩ => ⟨r, hr, hsock (fun _ _ h => List.noConfusion h)⟩⟩

/-! ## Claims on the remote forward frame and the fields of `handle_port` -/

theorem UInt8_ofNat_toNat (x : Nat) : (UInt8.ofNat x).toNat = x % 256 := by
  rfl

/-- C25: for every remote forward that `add_remote_port` accepts, the bytes
at offsets 1 and 2 of the frame are the high and the low byte of
`oob.len - 3`, which is the number of frame bytes after offset 2 (the 4 bytes
of the service id, the accepter string and the terminating NUL) and is below
2^16, so no bit of it is lost. -/
theorem C25_length_field (E : GE) (allocs : List SysRes) (st : RemotePorts)
    (accepter_str connecter_str id_str : CStr) (hE : E.WF)
    (h : (add_remote_port E allocs st accepter_str connecter_str id_str).1 = 0) :
    ∃ np hi lo, (add_remote_port E allocs st accepter_str connecter_str id_str).2.1.remote_ports
        = np :: st.remote_ports ∧
      np.oob_buf.get? 1 = some hi ∧ np.oob_buf.get? 2 = some lo ∧
      hi.toNat * 256 + lo.toNat = np.oob_len - 3 ∧
      np.oob_len - 3 = np.oob_buf.length - 3 ∧
      np.oob_len - 3 = 4 + accepter_str.length + 1 ∧
      np.oob_len - 3 < 65536 := by
  rcases add_remote_port_cases E allocs st accepter_str connecter_str id_str with
    ⟨h1, _, _⟩ | ⟨_, hlen, h2⟩
  · rw [h] at h1
    exact absurd h1.symm hE.1
  · rw [h2]
    have hl := snprintf_4_4d_length (toInt32 st.curr_service)
    generalize snprintf_4_4d (toInt32 st.curr_service) = svc at hl
    refine ⟨_, UInt8.ofNat ((accepter_str.length + 5) / 256),
      UInt8.ofNat ((accepter_str.length + 5) % 256), rfl, ?_, ?_, ?_, ?_, ?_, ?_⟩
    · simp only [List.cons_append, List.get?_cons_succ, List.get?_cons_zero]
    · simp only [List.cons_append, List.get?_cons_succ, List.get?_cons_zero]
    · simp only [UInt8_ofNat_toNat]
      omega
    · simp only [List.length_append, List.length_cons, List.length_nil, c_bytes,
        List.length_map, hl]
      omega
    · simp only []
      omega
    · simp only []
      omega

/-- Witness of C25: the first forward, with accepter string `tcp,2000`. -/
theorem C25_length_field_witness :
    ∃ np hi lo, (add_remote_port GE.std [] RemotePorts.init "tcp,2000".toList
          "tcp,localhost,80".toList "2000:localhost:80".toList).2.1.remote_ports
        = np :: RemotePorts.init.remote_ports ∧
      np.oob_buf.get? 1 = some hi ∧ np.oob_buf.get? 2 = some lo ∧
      hi.toNat * 256 + lo.toNat = np.oob_len - 3 ∧
      np.oob_len - 3 = np.oob_buf.length - 3 ∧
      np.oob_len - 3 = 4 + "tcp,2000".toList.length + 1 ∧
      np.oob_len - 3 < 65536 :=
  C25_length_field GE.std [] RemotePorts.init "tcp,2000".toList "tcp,localhost,80".toList
    "2000:localhost:80".toList GE.std_WF (by decide)

/-- C26 (code bug): for `/sock:host` the split stores two fields, the checks
of the field count let the value through, and `handle_port` reads the element
`s[2]`, which was never stored, as the port of the connect address. -/
theorem C26_unset_field_is_read :
    handle_port_split 4 "/sock:host".toList = ["/sock".toList, "host".toList] ∧
    handle_port true false "/sock:host".toList = PortResult.wild 2 ∧
    handle_port true true "/run/x:example.test".toList = PortResult.wild 2 := by
  decide


/-! ## Claim on the frames in flight -/

theorem winch_ready_tty (enc : Nat → UInt8 × UInt8) (win : Option winsize) (w : Winch) :
    winch_ready enc true win w
      = if w.winch_oob_sending then { w with winch_oob_pending := true }
        else send_winch enc win w := by
  simp [winch_ready]

theorem winch_ready_no_tty (enc : Nat → UInt8 × UInt8) (win : Option winsize) (w : Winch) :
    winch_ready enc false win w = w := by
  simp [winch_ready]

theorem winch_ready_inv (enc : Nat → UInt8 × UInt8) (isatty : Bool) (win : Option winsize)
    (w : Winch) (done : Nat)
    (hi : done ≤ w.sent.length ∧ w.sent.length - done ≤ 1 ∧
      (w.winch_oob_sending = true ↔ w.sent.length - done = 1) ∧
      (w.winch_oob_pending = true → w.winch_oob_sending = true)) :
    done ≤ (winch_ready enc isatty win w).sent.length ∧
    (winch_ready enc isatty win w).sent.length - done ≤ 1 ∧
    ((winch_ready enc isatty win w).winch_oob_sending = true ↔
      (winch_ready enc isatty win w).sent.length - done = 1) ∧
    ((winch_ready enc isatty win w).winch_oob_pending = true →
      (winch_ready enc isatty win w).winch_oob_sending = true) := by
  obtain ⟨h1, h2, h3, h4⟩ := hi
  cases isatty with
  | false =>
    rw [winch_ready_no_tty]
    exact ⟨h1, h2, h3, h4⟩
  | true =>
    rw [winch_ready_tty]
    cases hs : w.winch_oob_sending with
    | true =>
      simp only [if_true]
      rw [hs] at h3
      exact ⟨h1, h2, ⟨fun _ => h3.mp rfl, fun _ => trivial⟩, fun _ => trivial⟩
    | false =>
      simp only [Bool.false_eq_true, if_false]
      rw [hs] at h3 h4
      have hp : w.winch_oob_pending = false := by
        cases hp : w.winch_oob_pending with
        | false => rfl
        | true => exact absurd (h4 hp) (by decide)
      have h0 : w.sent.length - done ≠ 1 := fun h => absurd (h3.mpr h) (by decide)
      cases win with
      | none =>
        simp only [send_winch]
        exact ⟨h1, h2, ⟨fun h => absurd (hs ▸ h) (by decide), fun h => absurd h h0⟩,
          fun h => absurd (hp ▸ h) (by decide)⟩
      | some size =>
        simp only [send_winch, List.length_append, List.length_singleton]
        refine ⟨by omega, by omega, ⟨fun _ => by omega, fun _ => trivial⟩, fun _ => trivial⟩

theorem winch_sent_inv (enc : Nat → UInt8 × UInt8) (win : Option winsize)
    (w : Winch) (done : Nat) (hd : done < w.sent.length)
    (hi : done ≤ w.sent.length ∧ w.sent.length - done ≤ 1 ∧
      (w.winch_oob_sending = true ↔ w.sent.length - done = 1) ∧
      (w.winch_oob_pending = true → w.winch_oob_sending = true)) :
    done + 1 ≤ (winch_sent enc win w).sent.length ∧
    (winch_sent enc win w).sent.length - (done + 1) ≤ 1 ∧
    ((winch_sent enc win w).winch_oob_sending = true ↔
      (winch_sent enc win w).sent.length - (done + 1) = 1) ∧
    ((winch_sent enc win w).winch_oob_pending = true →
      (winch_sent enc win w).winch_oob_sending = true) := by
  obtain ⟨h1, h2, h3, h4⟩ := hi
  unfold winch_sent
  cases hp : w.winch_oob_pending with
  | false =>
    simp only [Bool.false_eq_true, if_false]
    refine ⟨by omega, by omega, ⟨fun h => absurd h (by decide), fun h => by omega⟩,
      fun h => ?_⟩
    exact h.elim
  | true =>
    simp only [if_true]
    cases win with
    | none =>
      simp only [send_winch]
      refine ⟨by omega, by omega, ⟨fun h => absurd h (by decide), fun h => by omega⟩,
        fun h => absurd h (by decide)⟩
    | some size =>
      simp only [send_winch, List.length_append, List.length_singleton]
      refine ⟨by omega, by omega, ⟨fun _ => by omega, fun _ => trivial⟩, fun _ => trivial⟩

theorem winch_run_inv (enc : Nat → UInt8 × UInt8) (evs : List WinchEv) (w w1 : Winch)
    (done done1 : Nat)
    (hi : done ≤ w.sent.length ∧ w.sent.length - done ≤ 1 ∧
      (w.winch_oob_sending = true ↔ w.sent.length - done = 1) ∧
      (w.winch_oob_pending = true → w.winch_oob_sending = true))
    (h : winch_run enc evs (w, done) = some (w1, done1)) :
    done1 ≤ w1.sent.length ∧ w1.sent.length - done1 ≤ 1 ∧
    (w1.winch_oob_sending = true ↔ w1.sent.length - done1 = 1) ∧
    (w1.winch_oob_pending = true → w1.winch_oob_sending = true) := by
  induction evs generalizing w done with
  | nil =>
    simp only [winch_run, Option.some.injEq, Prod.mk.injEq] at h
    obtain ⟨e1, e2⟩ := h
    subst e1 e2
    exact hi
  | cons ev rest ih =>
    cases ev with
    | ready isatty win =>
      simp only [winch_run] at h
      exact ih _ _ (winch_ready_inv enc isatty win w done hi) h
    | sent win =>
      simp only [winch_run] at h
      by_cases hd : done < w.sent.length
      · rw [if_pos hd] at h
        exact ih _ _ (winch_sent_inv enc win w done hd hi) h
      · rw [if_neg hd] at h
        exact Option.noConfusion h

/-- C23 (counterexample): with a frame outstanding and a second window
change pending, a completion at which `TIOCGWINSZ` fails clears
`winch_oob_pending` and hands over no frame; and a `winch_ready` that arrives
while a frame is outstanding and finds that standard input is not a terminal
does not set `winch_oob_pending`. -/
theorem C23_failed_ioctl_drops_pending :
    (winch_run u16_be
        [WinchEv.ready true (some (winsize.mk 24 80 640 480)),
         WinchEv.ready true (some (winsize.mk 30 100 800 600)),
         WinchEv.sent none] (Winch.init, 0)).map
      (fun r => (r.1.sent, r.1.winch_oob_pending, r.1.winch_oob_sending, r.2))
      = some ([[119, 0, 8, 0, 24, 0, 80, 2, 128, 1, 224]], false, false, 1) ∧
    (winch_run u16_be
        [WinchEv.ready true (some (winsize.mk 24 80 640 480)),
         WinchEv.ready false (some (winsize.mk 30 100 800 600))] (Winch.init, 0)).map
      (fun r => (r.1.sent, r.1.winch_oob_pending, r.1.winch_oob_sending, r.2))
      = some ([[119, 0, 8, 0, 24, 0, 80, 2, 128, 1, 224]], false, true, 0) := by
  decide

/-- C23 (amended): in every state reached from the start of the program by
`winch_ready` events and completions of frames handed to `ioinfo_sendoob`,
whatever `isatty` and `TIOCGWINSZ` answer, at most one frame is handed over
and not completed, `winch_oob_sending` is set exactly when one is, and
`winch_oob_pending` is set only then.  While a frame is outstanding a
`winch_ready` hands over nothing, and sets `winch_oob_pending` exactly when
`isatty(0)` holds.  A completion always clears `winch_oob_pending`; when it
was set, the completion hands over exactly one new frame if `TIOCGWINSZ`
reports a size, and none if it fails; when it was not set, none. -/
theorem C23_one_frame_in_flight (enc : Nat → UInt8 × UInt8) (evs : List WinchEv)
    (w : Winch) (done : Nat) (h : winch_run enc evs (Winch.init, 0) = some (w, done)) :
    done ≤ w.sent.length ∧ w.sent.length - done ≤ 1 ∧
    (w.winch_oob_sending = true ↔ w.sent.length - done = 1) ∧
    (w.winch_oob_pending = true → w.winch_oob_sending = true) ∧
    (w.winch_oob_sending = true → ∀ isatty win,
      (winch_ready enc isatty win w).sent = w.sent ∧
      (winch_ready enc isatty win w).winch_oob_sending = true ∧
      (winch_ready enc isatty win w).winch_oob_pending = (w.winch_oob_pending || isatty)) ∧
    (∀ win, (winch_sent enc win w).winch_oob_pending = false) ∧
    (w.winch_oob_pending = true → ∀ size, ∃ frame,
      (winch_sent enc (some size) w).sent = w.sent ++ [frame] ∧
      (winch_sent enc (some size) w).winch_oob_sending = true) ∧
    (w.winch_oob_pending = true →
      (winch_sent enc none w).sent = w.sent ∧
      (winch_sent enc none w).winch_oob_sending = false) ∧
    (w.winch_oob_pending = false → ∀ win,
      (winch_sent enc win w).sent = w.sent ∧
      (winch_sent enc win w).winch_oob_sending = false) := by
  obtain ⟨h1, h2, h3, h4⟩ := winch_run_inv enc evs Winch.init w 0 done
    ⟨Nat.zero_le _, by decide, by decide, by decide⟩ h
  refine ⟨h1, h2, h3, h4, ?_, ?_, ?_, ?_, ?_⟩
  · intro hs isatty win
    cases isatty with
    | false =>
      rw [winch_ready_no_tty]
      exact ⟨rfl, hs, by simp⟩
    | true =>
      rw [winch_ready_tty]
      simp [hs]
  · intro win
    cases hp : w.winch_oob_pending <;> cases win <;> simp [winch_sent, send_winch, hp]
  · intro hp size
    refine ⟨List.take 11 (u16_to_buf enc (u16_to_buf enc (u16_to_buf enc (u16_to_buf enc
      (u16_to_buf enc (w.winch_buf.set 0 119) 1 8) 3 size.ws_row) 5 size.ws_col)
      7 size.ws_xpixel) 9 size.ws_ypixel), ?_, ?_⟩
    · simp [winch_sent, send_winch, hp]
    · simp [winch_sent, send_winch, hp]
  · intro hp
    simp [winch_sent, send_winch, hp]
  · intro hp win
    simp [winch_sent, hp]

/-- Witness of C23: after a window change and a second one while the frame
is outstanding, `winch_oob_pending` is set, and the completion of the first
frame hands over one new frame. -/
theorem C23_one_frame_in_flight_witness :
    winch_run u16_be
        [WinchEv.ready true (some (winsize.mk 24 80 640 480)),
         WinchEv.ready true (some (winsize.mk 30 100 800 600))] (Winch.init, 0)
      = some ({ winch_buf := [119, 0, 8, 0, 24, 0, 80, 2, 128, 1, 224], len := 11,
                winch_oob_sending := true, winch_oob_pending := true,
                sent := [[119, 0, 8, 0, 24, 0, 80, 2, 128, 1, 224]] }, 0) ∧
    ∃ frame,
      (winch_sent u16_be (some (winsize.mk 30 100 800 600))
          { winch_buf := [119, 0, 8, 0, 24, 0, 80, 2, 128, 1, 224], len := 11,
            winch_oob_sending := true, winch_oob_pending := true,
            sent := [[119, 0, 8, 0, 24, 0, 80, 2, 128, 1, 224]] }).sent
        = [[119, 0, 8, 0, 24, 0, 80, 2, 128, 1, 224]] ++ [frame] ∧
      (winch_sent u16_be (some (winsize.mk 30 100 800 600))
          { winch_buf := [119, 0, 8, 0, 24, 0, 80, 2, 128, 1, 224], len := 11,
            winch_oob_sending := true, winch_oob_pending := true,
            sent := [[119, 0, 8, 0, 24, 0, 80, 2, 128, 1, 224]] }).winch_oob_sending = true :=
  have h : winch_run u16_be
        [WinchEv.ready true (some (winsize.mk 24 80 640 480)),
         WinchEv.ready true (some (winsize.mk 30 100 800 600))] (Winch.init, 0)
      = some ({ winch_buf := [119, 0, 8, 0, 24, 0, 80, 2, 128, 1, 224], len := 11,
                winch_oob_sending := true, winch_oob_pending := true,
                sent := [[119, 0, 8, 0, 24, 0, 80, 2, 128, 1, 224]] }, 0) := by decide
  ⟨h, (C23_one_frame_in_flight u16_be _ _ _ h).2.2.2.2.2.2.1 rfl (winsize.mk 30 100 800 600)⟩

/-! ## Claim on the password buffer -/

theorem Block.store_one (pw : Block) (pos : Nat) (x : Char) (h : pos < pw.bytes.length) :
    pw.store pos [x] = Block.mk (pw.bytes.set pos x) pw.overrun := by
  unfold Block.store
  have h1 : pos + [x].length ≤ pw.bytes.length := by
    simp only [List.length_singleton]; omega
  rw [if_pos h1, List.set_eq_take_append_cons_drop, if_pos h]
  simp

theorem getpassword_loop_safe (reads : List ReadRes) (c : Char) (pw : Block) (pos len : Nat)
    (r : Int × Block × Nat) (hp : pos ≤ len) (hl : len ≤ pw.bytes.length)
    (h : getpassword_loop reads c pw pos len = some r) :
    r.2.1.overrun = pw.overrun ∧ r.2.1.bytes.length = pw.bytes.length ∧
    r.2.1.bytes.drop len = pw.bytes.drop len ∧ r.2.2 ≤ len := by
  induction reads generalizing c pw pos with
  | nil => simp [getpassword_loop] at h
  | cons rd rest ih =>
    have hstore : ∀ x, pos < len →
        (pw.store pos [x]).overrun = pw.overrun ∧
        (pw.store pos [x]).bytes.length = pw.bytes.length ∧
        (pw.store pos [x]).bytes.drop len = pw.bytes.drop len := by
      intro x hx
      rw [Block.store_one pw pos x (by omega)]
      exact ⟨rfl, List.length_set _ _ _, List.drop_set_of_lt x pw.bytes hx⟩
    have key : ∀ c1 : Char,
        (if c1 = '\r' ∨ c1 = '\n' then
          if pos < len then some (0, pw.store pos ['\x00'], pos + 1) else some (0, pw, pos)
        else if pos < len then getpassword_loop rest c1 (pw.store pos [c1]) (pos + 1) len
        else getpassword_loop rest c1 pw pos len) = some r →
        r.2.1.overrun = pw.overrun ∧ r.2.1.bytes.length = pw.bytes.length ∧
        r.2.1.bytes.drop len = pw.bytes.drop len ∧ r.2.2 ≤ len := by
      intro c1 h1
      by_cases hc : c1 = '\r' ∨ c1 = '\n'
      · rw [if_pos hc] at h1
        by_cases hlt : pos < len
        · rw [if_pos hlt] at h1
          simp only [Option.some.injEq] at h1
          subst h1
          obtain ⟨a, b, d⟩ := hstore '\x00' hlt
          exact ⟨a, b, d, hlt⟩
        · rw [if_neg hlt] at h1
          simp only [Option.some.injEq] at h1
          subst h1
          exact ⟨rfl, rfl, rfl, hp⟩
      · rw [if_neg hc] at h1
        by_cases hlt : pos < len
        · rw [if_pos hlt] at h1
          obtain ⟨a, b, d⟩ := hstore c1 hlt
          obtain ⟨a1, b1, d1, e1⟩ := ih c1 (pw.store pos [c1]) (pos + 1) hlt (by omega) h1
          exact ⟨a1.trans a, b1.trans b, d1.trans d, e1⟩
        · rw [if_neg hlt] at h1
          exact ih c1 pw pos hp hl h1
    cases rd with
    | fail e =>
      simp only [getpassword_loop, Option.some.injEq] at h
      subst h
      exact ⟨rfl, rfl, rfl, Nat.le_refl _⟩
    | char x =>
      simp only [getpassword_loop] at h
      exact key x h
    | eof =>
      simp only [getpassword_loop] at h
      exact key c h

theorem password_stored_cons (x : Char) (xs : List Char) (pos len : Nat) (h : pos < len) :
    password_stored (x :: xs) pos len = x :: password_stored xs (pos + 1) len := by
  unfold password_stored
  simp only [List.length_cons]
  by_cases h1 : pos + (xs.length + 1) < len
  · rw [if_pos h1, if_pos (by omega)]
    rfl
  · rw [if_neg h1, if_neg (by omega)]
    have e : len - pos = (len - (pos + 1)) + 1 := by omega
    rw [e, List.take_succ_cons]

theorem getpassword_loop_char (x : Char) (reads : List ReadRes) (c : Char) (pw : Block)
    (pos len : Nat) :
    getpassword_loop (ReadRes.char x :: reads) c pw pos len
      = if x = '\r' ∨ x = '\n' then
          if pos < len then some (0, pw.store pos ['\x00'], pos + 1) else some (0, pw, pos)
        else if pos < len then getpassword_loop reads x (pw.store pos [x]) (pos + 1) len
        else getpassword_loop reads x pw pos len := by
  simp only [getpassword_loop]

theorem getpassword_loop_typed (typed : List Char) (t : Char) (rest : List ReadRes) (c : Char)
    (pw : Block) (pos len : Nat) (ht : t = '\r' ∨ t = '\n')
    (hty : ∀ x ∈ typed, ¬ (x = '\r' ∨ x = '\n')) (hp : pos ≤ len)
    (hl : len ≤ pw.bytes.length) :
    getpassword_loop (typed.map ReadRes.char ++ ReadRes.char t :: rest) c pw pos len
      = some (0,
          Block.mk (pw.bytes.take pos ++ password_stored typed pos len
            ++ pw.bytes.drop (pos + (password_stored typed pos len).length)) pw.overrun,
          pos + (password_stored typed pos len).length) := by
  induction typed generalizing c pw pos with
  | nil =>
    rw [List.map_nil, List.nil_append, getpassword_loop_char, if_pos ht]
    by_cases hlt : pos < len
    · have e : password_stored [] pos len = ['\x00'] := by
        simp [password_stored, hlt]
      rw [if_pos hlt, e, Block.store_one pw pos _ (by omega),
        List.set_eq_take_append_cons_drop, if_pos (by omega)]
      simp
    · have e : password_stored [] pos len = [] := by
        simp [password_stored, hlt]
      rw [if_neg hlt, e]
      simp
  | cons x xs ih =>
    have hx : ¬ (x = '\r' ∨ x = '\n') := hty x (List.mem_cons_self _ _)
    have hxs : ∀ y ∈ xs, ¬ (y = '\r' ∨ y = '\n') :=
      fun y hy => hty y (List.mem_cons_of_mem _ hy)
    rw [List.map_cons, List.cons_append, getpassword_loop_char, if_neg hx]
    by_cases hlt : pos < len
    · rw [if_pos hlt, Block.store_one pw pos x (by omega)]
      have hb : pos < pw.bytes.length := by omega
      rw [ih x (Block.mk (pw.bytes.set pos x) pw.overrun) (pos + 1) hxs hlt
        (by simp only [List.length_set]; exact hl), password_stored_cons x xs pos len hlt]
      simp only [List.length_cons]
      have e1 : (pw.bytes.set pos x).take (pos + 1) = pw.bytes.take pos ++ [x] := by
        rw [List.set_eq_take_append_cons_drop, if_pos hb]
        have : (pw.bytes.take pos ++ [x]).length = pos + 1 := by
          simp only [List.length_append, List.length_take, List.length_singleton]; omega
        rw [show pw.bytes.take pos ++ x :: pw.bytes.drop (pos + 1)
            = (pw.bytes.take pos ++ [x]) ++ pw.bytes.drop (pos + 1) by simp]
        exact List.take_left' this
      have e2 : ∀ k, (pw.bytes.set pos x).drop (pos + 1 + k) = pw.bytes.drop (pos + (k + 1)) := by
        intro k
        rw [List.drop_set_of_lt x pw.bytes (by omega)]
        congr 1
        omega
      rw [e1, e2]
      simp only [List.append_assoc, List.singleton_append, Option.some.injEq, Prod.mk.injEq,
        true_and, and_true]
      omega
    · have e : password_stored (x :: xs) pos len = [] := by
        unfold password_stored
        rw [if_neg (by simp only [List.length_cons]; omega)]
        have : len - pos = 0 := by omega
        rw [this, List.take_zero]
      have e0 : password_stored xs pos len = [] := by
        unfold password_stored
        rw [if_neg (by omega)]
        have : len - pos = 0 := by omega
        rw [this, List.take_zero]
      rw [if_neg hlt, ih x pw pos hxs hp hl, e, e0]

theorem sys_call_ok (n : Nat) (sys : List SysRes)
    (h : ∀ e, SysRes.fail e ∉ sys.take (n + 1)) :
    (∀ e, (sys_call sys).1 ≠ SysRes.fail e) ∧ ∀ e, SysRes.fail e ∉ (sys_call sys).2.take n := by
  cases sys with
  | nil =>
    refine ⟨fun e he => ?_, fun e he => ?_⟩
    · simp [sys_call] at he
    · simp [sys_call] at he
  | cons r rest =>
    simp only [List.take_succ_cons, List.mem_cons, not_or] at h
    refine ⟨fun e he => ?_, fun e => (h e).2⟩
    simp only [sys_call] at he
    exact (h e).1 he.symm

theorem getpassword_ok (sys : List SysRes) (reads : List ReadRes) (pw : Block) (len : Nat)
    (h : ∀ e, SysRes.fail e ∉ sys.take 4) :
    getpassword sys reads pw len
      = (getpassword_loop reads '\x00' pw 0 len).map
          (fun r => (Outcome.ret r.1, r.2.1, r.2.2)) := by
  unfold getpassword
  obtain ⟨a1, b1⟩ := sys_call_ok 3 sys h
  generalize sys_call sys = r1 at a1 b1
  obtain ⟨x1, s1⟩ := r1
  simp only at a1 b1
  cases x1 <;> first | exact absurd rfl (a1 _) | skip
  all_goals
    simp only []
    obtain ⟨a2, b2⟩ := sys_call_ok 2 s1 b1
    generalize sys_call s1 = r2 at a2 b2
    obtain ⟨x2, s2⟩ := r2
    simp only at a2 b2
    cases x2 <;> first | exact absurd rfl (a2 _) | skip
    all_goals
      simp only []
      obtain ⟨a3, b3⟩ := sys_call_ok 1 s2 b2
      generalize sys_call s2 = r3 at a3 b3
      obtain ⟨x3, s3⟩ := r3
      simp only at a3 b3
      cases x3 <;> first | exact absurd rfl (a3 _) | skip
      all_goals
        simp only []
        obtain ⟨a4, _⟩ := sys_call_ok 0 s3 b3
        generalize sys_call s3 = r4 at a4
        obtain ⟨x4, s4⟩ := r4
        simp only at a4
        cases x4 <;> first | exact absurd rfl (a4 _) | rfl

theorem getpassword_safe (sys : List SysRes) (reads : List ReadRes) (pw : Block) (len : Nat)
    (r : Outcome × Block × Nat) (hl : len ≤ pw.bytes.length)
    (h : getpassword sys reads pw len = some r) :
    r.2.1.overrun = pw.overrun ∧ r.2.1.bytes.length = pw.bytes.length ∧
    r.2.1.bytes.drop len = pw.bytes.drop len ∧ r.2.2 ≤ len := by
  have early : ∀ o : Outcome, some (o, pw, len) = some r →
      r.2.1.overrun = pw.overrun ∧ r.2.1.bytes.length = pw.bytes.length ∧
      r.2.1.bytes.drop len = pw.bytes.drop len ∧ r.2.2 ≤ len := by
    intro o ho
    simp only [Option.some.injEq] at ho
    subst ho
    exact ⟨rfl, rfl, rfl, Nat.le_refl _⟩
  have late : (getpassword_loop reads '\x00' pw 0 len).map
        (fun r => (Outcome.ret r.1, r.2.1, r.2.2)) = some r →
      r.2.1.overrun = pw.overrun ∧ r.2.1.bytes.length = pw.bytes.length ∧
      r.2.1.bytes.drop len = pw.bytes.drop len ∧ r.2.2 ≤ len := by
    intro hm
    cases hg : getpassword_loop reads '\x00' pw 0 len with
    | none => simp [hg] at hm
    | some q =>
      simp only [hg, Option.map_some', Option.some.injEq] at hm
      subst hm
      exact getpassword_loop_safe reads '\x00' pw 0 len q (Nat.zero_le _) hl hg
  unfold getpassword at h
  split at h
  · exact early _ h
  · split at h
    · exact early _ h
    · split at h
      · exact early _ h
      · split at h
        · exact early _ h
        · exact late h

/-- C27: for a buffer of at least `*len = L` bytes, every `getpassword` that
returns has stored nothing past `pw[L-1]` and leaves `*len` at most `L`; when
the terminal calls succeed and `n` characters are typed before a carriage
return or line feed, it returns 0, and for `n < L` the buffer holds the
characters and a NUL with `*len = n + 1`, for `n ≥ L` it holds the first `L`
characters with `*len = L`. -/
theorem C27_password_buffer (sys : List SysRes) (pw : Block) (len : Nat)
    (hl : len ≤ pw.bytes.length) :
    (∀ reads r, getpassword sys reads pw len = some r →
      r.2.1.overrun = pw.overrun ∧ r.2.1.bytes.length = pw.bytes.length ∧
      r.2.1.bytes.drop len = pw.bytes.drop len ∧ r.2.2 ≤ len) ∧
    (∀ (typed : List Char) (t : Char) (rest : List ReadRes),
      (∀ e, SysRes.fail e ∉ sys.take 4) → (t = '\r' ∨ t = '\n') →
      (∀ x ∈ typed, ¬ (x = '\r' ∨ x = '\n')) →
      ∃ pw1 len1,
        getpassword sys (typed.map ReadRes.char ++ ReadRes.char t :: rest) pw len
          = some (Outcome.ret 0, pw1, len1) ∧
        (typed.length < len →
          pw1.bytes.take len1 = typed ++ ['\x00'] ∧ len1 = typed.length + 1) ∧
        (len ≤ typed.length → pw1.bytes.take len = typed.take len ∧ len1 = len)) := by
  refine ⟨fun reads r h => getpassword_safe sys reads pw len r hl h, ?_⟩
  intro typed t rest hs ht hty
  rw [getpassword_ok sys _ pw len hs,
    getpassword_loop_typed typed t rest '\x00' pw 0 len ht hty (Nat.zero_le _) hl]
  refine ⟨_, _, rfl, ?_, ?_⟩
  · intro hn
    have e : password_stored typed 0 len = typed ++ ['\x00'] := by
      unfold password_stored
      rw [if_pos (by omega)]
    simp only [e, List.take_zero, List.nil_append, Nat.zero_add, List.length_append,
      List.length_singleton, and_true]
    rw [List.take_left' (by simp)]
  · intro hn
    have e : password_stored typed 0 len = typed.take len := by
      unfold password_stored
      rw [if_neg (by omega)]
      rfl
    simp only [e, List.take_zero, List.nil_append, Nat.zero_add, List.length_take]
    refine ⟨?_, by omega⟩
    rw [List.take_left' (by simp only [List.length_take]; omega)]

/-- Witness of C27: `abc` and a line feed typed into a buffer of 8 bytes. -/
theorem C27_password_buffer_witness :
    ∃ pw1 len1,
      getpassword [] ("abc".toList.map ReadRes.char ++ ReadRes.char '\n' :: [])
          (malloc '?' 8) 8
        = some (Outcome.ret 0, pw1, len1) ∧
      ("abc".toList.length < 8 →
        pw1.bytes.take len1 = "abc".toList ++ ['\x00'] ∧ len1 = "abc".toList.length + 1) ∧
      (8 ≤ "abc".toList.length → pw1.bytes.take 8 = "abc".toList.take 8 ∧ len1 = 8) :=
  (C27_password_buffer [] (malloc '?' 8) 8 (by decide)).2 "abc".toList '\n' []
    (fun _ he => nomatch he) (Or.inr rfl) (by decide)


theorem handle_port_split_length (n : Nat) (addr : CStr) :
    (handle_port_split (n + 1) addr).length ≤ n + 1 ∧
    1 ≤ (handle_port_split (n + 1) addr).length := by
  induction n generalizing addr with
  | zero =>
    unfold handle_port_split
    split <;> simp [handle_port_split]
  | succ k ih =>
    unfold handle_port_split
    split
    · simp
    · rename_i rest _
      have := ih rest
      simp only [List.length_cons]
      omega

/-- The only values for which `handle_port` reads an element of `s` that the
split did not store are those of two fields, a unix socket path followed by
a field that is not a path; the element read is `s[2]`. -/
theorem handle_port_wild (strdup_ok remote : Bool) (iaddr : CStr) (i : Nat)
    (h : handle_port strdup_ok remote iaddr = PortResult.wild i) :
    i = 2 ∧ ∃ a b, handle_port_split 4 iaddr = [a, b] ∧ is_unix_path a = true ∧
      is_unix_path b = false := by
  unfold handle_port at h
  cases strdup_ok with
  | false => simp at h
  | true =>
    simp only [Bool.not_true, Bool.false_eq_true, not_false_eq_true, if_false,
      not_true_eq_false] at h
    cases hA : handle_port_addr 4 iaddr with
    | some x =>
      rw [hA] at h
      exact PortResult.noConfusion h
    | none =>
    rw [hA] at h
    simp only [] at h
    have hlen := handle_port_split_length 3 iaddr
    generalize handle_port_split 4 iaddr = s at h hlen
    match s, hlen with
    | [a], _ =>
      simp [handle_port_has_bind, bind, Except.bind] at h
    | [a, b], _ =>
      cases ha : is_unix_path a <;> cases hb : is_unix_path b <;>
        simp [handle_port_has_bind, handle_port_field, handle_port_accepter,
          handle_port_connecter, bind, Except.bind, pure, Except.pure, ha, hb] at h
      · generalize validate_port none a = v1 at h
        cases v1 <;> simp [hb] at h
      · exact ⟨h.symm, a, b, rfl, ha, hb⟩
    | [a, b, c], _ =>
      cases ha : is_unix_path a <;> cases hb : is_unix_path b <;> cases hc : is_unix_path c <;>
        simp [handle_port_has_bind, handle_port_field, handle_port_accepter,
          handle_port_connecter, bind, Except.bind, pure, Except.pure, ha, hb, hc] at h
      all_goals
        cases hv1 : validate_port none a <;> cases hv2 : validate_port (some b) c <;>
          cases hv3 : validate_port (some a) b <;> simp [hv1, hv2, hv3, ha, hb, hc] at h
    | [a, b, c, d], _ =>
      cases ha : is_unix_path a <;> cases hd : is_unix_path d <;> cases hc : is_unix_path c <;>
        simp [handle_port_has_bind, handle_port_field, handle_port_accepter,
          handle_port_connecter, bind, Except.bind, pure, Except.pure, ha, hc, hd] at h
      all_goals
        cases hv1 : validate_port (some a) b <;> cases hv2 : validate_port (some c) d <;>
          simp [hv1, hv2, ha, hc, hd] at h


theorem count_colon_dropWhile (addr : CStr) :
    addr.count ':' = (addr.dropWhile (fun c => c != ':')).count ':' := by
  induction addr with
  | nil => rfl
  | cons c cs ih =>
    by_cases hc : c = ':'
    · subst hc
      simp [List.dropWhile_cons]
    · have hb : (c != ':') = true := by simpa using hc
      rw [List.dropWhile_cons, hb, if_pos rfl, List.count_cons_of_ne (Ne.symm hc), ih]

theorem head_dropWhile_colon (addr : CStr) (c : Char) (rest : CStr)
    (h : addr.dropWhile (fun c => c != ':') = c :: rest) : c = ':' := by
  have := List.head_dropWhile_not (fun c => c != ':') addr (by rw [h]; simp)
  simp only [h, List.head_cons] at this
  simpa using this

/-- After the loop of `handle_port` the pointer `addr` is not NULL exactly
when the value holds four or more colons. -/
theorem handle_port_addr_isSome (n : Nat) (addr : CStr) :
    (handle_port_addr n addr).isSome = true ↔ n ≤ addr.count ':' := by
  induction n generalizing addr with
  | zero => simp [handle_port_addr]
  | succ k ih =>
    unfold handle_port_addr
    have hc := count_colon_dropWhile addr
    cases hd : addr.dropWhile (fun c => c != ':') with
    | nil =>
      rw [hd] at hc
      simp only [Option.isSome_none, Bool.false_eq_true, false_iff]
      rw [hc]
      simp
    | cons c rest =>
      have hcol := head_dropWhile_colon addr c rest hd
      subst hcol
      rw [hd, List.count_cons_self] at hc
      simp only []
      rw [ih rest, hc]
      omega

/-- The value `a:1:b:2:c` has four colons: the forward of its first four
fields is registered, and `free` then gets a pointer into the copy. -/
theorem handle_port_four_colons :
    handle_port true false "a:1:b:2:c".toList
      = PortResult.bad_free
          (PortResult.forward false "tcp,a,1".toList "tcp,b,2".toList "a:1:b:2:c".toList) := by
  decide

end Gensio
